import Mathlib

/-!
# Verification of the AP2 mandate core (`ucp-exploration`)

A shallow embedding of the cryptographic / protocol-verification core of the
repository:

* `src/services/shared/ap2_crypto.py` — base64url, JCS canonicalization,
  ECDSA detached signatures, JWT and SD-JWT+kb creation / verification;
* `src/services/business-2/ap2.py` — the merchant-side mandate verifier and
  its usage ledger;
* `src/services/psp/main.py` — the payment-processor-side intent-mandate
  verifier and its usage ledger.

Modelling conventions:

* Bytes are `Fin 256`; Python `bytes` values are `List (Fin 256)`.
* The external `cryptography` library's ECDSA P-256 primitive
  (`_sign_raw` / `_verify_raw`) is modelled as an idealized deterministic
  signature scheme: a signature validates under exactly the public point whose
  key produced it, over exactly the signed bytes (`sigBytes` below).
* SHA-256 (`hashlib`), also external, is modelled as an injective byte
  function (`sha256Bytes`), idealizing collision resistance.
* Python exceptions become `Except PyErr`; `binascii.Error` and
  `json.JSONDecodeError` are `ValueError` subclasses in Python, which the
  error-class predicate `PyErr.isValueError` reflects.
* Python `str.split(sep)` for a one-character separator is modelled by
  `pySplit` below.
-/

set_option maxRecDepth 16384

namespace AP2

/-! ## Bytes -/

abbrev Byte := Fin 256

abbrev Bytes := List Byte

/-- Build a byte from a natural number (values ≥ 256 wrap; all uses stay
below 256). -/
def byte (n : Nat) : Byte := ⟨n % 256, Nat.mod_lt n (by decide)⟩

/-- UTF-8 encoding of a single character (RFC 3629). -/
def utf8EncodeCharM (c : Char) : Bytes :=
  let n := c.toNat
  if n < 0x80 then [byte n]
  else if n < 0x800 then [byte (0xC0 + n / 64), byte (0x80 + n % 64)]
  else if n < 0x10000 then
    [byte (0xE0 + n / 4096), byte (0x80 + n / 64 % 64), byte (0x80 + n % 64)]
  else
    [byte (0xF0 + n / 262144), byte (0x80 + n / 4096 % 64),
     byte (0x80 + n / 64 % 64), byte (0x80 + n % 64)]

/-- Models Python's `s.encode("utf-8")` (and `s.encode("ascii")` on the ASCII
strings the code applies it to). -/
def utf8Bytes (s : String) : Bytes := (s.data.map utf8EncodeCharM).flatten

/-! ## base64url (`b64url_encode` / `b64url_decode`) -/

/-- The URL-safe base64 alphabet (RFC 4648 §5). -/
def b64Alphabet : List Char :=
  "ABCDEFGHIJKLMNOPQRSTUVWXYZabcdefghijklmnopqrstuvwxyz0123456789-_".data

def b64Char (n : Nat) : Char := b64Alphabet.getD n 'A'

def charIndexIn (c : Char) : List Char → Option Nat
  | [] => none
  | d :: rest => if c = d then some 0 else (charIndexIn c rest).map (· + 1)

/-- Position of a character in the base64url alphabet ( `none` for `=` and
any other non-alphabet character). -/
def b64CharIndex? (c : Char) : Option Nat := charIndexIn c b64Alphabet

/-- Encoding of a byte list into base64url characters, three bytes giving
four sextets, without padding (the source strips the `=` padding). -/
def b64EncodeChars : Bytes → List Char
  | [] => []
  | [a] => [b64Char (a.val / 4), b64Char (a.val % 4 * 16)]
  | [a, b] =>
    [b64Char (a.val / 4), b64Char (a.val % 4 * 16 + b.val / 16),
     b64Char (b.val % 16 * 4)]
  | a :: b :: c :: rest =>
    b64Char (a.val / 4) :: b64Char (a.val % 4 * 16 + b.val / 16) ::
      b64Char (b.val % 16 * 4 + c.val / 64) :: b64Char (c.val % 64) ::
      b64EncodeChars rest

/-- Models `b64url_encode`: URL-safe base64 with the padding stripped. -/
def b64urlEncode (bs : Bytes) : String := ⟨b64EncodeChars bs⟩

/-- The sextet values of the base64url encoding (decoder's view of
`b64EncodeChars`). -/
def b64Sextets : Bytes → List Nat
  | [] => []
  | [a] => [a.val / 4, a.val % 4 * 16]
  | [a, b] => [a.val / 4, a.val % 4 * 16 + b.val / 16, b.val % 16 * 4]
  | a :: b :: c :: rest =>
    a.val / 4 :: (a.val % 4 * 16 + b.val / 16) :: (b.val % 16 * 4 + c.val / 64) ::
      c.val % 64 :: b64Sextets rest

/-- Reassemble bytes from base64 sextets (groups of four give three bytes; a
trailing group of two or three gives one or two bytes). -/
def b64DecodeGroups : List Nat → Bytes
  | s1 :: s2 :: s3 :: s4 :: rest =>
    byte (s1 * 4 + s2 / 16) :: byte (s2 % 16 * 16 + s3 / 4) ::
      byte (s3 % 4 * 64 + s4) :: b64DecodeGroups rest
  | [s1, s2] => [byte (s1 * 4 + s2 / 16)]
  | [s1, s2, s3] => [byte (s1 * 4 + s2 / 16), byte (s2 % 16 * 16 + s3 / 4)]
  | _ => []

/-- Failures of `b64url_decode`: the two `binascii.Error`s of CPython's
`a2b_base64` (a leftover quad position of 1 versus 2/3), and the plain
`ValueError` that `_bytes_from_decode_data` raises on a non-ASCII argument.
All three are `ValueError` subclasses. -/
inductive B64Err where
  | invalidLength (n : Nat)
  | incorrectPadding
  | notAscii
deriving DecidableEq

/-- The exact exception texts of the three decode failures. -/
def B64Err.msg : B64Err → String
  | .invalidLength n =>
    "Invalid base64-encoded string: number of data characters (" ++ toString n ++
      ") cannot be 1 more than a multiple of 4"
  | .incorrectPadding => "Incorrect padding"
  | .notAscii => "string argument should contain only ASCII characters"

/-- Decode table: `urlsafe_b64decode` translates `-` to `+` and `_` to `/`
and leaves `+` and `/` alone, so all four are data characters for
`a2b_base64`. -/
def b64DecIndex? (c : Char) : Option Nat :=
  if c = '+' then some 62 else if c = '/' then some 63 else b64CharIndex? c

/-- CPython's non-strict `binascii.a2b_base64` loop, state for state:
`qp` is `quad_pos`, `lc` is `leftchar`, `pads` counts pending pad
characters (reset by every data character, only counted once `quad_pos`
reaches 2), `acc` holds the emitted bytes in reverse. Bytes are emitted
incrementally, one per data character past the first of a quad; a pad that
completes a quad (`quad_pos + pads ≥ 4`) ends decoding successfully with
whatever was emitted; characters outside the table are discarded; input
exhausted at `quad_pos` 1 is the impossible-length error, at 2 or 3 the
incorrect-padding error. -/
def a2bBase64 : List Char → Nat → Nat → Nat → Bytes → Except B64Err Bytes
  | [], qp, _, _, acc =>
    if qp = 0 then .ok acc.reverse
    else if qp = 1 then .error (.invalidLength (acc.length / 3 * 4 + 1))
    else .error .incorrectPadding
  | c :: rest, qp, lc, pads, acc =>
    if c = '=' then
      if 2 ≤ qp ∧ 4 ≤ qp + (pads + 1) then .ok acc.reverse
      else a2bBase64 rest qp lc (if 2 ≤ qp then pads + 1 else pads) acc
    else
      match b64DecIndex? c with
      | none => a2bBase64 rest qp lc pads acc
      | some v =>
        if qp = 0 then a2bBase64 rest 1 v 0 acc
        else if qp = 1 then a2bBase64 rest 2 (v % 16) 0 (byte (lc * 4 + v / 16) :: acc)
        else if qp = 2 then a2bBase64 rest 3 (v % 4) 0 (byte (lc * 16 + v / 4) :: acc)
        else a2bBase64 rest 0 0 0 (byte (lc * 64 + v) :: acc)

/-- Models `b64url_decode`: append `=` padding up to a multiple of 4 of the
raw length (junk characters included, as `len(s)` counts them), then
`base64.urlsafe_b64decode`, which requires a pure-ASCII argument and runs
the `a2b_base64` machine. -/
def b64url_decode (s : String) : Except B64Err Bytes :=
  if s.data.all (fun c => c.toNat < 128) then
    a2bBase64 (s.data ++ List.replicate ((4 - s.data.length % 4) % 4) '=') 0 0 0 []
  else .error .notAscii

/-! ## Python `str.split` on a one-character separator -/

def splitChars (sep : Char) : List Char → List (List Char)
  | [] => [[]]
  | c :: rest =>
    if c = sep then [] :: splitChars sep rest
    else
      match splitChars sep rest with
      | [] => [[c]]
      | g :: gs => (c :: g) :: gs

/-- Models Python's `s.split(sep)` for a one-character separator `sep`
(`"".split(".") == [""]`, `"a.".split(".") == ["a", ""]`). -/
def pySplit (sep : Char) (s : String) : List String :=
  (splitChars sep s.data).map String.mk

/-! ## JSON values

Python dicts are modelled as association lists in insertion order (Python
dicts preserve insertion order); well-formed values (`wfB`) have no duplicate
keys, which real dicts guarantee. -/

inductive JVal where
  | null
  | bool (b : Bool)
  | num (n : Int)
  | str (s : String)
  | arr (elems : List JVal)
  | obj (entries : List (String × JVal))

/-- Lookup of key `k`, modelling `d.get(k)` / `d[k]`: the binding of `k`,
if any. -/
def jlookup (k : String) : List (String × JVal) → Option JVal
  | [] => none
  | (k', v) :: rest => if k' = k then some v else jlookup k rest

/-- Update `d[k] = v`: replace the binding in place if the key exists
(Python keeps the original position), otherwise append. -/
def assocSet (l : List (String × JVal)) (k : String) (v : JVal) :
    List (String × JVal) :=
  match l with
  | [] => [(k, v)]
  | (k', v') :: rest => if k' = k then (k, v) :: rest else (k', v') :: assocSet rest k v

/-- Removal `d.pop(k, None)`: drop the binding of `k`, if any. -/
def assocRemove (l : List (String × JVal)) (k : String) : List (String × JVal) :=
  match l with
  | [] => []
  | (k', v') :: rest => if k' = k then rest else (k', v') :: assocRemove rest k

/-- No duplicate keys at the top level of an entry list. -/
def keysNodupB : List (String × JVal) → Bool
  | [] => true
  | (k, _) :: rest => rest.all (fun q => q.1 != k) && keysNodupB rest

mutual

/-- A value as a Python dict tree can actually produce it: no duplicate
object keys, recursively. -/
def wfB : JVal → Bool
  | .null => true
  | .bool _ => true
  | .num _ => true
  | .str _ => true
  | .arr xs => wfBList xs
  | .obj l => keysNodupB l && wfBEntries l

def wfBList : List JVal → Bool
  | [] => true
  | v :: r => wfB v && wfBList r

def wfBEntries : List (String × JVal) → Bool
  | [] => true
  | (_, v) :: r => wfB v && wfBEntries r

end

/-- Python truthiness (`if x:`) of a JSON value. -/
def jvalTruthy : JVal → Bool
  | .null => false
  | .bool b => b
  | .num n => n != 0
  | .str s => s ≠ ""
  | .arr xs => !xs.isEmpty
  | .obj l => !l.isEmpty

/-- Python `v == s` for a string literal `s` (only a `str` compares equal). -/
def jvalIsStr (v : JVal) (s : String) : Bool :=
  match v with
  | .str t => t = s
  | _ => false

/-- Python `v == n` for an int literal `n` (`True == 1`, `False == 0`). -/
def jvalEqNum (v : JVal) (n : Int) : Bool :=
  match v with
  | .num m => m = n
  | .bool b => (if b then (1 : Int) else 0) = n
  | _ => false

/-- Python `int(x)` views of a JSON number-like value (`bool` is an `int`
subclass); `none` when the comparison would raise `TypeError`. -/
def pyNum? : JVal → Option Int
  | .num n => some n
  | .bool b => some (if b then 1 else 0)
  | _ => none

/-! ## JSON serialization (`json.dumps(..., separators=(",", ":"))`) -/

def hexDigit (n : Nat) : Char := "0123456789abcdef".data.getD n '0'

/-- JSON string-character escaping as `json.dumps` emits it with
`ensure_ascii=False`: `"`, `\`, the five short control escapes, `\u00XX`
for other control characters, everything else verbatim. -/
def escapeJsonChar (c : Char) : List Char :=
  if c = '"' then ['\\', '"']
  else if c = '\\' then ['\\', '\\']
  else if c = '\n' then ['\\', 'n']
  else if c = '\t' then ['\\', 't']
  else if c = '\r' then ['\\', 'r']
  else if c = '\x08' then ['\\', 'b']
  else if c = '\x0C' then ['\\', 'f']
  else if c.toNat < 0x20 then
    ['\\', 'u', '0', '0', hexDigit (c.toNat / 16), hexDigit (c.toNat % 16)]
  else [c]

def escapeJsonString (s : String) : List Char :=
  '"' :: (s.data.map escapeJsonChar).flatten ++ ['"']

/-- Decimal digits of a natural number (what Python's `repr` prints for a
non-negative int); the fuel argument only bounds the recursion. -/
def natDigitsAux : Nat → Nat → List Char → List Char
  | 0, _, acc => acc
  | fuel + 1, n, acc =>
    if n < 10 then Nat.digitChar n :: acc
    else natDigitsAux fuel (n / 10) (Nat.digitChar (n % 10) :: acc)

def natChars (n : Nat) : List Char := natDigitsAux (n + 1) n []

/-- Decimal rendering of an int, as `json.dumps` writes numbers. -/
def intChars : Int → List Char
  | .ofNat n => natChars n
  | .negSucc m => '-' :: natChars (m + 1)

mutual

/-- Compact serialization: models `json.dumps(v, separators=(",", ":"))` in
insertion order (no key sorting), as `create_jwt` and `sign_detached`
serialize headers and payloads. `create_jwt` leaves `ensure_ascii` at its
default; we model the `ensure_ascii=False` byte image throughout, which
changes only how non-ASCII text is spelled, never which values compare
equal. -/
def dumpsChars : JVal → List Char
  | .num n => intChars n
  | .str s => escapeJsonString s
  | .arr xs => '[' :: (dumpsArr xs ++ [']'])
  | .obj l => '\x7b' :: (dumpsObj l ++ ['\x7d'])
  | .bool true => ['t', 'r', 'u', 'e']
  | .bool false => ['f', 'a', 'l', 's', 'e']
  | .null => ['n', 'u', 'l', 'l']

def dumpsArr : List JVal → List Char
  | [] => []
  | [v] => dumpsChars v
  | v :: rest => dumpsChars v ++ ',' :: dumpsArr rest

def dumpsObj : List (String × JVal) → List Char
  | [] => []
  | [(k, v)] => escapeJsonString k ++ ':' :: dumpsChars v
  | (k, v) :: rest => escapeJsonString k ++ ':' :: dumpsChars v ++ ',' :: dumpsObj rest

end

def jsonDumps (v : JVal) : String := ⟨dumpsChars v⟩

/-! ## JCS canonicalization (`jcs_canonicalize`)

`json.dumps(obj, sort_keys=True, separators=(",", ":"), ensure_ascii=False)`:
sorting the keys of every object during serialization is the same as
recursively sorting first (`sortJVal`) and then serializing in order. -/

/-- Lexicographic-by-code-point `≤` on character lists, Python's string
comparison used by `sorted`. -/
def strLeChars : List Char → List Char → Bool
  | [], _ => true
  | _ :: _, [] => false
  | a :: as, b :: bs =>
    if a.toNat < b.toNat then true
    else if b.toNat < a.toNat then false
    else strLeChars as bs

def strLe (a b : String) : Bool := strLeChars a.data b.data

/-- Insert an entry into a key-sorted entry list (insertion sort step). -/
def keyInsert (p : String × JVal) : List (String × JVal) → List (String × JVal)
  | [] => [p]
  | q :: rest => if strLe p.1 q.1 then p :: q :: rest else q :: keyInsert p rest

def keySort (l : List (String × JVal)) : List (String × JVal) :=
  l.foldr keyInsert []

mutual

/-- Recursively sort every object's entries by key. -/
def sortJVal : JVal → JVal
  | .null => .null
  | .bool b => .bool b
  | .num n => .num n
  | .str s => .str s
  | .arr xs => .arr (sortList xs)
  | .obj l => .obj (keySort (sortEntries l))

def sortList : List JVal → List JVal
  | [] => []
  | v :: r => sortJVal v :: sortList r

def sortEntries : List (String × JVal) → List (String × JVal)
  | [] => []
  | (k, v) :: r => (k, sortJVal v) :: sortEntries r

end

/-- Models `jcs_canonicalize`: the UTF-8 bytes of the key-sorted compact
JSON serialization. -/
def jcs_canonicalize (v : JVal) : Bytes := utf8Bytes ⟨dumpsChars (sortJVal v)⟩

/-! ## Logical equality of structured values

Two values are logically equal when they differ only in the insertion order
of object entries (recursively) — exactly when they are equal as Python
dict/list/scalar trees. -/

mutual

inductive JEquiv : JVal → JVal → Prop where
  | refl (v : JVal) : JEquiv v v
  | arr {xs ys : List JVal} : JEquivList xs ys → JEquiv (.arr xs) (.arr ys)
  | obj {l₁ l₂ : List (String × JVal)} : JEquivEntries l₁ l₂ →
      JEquiv (.obj l₁) (.obj l₂)
  | objPerm {l₁ l₂ : List (String × JVal)} : l₁.Perm l₂ →
      JEquiv (.obj l₁) (.obj l₂)
  | trans {a b c : JVal} : JEquiv a b → JEquiv b c → JEquiv a c

inductive JEquivList : List JVal → List JVal → Prop where
  | nil : JEquivList [] []
  | cons {v w : JVal} {xs ys : List JVal} : JEquiv v w → JEquivList xs ys →
      JEquivList (v :: xs) (w :: ys)

inductive JEquivEntries : List (String × JVal) → List (String × JVal) → Prop where
  | nil : JEquivEntries [] []
  | cons {k : String} {v w : JVal} {l₁ l₂ : List (String × JVal)} :
      JEquiv v w → JEquivEntries l₁ l₂ →
      JEquivEntries ((k, v) :: l₁) ((k, w) :: l₂)

end

/-! ## Python exceptions -/

/-- The distinguishable `ValueError`s raised on the verification paths.
`msg` below reproduces the exact exception texts except for
`audienceMismatch` (whose text interpolates `str()` of the received value),
`unicodeEncodeError` (whose codec text interpolates the offending character
and position) and `jsonError` (whose text interpolates the parse position);
no theorem reads those three messages. -/
inductive VReason where
  | invalidJwtFormat
  | invalidJwtSignature
  | sdJwtFormat
  | sdJwtExpired
  | missingBindingKey
  | audienceMismatch (expected : String) (got : Option JVal)
  | sdHashMismatch
  | b64 (e : B64Err)
  | unicodeEncodeError
  | jsonError

/-- Exceptions that can escape the embedded functions. `binascii.Error` and
`json.JSONDecodeError` are `ValueError` subclasses, so they sit under
`valueError`; `KeyError` / `TypeError` / `AttributeError` are not caught by
the callers' `except ValueError` handlers. -/
inductive PyErr where
  | valueError (r : VReason)
  | keyError (k : String)
  | typeError
  | attributeError

def PyErr.isValueError : PyErr → Bool
  | .valueError _ => true
  | _ => false

def VReason.msg : VReason → String
  | .invalidJwtFormat => "Invalid JWT format"
  | .invalidJwtSignature => "Invalid JWT signature"
  | .sdJwtFormat => "Invalid SD-JWT+kb format: expected issuer_jwt~kb_jwt"
  | .sdJwtExpired => "SD-JWT expired"
  | .missingBindingKey => "Missing cnf.jwk in issuer JWT"
  | .audienceMismatch expected _ => "Key binding audience mismatch: expected " ++ expected
  | .sdHashMismatch => "Key binding sd_hash mismatch"
  | .b64 e => e.msg
  | .unicodeEncodeError => "ordinal not in range(128)"
  | .jsonError => "Expecting value"

def PyErr.msg : PyErr → String
  | .valueError r => r.msg
  | .keyError k => k
  | .typeError => "TypeError"
  | .attributeError => "AttributeError"

/-! ## Keys (`generate_ec_key`, `export_public_jwk`, `jwk_to_public_key`) -/

/-- An EC P-256 key pair, identified by the affine coordinates of its public
point. The private scalar appears in no checked computation, so the model
carries only the point it determines; `generate_ec_key` yields coordinates
below `2 ^ 256`. -/
structure ECKey where
  x : Nat
  y : Nat

/-- A public key as `jwk_to_public_key` reconstructs it: the pair of
coordinate integers (`int.from_bytes` of the decoded `x` / `y` members). -/
abbrev PubPoint := Nat × Nat

/-- Big-endian `int.from_bytes`. -/
def natOfBytesBE (bs : Bytes) : Nat := bs.foldl (fun acc b => acc * 256 + b.val) 0

/-- Big-endian `n.to_bytes(len, "big")` (every use has `n < 256 ^ len`). -/
def natToBytesBE : Nat → Nat → Bytes
  | 0, _ => []
  | len + 1, n => byte (n / 256 ^ len) :: natToBytesBE len (n % 256 ^ len)

/-- Models `export_public_jwk` (and hence the JWKS entries the platform
publishes). -/
def export_public_jwk (k : ECKey) (kid : String) : JVal :=
  .obj [("kid", .str kid), ("kty", .str "EC"), ("crv", .str "P-256"),
        ("x", .str (b64urlEncode (natToBytesBE 32 k.x))),
        ("y", .str (b64urlEncode (natToBytesBE 32 k.y))),
        ("alg", .str "ES256"), ("use", .str "sig")]

/-- Models `jwk_to_public_key`: read `jwk["x"]` / `jwk["y"]` (`KeyError`
when missing, `TypeError` on a non-dict or non-string member),
base64url-decode them (`binascii.Error`, a `ValueError`, when undecodable)
and rebuild the coordinate integers. -/
def jwk_to_public_key (jwk : JVal) : Except PyErr PubPoint :=
  match jwk with
  | .obj l =>
    match jlookup "x" l with
    | none => .error (.keyError "x")
    | some (.str sx) =>
      match b64url_decode sx with
      | .error r => .error (.valueError (.b64 r))
      | .ok bx =>
        match jlookup "y" l with
        | none => .error (.keyError "y")
        | some (.str sy) =>
          match b64url_decode sy with
          | .error r => .error (.valueError (.b64 r))
          | .ok by' => .ok (natOfBytesBE bx, natOfBytesBE by')
        | some _ => .error .typeError
    | some _ => .error .typeError
  | _ => .error .typeError

/-! ## Raw ECDSA (`_sign_raw` / `_verify_raw`), idealized

These wrap the external `cryptography` library. The idealization: a raw
signature validates under exactly the public point of the key that produced
it and over exactly the signed bytes. `sigBytes` encodes the point and the
data injectively so both directions are theorems. -/

/-- Self-delimiting byte encoding of a natural number. -/
def lencNat (n : Nat) : Bytes := List.replicate n (byte 1) ++ [byte 0]

/-- Idealized raw signature over `data` by the key with public point
`(x, y)`. -/
def sigBytes (x y : Nat) (data : Bytes) : Bytes := lencNat x ++ (lencNat y ++ data)

/-- Models `_sign_raw`. -/
def sign_raw (data : Bytes) (k : ECKey) : Bytes := sigBytes k.x k.y data

/-- Models `_verify_raw` (never raises: `InvalidSignature` is caught and
becomes `False`). -/
def verify_raw (sig : Bytes) (data : Bytes) (pk : PubPoint) : Bool :=
  sig == sigBytes pk.1 pk.2 data

/-! ## SHA-256 (external `hashlib`), idealized as an injective function -/

/-- Models `hashlib.sha256(bs).digest()`. -/
def sha256Bytes (bs : Bytes) : Bytes := byte 35 :: bs

def hexDigitsOfByte (b : Byte) : List Char := [hexDigit (b.val / 16), hexDigit (b.val % 16)]

/-- Models `hashlib.sha256(bs).hexdigest()`. -/
def sha256Hex (bs : Bytes) : String := ⟨((sha256Bytes bs).map hexDigitsOfByte).flatten⟩

/-- Models `hashlib.sha256(issuer_jwt.encode()).hexdigest()[:16]`, the
usage-ledger key both verifiers derive from the issuer JWT alone. -/
def mandateIdOf (issuerJwt : String) : String := (sha256Hex (utf8Bytes issuerJwt)).take 16

/-- Models the `sd_hash` computation
`b64url_encode(hashlib.sha256(issuer_jwt.encode("ascii")).digest())`. -/
def sdHashOf (issuerJwt : String) : String := b64urlEncode (sha256Bytes (utf8Bytes issuerJwt))

/-! ## JWS detached content (`sign_detached` / `verify_detached`) -/

/-- The protected header `{"alg": "ES256", "kid": kid}` of `sign_detached`. -/
def detachedHeader (kid : String) : JVal :=
  .obj [("alg", .str "ES256"), ("kid", .str kid)]

/-- Models `sign_detached`: a JWS with detached content,
`header..signature`. -/
def sign_detached (payloadBytes : Bytes) (k : ECKey) (kid : String) : String :=
  let encodedHeader := b64urlEncode (utf8Bytes (jsonDumps (detachedHeader kid)))
  let encodedPayload := b64urlEncode payloadBytes
  let signingInput := utf8Bytes (encodedHeader ++ "." ++ encodedPayload)
  encodedHeader ++ ".." ++ b64urlEncode (sign_raw signingInput k)

/-- Models `str.encode("ascii")`: the UTF-8 bytes (one byte per character)
when every character is ASCII, `UnicodeEncodeError` — a `ValueError`
subclass, which nothing on the detached/JWT paths catches — otherwise. -/
def str_encode_ascii (s : String) : Except PyErr Bytes :=
  if s.data.all (fun c => c.toNat < 128) then .ok (utf8Bytes s)
  else .error (.valueError .unicodeEncodeError)

/-- Models `verify_detached`: `False` when the token does not have exactly
three dot-separated segments or the middle segment is non-empty; then the
signing input is rebuilt from the supplied payload bytes and ASCII-encoded
(a non-ASCII header segment raises `UnicodeEncodeError`), the signature
segment is base64url-decoded (an undecodable segment raises
`binascii.Error`) — neither is caught here — and the raw verification
decides. -/
def verify_detached (jws : String) (payloadBytes : Bytes) (publicJwk : JVal) :
    Except PyErr Bool :=
  match pySplit '.' jws with
  | [encodedHeader, mid, encodedSignature] =>
    if mid ≠ "" then .ok false
    else
      let encodedPayload := b64urlEncode payloadBytes
      match str_encode_ascii (encodedHeader ++ "." ++ encodedPayload) with
      | .error e => .error e
      | .ok signingInput =>
        match b64url_decode encodedSignature with
        | .error r => .error (.valueError (.b64 r))
        | .ok signature =>
          match jwk_to_public_key publicJwk with
          | .error e => .error e
          | .ok pk => .ok (verify_raw signature signingInput pk)
  | _ => .ok false

/-! ## Compact JWTs (`create_jwt` / `verify_jwt`), structured level

A compact token `b64url(header).b64url(payload).b64url(sig)` is represented
by the structure that determines it; `serializeJwt` is the wire form. The
structured `verify_jwt` is faithful to the source on every token in the
image of `serializeJwt`: the segment split and base64url decoding succeed by
construction, and the final `json.loads` of the payload segment returns the
payload value itself. -/

structure Jwt where
  header : JVal
  payload : JVal
  sig : Bytes

/-- The signing input `b64url(header) || "." || b64url(payload)`. -/
def signingInputStr (h p : JVal) : String :=
  b64urlEncode (utf8Bytes (jsonDumps h)) ++ "." ++ b64urlEncode (utf8Bytes (jsonDumps p))

/-- Models `create_jwt`. -/
def create_jwt (header payload : JVal) (k : ECKey) : Jwt :=
  ⟨header, payload, sign_raw (utf8Bytes (signingInputStr header payload)) k⟩

/-- Compact serialization of a structured JWT. -/
def serializeJwt (j : Jwt) : String :=
  signingInputStr j.header j.payload ++ "." ++ b64urlEncode j.sig

/-- Structured model of `verify_jwt`: rebuild the public key from the JWK,
check the raw signature over the signing input, and return the payload
claims; raises `ValueError` ("Invalid JWT signature") on a bad signature. -/
def verify_jwt (j : Jwt) (publicJwk : JVal) : Except PyErr JVal :=
  match jwk_to_public_key publicJwk with
  | .error e => .error e
  | .ok pk =>
    if verify_raw j.sig (utf8Bytes (signingInputStr j.header j.payload)) pk then
      .ok j.payload
    else .error (.valueError .invalidJwtSignature)

/-! ## SD-JWT+kb (`create_sd_jwt_kb` / `verify_sd_jwt_kb`), structured level -/

/-- An SD-JWT with key binding: `issuer_jwt~kb_jwt`. The `~` split of the
serialization always yields exactly these two serialized JWTs, since
base64url text and `.` contain no `~`. -/
structure SdJwtKb where
  issuer : Jwt
  kb : Jwt

def serializeSdJwtKb (c : SdJwtKb) : String :=
  serializeJwt c.issuer ++ "~" ++ serializeJwt c.kb

/-- The confirmation-key subset
`{k: holder_jwk[k] for k in ("kty", "crv", "x", "y")}`. Callers pass a full
JWK so the lookups cannot fail; an absent member is modelled as null. -/
def cnfSubset (holderJwk : JVal) : JVal :=
  match holderJwk with
  | .obj l =>
    .obj [("kty", (jlookup "kty" l).getD .null), ("crv", (jlookup "crv" l).getD .null),
          ("x", (jlookup "x" l).getD .null), ("y", (jlookup "y" l).getD .null)]
  | _ => .obj []

/-- The issuer payload `{**claims, "iat": now, "exp": now + ttl, "cnf":
{"jwk": ...}}`. -/
def issuerPayloadOf (claims : List (String × JVal)) (holderJwk : JVal)
    (now ttl : Int) : List (String × JVal) :=
  assocSet (assocSet (assocSet claims "iat" (.num now)) "exp" (.num (now + ttl)))
    "cnf" (.obj [("jwk", cnfSubset holderJwk)])

/-- The key-binding payload `{"aud", "iat", "nonce", "sd_hash"}`; `nonce`
models the 16 `os.urandom` bytes. -/
def kbPayloadOf (audience : String) (now : Int) (nonce : Bytes) (sdHash : String) :
    List (String × JVal) :=
  [("aud", .str audience), ("iat", .num now),
   ("nonce", .str (b64urlEncode nonce)), ("sd_hash", .str sdHash)]

/-- Models `create_sd_jwt_kb`. Note the source signs the key-binding JWT
with the ISSUER key (its comment: "For simplicity, we pass issuer_key as
holder_key in this demo") while `cnf.jwk` names `holder_jwk`. `now` models
`int(time.time())`. -/
def create_sd_jwt_kb (claims : List (String × JVal)) (issuerKey : ECKey)
    (issuerKid : String) (holderJwk : JVal) (audience : String) (typ : String)
    (ttlSeconds : Int) (now : Int) (nonce : Bytes) : SdJwtKb :=
  let issuerHeader : JVal :=
    .obj [("alg", .str "ES256"), ("typ", .str typ), ("kid", .str issuerKid)]
  let issuerJwt :=
    create_jwt issuerHeader (.obj (issuerPayloadOf claims holderJwk now ttlSeconds)) issuerKey
  let sdHash := sdHashOf (serializeJwt issuerJwt)
  let kbHeader : JVal := .obj [("alg", .str "ES256"), ("typ", .str "kb+jwt")]
  let kbJwt := create_jwt kbHeader (.obj (kbPayloadOf audience now nonce sdHash)) issuerKey
  ⟨issuerJwt, kbJwt⟩

/-- Models `create_sd_jwt_kb_with_holder_key`: the key-binding JWT is signed
with the separate holder key, and `extra_kb_claims` (`[]` for `None`) are
merged into the key-binding payload. -/
def create_sd_jwt_kb_with_holder_key (claims : List (String × JVal))
    (issuerKey : ECKey) (issuerKid : String) (holderKey : ECKey) (holderJwk : JVal)
    (audience : String) (typ : String) (ttlSeconds : Int)
    (extraKbClaims : List (String × JVal)) (now : Int) (nonce : Bytes) : SdJwtKb :=
  let issuerHeader : JVal :=
    .obj [("alg", .str "ES256"), ("typ", .str typ), ("kid", .str issuerKid)]
  let issuerJwt :=
    create_jwt issuerHeader (.obj (issuerPayloadOf claims holderJwk now ttlSeconds)) issuerKey
  let sdHash := sdHashOf (serializeJwt issuerJwt)
  let kbHeader : JVal := .obj [("alg", .str "ES256"), ("typ", .str "kb+jwt")]
  let kbPayload := extraKbClaims.foldl (fun acc p => assocSet acc p.1 p.2)
    (kbPayloadOf audience now nonce sdHash)
  let kbJwt := create_jwt kbHeader (.obj kbPayload) holderKey
  ⟨issuerJwt, kbJwt⟩

/-- The expiration check
`if "exp" in issuer_claims and issuer_claims["exp"] < now: raise`. A
non-numeric present `exp` would make Python's `<` raise `TypeError`
(`bool` compares as 0 / 1). -/
def expCheck (cl : List (String × JVal)) (now : Int) : Except PyErr Unit :=
  match jlookup "exp" cl with
  | none => .ok ()
  | some v =>
    match pyNum? v with
    | some e => if e < now then .error (.valueError .sdJwtExpired) else .ok ()
    | none => .error .typeError

/-- The extraction `issuer_claims.get("cnf", {}).get("jwk")`; `.get` on a
non-dict `cnf` value raises `AttributeError`. -/
def cnfJwkOf (cl : List (String × JVal)) : Except PyErr (Option JVal) :=
  match jlookup "cnf" cl with
  | none => .ok none
  | some (.obj c) => .ok (jlookup "jwk" c)
  | some _ => .error .attributeError

/-- The audience check: skipped when no audience is expected (the PSP
passes `None`); otherwise `kb_claims.get("aud") != expected_aud` raises the
audience-mismatch `ValueError` unless `aud` is exactly the expected
string. -/
def audCheck (kbCl : List (String × JVal)) (expectedAud : Option String) :
    Except PyErr Unit :=
  match expectedAud with
  | none => .ok ()
  | some a =>
    if (jlookup "aud" kbCl).any (fun v => jvalIsStr v a) then .ok ()
    else .error (.valueError (.audienceMismatch a (jlookup "aud" kbCl)))

/-- Structured model of `verify_sd_jwt_kb`, the claim-by-claim mirror of the
source: issuer signature, expiry, `cnf.jwk` presence, key-binding signature
under the `cnf` key, audience, `sd_hash` recomputation over the issuer token
as presented, then the issuer claims. A non-dict issuer payload would make
`"exp" in issuer_claims` raise `TypeError`; a non-dict key-binding payload
would make `kb_claims.get` raise `AttributeError`. -/
def verify_sd_jwt_kb (cred : SdJwtKb) (issuerPublicJwk : JVal)
    (expectedAud : Option String) (now : Int) : Except PyErr JVal := do
  let issuerClaimsV ← verify_jwt cred.issuer issuerPublicJwk
  match issuerClaimsV with
  | .obj cl => do
    let _ ← expCheck cl now
    let cnfo ← cnfJwkOf cl
    match cnfo with
    | none | some .null => throw (.valueError .missingBindingKey)
    | some cnfJwk => do
      let kbClaimsV ← verify_jwt cred.kb cnfJwk
      match kbClaimsV with
      | .obj kbCl => do
        let _ ← audCheck kbCl expectedAud
        if (jlookup "sd_hash" kbCl).any
            (fun v => jvalIsStr v (sdHashOf (serializeJwt cred.issuer))) then
          pure issuerClaimsV
        else throw (.valueError .sdHashMismatch)
      | _ => throw .attributeError
  | _ => throw .typeError

/-! ## UTF-8 decoding and JSON parsing (`json.loads`)

Needed only by the string-level `verify_jwt_str` below, whose payload parse
is reached after a successful signature check. The parser handles exactly
the compact grammar `json.dumps` emits (no insignificant whitespace, integer
numbers); a failure models `json.JSONDecodeError` / `UnicodeDecodeError`,
both `ValueError` subclasses. -/

def contByte (b : Byte) : Bool := 0x80 ≤ b.val && b.val < 0xC0

mutual

/-- Models `bytes.decode("utf-8")`: decodes a leading byte, then hands the
expected continuation bytes to the per-width helpers below. -/
def utf8Decode? : Bytes → Option (List Char)
  | [] => some []
  | b :: rest =>
    if b.val < 0x80 then (utf8Decode? rest).map (Char.ofNat b.val :: ·)
    else if b.val < 0xC0 then none
    else if b.val < 0xE0 then utf8Dec2 b.val rest
    else if b.val < 0xF0 then utf8Dec3 b.val rest
    else if b.val < 0xF8 then utf8Dec4 b.val rest
    else none

def utf8Dec2 (b0 : Nat) : Bytes → Option (List Char)
  | b2 :: r2 =>
    if contByte b2 then
      let n := (b0 - 0xC0) * 64 + (b2.val - 0x80)
      if n < 0x80 then none else (utf8Decode? r2).map (Char.ofNat n :: ·)
    else none
  | _ => none

def utf8Dec3 (b0 : Nat) : Bytes → Option (List Char)
  | b2 :: b3 :: r2 =>
    if contByte b2 && contByte b3 then
      let n := (b0 - 0xE0) * 4096 + (b2.val - 0x80) * 64 + (b3.val - 0x80)
      if n < 0x800 || (0xD800 ≤ n && n < 0xE000) then none
      else (utf8Decode? r2).map (Char.ofNat n :: ·)
    else none
  | _ => none

def utf8Dec4 (b0 : Nat) : Bytes → Option (List Char)
  | b2 :: b3 :: b4 :: r2 =>
    if contByte b2 && contByte b3 && contByte b4 then
      let n := (b0 - 0xF0) * 262144 + (b2.val - 0x80) * 4096 +
        (b3.val - 0x80) * 64 + (b4.val - 0x80)
      if n < 0x10000 || n ≥ 0x110000 then none
      else (utf8Decode? r2).map (Char.ofNat n :: ·)
    else none
  | _ => none

end

def parseHexDigit? (c : Char) : Option Nat :=
  match charIndexIn c "0123456789abcdef".data with
  | some n => some n
  | none => (charIndexIn c "ABCDEF".data).map (· + 10)

def parseStringChars : List Char → Option (List Char × List Char)
  | [] => none
  | c :: r =>
    if c = '"' then some ([], r)
    else if c = '\\' then
      match r with
      | 'u' :: h1 :: h2 :: h3 :: h4 :: r2 =>
        match parseHexDigit? h1, parseHexDigit? h2, parseHexDigit? h3, parseHexDigit? h4 with
        | some d1, some d2, some d3, some d4 =>
          (parseStringChars r2).map
            (fun p => (Char.ofNat (d1 * 4096 + d2 * 256 + d3 * 16 + d4) :: p.1, p.2))
        | _, _, _, _ => none
      | e :: r2 =>
        let esc : Option Char :=
          if e = '"' then some '"'
          else if e = '\\' then some '\\'
          else if e = '/' then some '/'
          else if e = 'b' then some '\x08'
          else if e = 'f' then some '\x0C'
          else if e = 'n' then some '\n'
          else if e = 'r' then some '\r'
          else if e = 't' then some '\t'
          else none
        match esc with
        | some d => (parseStringChars r2).map (fun p => (d :: p.1, p.2))
        | none => none
      | [] => none
    else (parseStringChars r).map (fun p => (c :: p.1, p.2))

def parseDigits : List Char → Nat → Nat × List Char
  | [], acc => (acc, [])
  | c :: r, acc =>
    if c.isDigit then parseDigits r (acc * 10 + (c.toNat - 48))
    else (acc, c :: r)

/-- Continuation characters that would make a number a float. -/
def numCont : List Char → Bool
  | '.' :: _ => true
  | 'e' :: _ => true
  | 'E' :: _ => true
  | _ => false

def finishInt (neg : Bool) (p : Nat × List Char) : Option (Int × List Char) :=
  if numCont p.2 then none
  else some (if neg then -(p.1 : Int) else (p.1 : Int), p.2)

/-- Integer numbers only: the serializer never emits floats (the design
keeps amounts integral inside tokens), so a fraction or exponent is treated
as unparseable. -/
def parseIntNum : List Char → Option (Int × List Char)
  | [] => none
  | c :: r =>
    if c = '-' then
      match r with
      | [] => none
      | d :: r2 => if d.isDigit then finishInt true (parseDigits (d :: r2) 0) else none
    else if c.isDigit then finishInt false (parseDigits (c :: r) 0)
    else none

/-- A tail that cannot extend a just-parsed number: its head (if any) is
not a digit and not `.`/`e`/`E`. Every continuation the serializer emits
after a number (`,`, `]`, `\x7d`, end of input) satisfies this. -/
def goodTail (rest : List Char) : Prop :=
  ∀ c t, rest = c :: t → (c.isDigit = false ∧ c ≠ '.' ∧ c ≠ 'e' ∧ c ≠ 'E')

/-- Whether a character list starts with the given character. -/
def headIs (cs : List Char) (c : Char) : Bool :=
  match cs with
  | d :: _ => d = c
  | [] => false

mutual

def parseVal : Nat → List Char → Option (JVal × List Char)
  | 0, _ => none
  | fuel + 1, cs =>
    match cs with
    | [] => none
    | c :: r =>
      if c = 'n' then
        if r.take 3 = ['u', 'l', 'l'] then some (.null, r.drop 3) else none
      else if c = 't' then
        if r.take 3 = ['r', 'u', 'e'] then some (.bool true, r.drop 3) else none
      else if c = 'f' then
        if r.take 4 = ['a', 'l', 's', 'e'] then some (.bool false, r.drop 4) else none
      else if c = '"' then (parseStringChars r).map (fun p => (.str ⟨p.1⟩, p.2))
      else if c = '[' then
        if headIs r ']' then some (.arr [], r.tail)
        else (parseElems fuel r).map (fun p => (.arr p.1, p.2))
      else if c = '\x7b' then
        if headIs r '\x7d' then some (.obj [], r.tail)
        else (parseMembers fuel r).map (fun p => (.obj p.1, p.2))
      else (parseIntNum (c :: r)).map (fun p => (.num p.1, p.2))

def parseElems : Nat → List Char → Option (List JVal × List Char)
  | 0, _ => none
  | fuel + 1, cs => do
    let (v, r) ← parseVal fuel cs
    match r with
    | ',' :: r2 => do
      let (vs, r3) ← parseElems fuel r2
      some (v :: vs, r3)
    | ']' :: r2 => some ([v], r2)
    | _ => none

def parseMembers : Nat → List Char → Option (List (String × JVal) × List Char)
  | 0, _ => none
  | fuel + 1, cs =>
    match cs with
    | [] => none
    | c :: r =>
      if c = '"' then do
        let (k, r2) ← parseStringChars r
        match r2 with
        | ':' :: r3 => do
          let (v, r4) ← parseVal fuel r3
          match r4 with
          | ',' :: r5 => do
            let (ms, r6) ← parseMembers fuel r5
            some ((⟨k⟩, v) :: ms, r6)
          | '\x7d' :: r5 => some ([(⟨k⟩, v)], r5)
          | _ => none
        | _ => none
      else none

end

mutual

/-- Fuel sufficient for `parseVal` on the serialization of a value. -/
def sizeJ : JVal → Nat
  | .null => 1
  | .bool _ => 1
  | .num _ => 1
  | .str _ => 1
  | .arr xs => sizeList xs + 1
  | .obj l => sizeEntries l + 1

def sizeList : List JVal → Nat
  | [] => 1
  | v :: tl => max (sizeJ v) (sizeList tl) + 1

def sizeEntries : List (String × JVal) → Nat
  | [] => 1
  | (_, v) :: tl => max (sizeJ v) (sizeEntries tl) + 1

end

/-- Models `json.loads` on payload bytes (duplicate keys, which the local
serializer never emits, are kept in order rather than collapsed). -/
def jsonLoads (bs : Bytes) : Except PyErr JVal :=
  match utf8Decode? bs with
  | none => .error (.valueError .jsonError)
  | some cs =>
    match parseVal (cs.length + 1) cs with
    | some (v, []) => .ok v
    | _ => .error (.valueError .jsonError)

/-! ## String-level `verify_jwt` / `verify_sd_jwt_kb`

The exact pipeline on arbitrary token strings, used where a claim is about
malformed wire input. -/

/-- String-level model of `verify_jwt`: split on `.`, require three
segments, ASCII-encode the signing input, decode the signature segment,
rebuild the key, check the raw signature, then decode and parse the
payload segment — each step raising exactly where the source does. -/
def verify_jwt_str (token : String) (publicJwk : JVal) : Except PyErr JVal :=
  match pySplit '.' token with
  | [encodedHeader, encodedPayload, encodedSignature] =>
    match str_encode_ascii (encodedHeader ++ "." ++ encodedPayload) with
    | .error e => .error e
    | .ok signingInput =>
      match b64url_decode encodedSignature with
      | .error r => .error (.valueError (.b64 r))
      | .ok signature =>
        match jwk_to_public_key publicJwk with
        | .error e => .error e
        | .ok pk =>
          if verify_raw signature signingInput pk then
            match b64url_decode encodedPayload with
            | .error r => .error (.valueError (.b64 r))
            | .ok pb => jsonLoads pb
          else .error (.valueError .invalidJwtSignature)
  | _ => .error (.valueError .invalidJwtFormat)

/-- String-level model of `verify_sd_jwt_kb`: the same checks as the
structured `verify_sd_jwt_kb`, on the `~` split of an arbitrary credential
string, with `sd_hash` recomputed over the issuer segment exactly as
presented. -/
def verify_sd_jwt_kb_str (token : String) (issuerPublicJwk : JVal)
    (expectedAud : Option String) (now : Int) : Except PyErr JVal :=
  match pySplit '~' token with
  | [issuerJwt, kbJwt] => do
    let issuerClaimsV ← verify_jwt_str issuerJwt issuerPublicJwk
    match issuerClaimsV with
    | .obj cl => do
      let _ ← expCheck cl now
      let cnfo ← cnfJwkOf cl
      match cnfo with
      | none | some .null => throw (.valueError .missingBindingKey)
      | some cnfJwk => do
        let kbClaimsV ← verify_jwt_str kbJwt cnfJwk
        match kbClaimsV with
        | .obj kbCl => do
          let _ ← audCheck kbCl expectedAud
          if (jlookup "sd_hash" kbCl).any (fun v => jvalIsStr v (sdHashOf issuerJwt)) then
            pure issuerClaimsV
          else throw (.valueError .sdHashMismatch)
        | _ => throw .attributeError
    | _ => throw .typeError
  | _ => throw (.valueError .sdJwtFormat)

/-! ## Python `==` on JSON values -/

mutual

/-- Python `==` between JSON values (`True == 1`, `False == 0`; dict
comparison is modelled pointwise in order — the mandate flows only ever
compare scalars, where this agrees with Python). -/
def pyEq : JVal → JVal → Bool
  | .null, .null => true
  | .bool a, .bool b => a == b
  | .bool a, .num m => (if a then (1 : Int) else 0) == m
  | .num n, .bool b => n == (if b then (1 : Int) else 0)
  | .num a, .num b => a == b
  | .str a, .str b => a == b
  | .arr xs, .arr ys => pyEqList xs ys
  | .obj l₁, .obj l₂ => pyEqEntries l₁ l₂
  | _, _ => false

def pyEqList : List JVal → List JVal → Bool
  | [], [] => true
  | v :: xs, w :: ys => pyEq v w && pyEqList xs ys
  | _, _ => false

def pyEqEntries : List (String × JVal) → List (String × JVal) → Bool
  | [], [] => true
  | (k₁, v) :: l₁, (k₂, w) :: l₂ => k₁ == k₂ && pyEq v w && pyEqEntries l₁ l₂
  | _, _ => false

end

def pyEqOpt : Option JVal → Option JVal → Bool
  | none, none => true
  | some a, some b => pyEq a b
  | _, _ => false

/-- Python substring test `needle in haystack` on strings. -/
def subListAt (needle : List Char) : List Char → Bool
  | [] => needle.isEmpty
  | c :: rest => needle.isPrefixOf (c :: rest) || subListAt needle rest

def pyStrContains (hay needle : String) : Bool := subListAt needle.data hay.data

/-! ## The usage ledger (`_intent_usage`) -/

/-- A ledger entry `{"total_spent": ..., "use_count": ...}`. -/
structure UsageEntry where
  total_spent : Int
  use_count : Int
deriving DecidableEq

/-- The in-memory usage ledger `_intent_usage`, an insertion-ordered dict
keyed by the truncated issuer-token hash. -/
abbrev Ledger := List (String × UsageEntry)

def ledgerGet (L : Ledger) (k : String) : Option UsageEntry :=
  match L with
  | [] => none
  | (k', v) :: rest => if k' = k then some v else ledgerGet rest k

def ledgerSet (L : Ledger) (k : String) (v : UsageEntry) : Ledger :=
  match L with
  | [] => [(k, v)]
  | (k', v') :: rest => if k' = k then (k, v) :: rest else (k', v') :: ledgerSet rest k v

inductive ReserveResult where
  | rejectUses (useCount maxUses : Int)
  | rejectTotal (maxTotal : Int)
  | accepted

/-- The usage-accounting read–check–write block both verifiers inline
(ap2.py lines 175–185, psp/main.py lines 87–97): fetch (or default) the
entry, reject when `use_count >= max_uses` (when set and numeric; JSON null
reads back as `None` and skips the check, a non-number raises `TypeError`
at the comparison), otherwise reject when `total_spent + amount_cents >
max_total` (when set), otherwise store the incremented entry. Rejections
leave the ledger untouched. -/
def checkAndReserve (L : Ledger) (mandateId : String) (amountCents : Int)
    (maxTotalV maxUsesV : Option JVal) : Except PyErr (ReserveResult × Ledger) :=
  let usage := (ledgerGet L mandateId).getD ⟨0, 0⟩
  let totalStep : Except PyErr (ReserveResult × Ledger) :=
    let acceptRes : ReserveResult × Ledger :=
      (.accepted, ledgerSet L mandateId ⟨usage.total_spent + amountCents, usage.use_count + 1⟩)
    match maxTotalV with
    | none | some .null => .ok acceptRes
    | some w =>
      match pyNum? w with
      | some mt =>
        if usage.total_spent + amountCents > mt then .ok (.rejectTotal mt, L)
        else .ok acceptRes
      | none => .error .typeError
  match maxUsesV with
  | none | some .null => totalStep
  | some w =>
    match pyNum? w with
    | some mu =>
      if usage.use_count ≥ mu then .ok (.rejectUses usage.use_count mu, L)
      else totalStep
    | none => .error .typeError

/-! ## The intent-mandate verifiers (merchant site and PSP site) -/

/-- Extraction of the authorization envelope:
`auth = claims.get("authorization", {})` and the four `auth.get` reads,
returning `(max_amount, max_total, max_uses, merchant_ids)` with
`merchant_ids` defaulting to the empty list. -/
def authEnvelope (cl : List (String × JVal)) :
    Except PyErr (Option JVal × Option JVal × Option JVal × JVal) :=
  match jlookup "authorization" cl with
  | none => .ok (none, none, none, .arr [])
  | some (.obj a) =>
    .ok (jlookup "max_amount" a, jlookup "max_total" a, jlookup "max_uses" a,
      (jlookup "merchant_ids" a).getD (.arr []))
  | some _ => .error .attributeError

/-- Evaluation of `x is not None and amount_cents > x` for a `.get` result
(JSON null reads back as `None` and skips the check; a non-number makes the
comparison raise `TypeError`). -/
def capExceeded (v : Option JVal) (amountCents : Int) : Except PyErr Bool :=
  match v with
  | none | some .null => .ok false
  | some w =>
    match pyNum? w with
    | some m => .ok (decide (amountCents > m))
    | none => .error .typeError

/-- Evaluation of `if merchant_ids and store_id not in merchant_ids` — true
when the allow-list is non-empty (truthy) and excludes the requesting
store. Python list membership compares with `==` (only an equal string
matches); `in` on a string is a substring test; `in` on another truthy
value raises `TypeError`. -/
def allowListRejects (merchantIds : JVal) (storeId : String) : Except PyErr Bool :=
  if jvalTruthy merchantIds then
    match merchantIds with
    | .arr xs => .ok (!(xs.any (fun v => jvalIsStr v storeId)))
    | .str s => .ok (!(pyStrContains s storeId))
    | _ => .error .typeError
  else .ok false

/-- The ledger step of the merchant verifier with its reason strings
(interpolated values reproduced with `toString`). -/
def intentLedgerStepM (issuerJwt : String) (amountCents : Int)
    (maxTotalV maxUsesV : Option JVal) (L : Ledger) :
    Except PyErr ((Bool × String) × Ledger) := do
  let (res, L') ← checkAndReserve L (mandateIdOf issuerJwt) amountCents maxTotalV maxUsesV
  match res with
  | .rejectUses uc mu =>
    .ok ((false, "mandate_expired: use count " ++ toString uc ++ " >= max_uses " ++ toString mu), L')
  | .rejectTotal mt =>
    .ok ((false, "mandate_scope_mismatch: cumulative spend would exceed max_total " ++ toString mt), L')
  | .accepted => .ok ((true, ""), L')

/-- The ledger step of the PSP verifier (same logic, different reason
strings). -/
def intentLedgerStepP (issuerJwt : String) (amountCents : Int)
    (maxTotalV maxUsesV : Option JVal) (L : Ledger) :
    Except PyErr ((Bool × String) × Ledger) := do
  let (res, L') ← checkAndReserve L (mandateIdOf issuerJwt) amountCents maxTotalV maxUsesV
  match res with
  | .rejectUses uc mu =>
    .ok ((false, "use count " ++ toString uc ++ " >= max_uses " ++ toString mu), L')
  | .rejectTotal mt =>
    .ok ((false, "cumulative spend would exceed max_total " ++ toString mt), L')
  | .accepted => .ok ((true, ""), L')

/-- Models `verify_intent_mandate` of `src/services/business-2/ap2.py` (the
merchant site). `keys` is the cached platform JWKS list (the HTTP fetch is
external; a failed fetch yields the empty list). `sessionId` and
`amountCents` stand for `session_dict.get("id", "")` and
`int(round(session_dict.get("totals", {}).get("total", 0) * 100))` — the
float-to-cents rounding happens at this boundary and the claims quantify
over the cents amount. `L` is the `_intent_usage` ledger; the result pairs
the `(success, error message)` value with the ledger afterwards. -/
def verify_intent_mandate (keys : List JVal) (mandate : String) (sessionId : String)
    (amountCents : Int) (storeId : String) (now : Int) (L : Ledger) :
    Except PyErr ((Bool × String) × Ledger) :=
  match keys with
  | [] => .ok ((false, "Cannot fetch platform signing keys"), L)
  | platformJwk :: _ =>
    match verify_sd_jwt_kb_str mandate platformJwk (some sessionId) now with
    | .error e =>
      if e.isValueError then
        .ok ((false, "mandate_invalid_signature: " ++ e.msg), L)
      else .error e
    | .ok claimsV =>
      match claimsV with
      | .obj cl => do
        let (maxAmount, maxTotal, maxUses, merchantIds) ← authEnvelope cl
        let allowRej ← allowListRejects merchantIds storeId
        if allowRej then
          .ok ((false, "mandate_scope_mismatch: store " ++ storeId ++
            " not in authorized merchants"), L)
        else do
          let capEx ← capExceeded maxAmount amountCents
          if capEx then
            .ok ((false, "mandate_scope_mismatch: amount " ++ toString amountCents ++
              " exceeds max_amount"), L)
          else
            match pySplit '~' mandate with
            | [issuerJwt, kbJwt] => do
              let cnfo ← cnfJwkOf cl
              match cnfo with
              | some cnfJwk =>
                if jvalTruthy cnfJwk then do
                  let kbClaimsV ← verify_jwt_str kbJwt cnfJwk
                  match kbClaimsV with
                  | .obj kbCl =>
                    match jlookup "amount" kbCl with
                    | none | some .null =>
                      intentLedgerStepM issuerJwt amountCents maxTotal maxUses L
                    | some kbAmount =>
                      if jvalEqNum kbAmount amountCents then
                        intentLedgerStepM issuerJwt amountCents maxTotal maxUses L
                      else
                        .ok ((false, "mandate_scope_mismatch: kb amount != session amount " ++
                          toString amountCents), L)
                  | _ => throw .attributeError
                else .ok ((true, ""), L)
              | none => .ok ((true, ""), L)
            | _ => .ok ((true, ""), L)
      | _ => throw .attributeError

/-- Models `_verify_intent_mandate` of `src/services/psp/main.py` (the PSP
site). No session is known, so the audience expectation is `None`;
`amountCents` stands for `int(round(amount * 100))`. Differences from the
merchant site are visible below: an additional inclusive expiry check with
`exp` defaulting to 0, no merchant allow-list check, and no key-binding
amount check. -/
def psp_verify_intent_mandate (keys : List JVal) (mandate : String)
    (amountCents : Int) (now : Int) (L : Ledger) :
    Except PyErr ((Bool × String) × Ledger) :=
  match keys with
  | [] => .ok ((false, "Cannot fetch platform signing keys"), L)
  | platformJwk :: _ =>
    match verify_sd_jwt_kb_str mandate platformJwk none now with
    | .error e =>
      if e.isValueError then
        .ok ((false, "mandate_invalid_signature: " ++ e.msg), L)
      else .error e
    | .ok claimsV =>
      match claimsV with
      | .obj cl =>
        let expv := (jlookup "exp" cl).getD (.num 0)
        match pyNum? expv with
        | none => .error .typeError
        | some e =>
          if now ≥ e then .ok ((false, "mandate_expired"), L)
          else do
            let (maxAmount, maxTotal, maxUses, _) ← authEnvelope cl
            let capEx ← capExceeded maxAmount amountCents
            if capEx then
              .ok ((false, "amount " ++ toString amountCents ++ " exceeds max_amount"), L)
            else
              match pySplit '~' mandate with
              | [issuerJwt, _] => intentLedgerStepP issuerJwt amountCents maxTotal maxUses L
              | _ => .ok ((true, ""), L)
      | _ => .error .attributeError

/-! ## The checkout-mandate verifier -/

/-- Models `verify_own_merchant_authorization`: read the embedded detached
JWS, re-canonicalize the record with the `ap2` field removed, and verify the
detached signature under the merchant's own JWK. -/
def verify_own_merchant_authorization (merchantJwk : JVal) (checkoutDict : JVal) :
    Except PyErr Bool :=
  match checkoutDict with
  | .obj co =>
    let jwso : Except PyErr (Option JVal) :=
      match jlookup "ap2" co with
      | none => .ok none
      | some (.obj a) => .ok (jlookup "merchant_authorization" a)
      | some _ => .error .attributeError
    match jwso with
    | .error e => .error e
    | .ok none => .ok false
    | .ok (some v) =>
      if !jvalTruthy v then .ok false
      else
        match v with
        | .str jws =>
          verify_detached jws (jcs_canonicalize (.obj (assocRemove co "ap2"))) merchantJwk
        | _ => .error .attributeError
  | _ => .error .attributeError

/-- Models `verify_checkout_mandate` of `src/services/business-2/ap2.py`.
`sessionId` and `sessionTotal` stand for `session_dict.get("id", "")` and
`session_dict.get("totals", {}).get("total")`. -/
def verify_checkout_mandate (keys : List JVal) (merchantJwk : JVal) (mandate : String)
    (sessionId : String) (sessionTotal : Option JVal) (now : Int) :
    Except PyErr (Bool × String) :=
  match keys with
  | [] => .ok (false, "Cannot fetch platform signing keys")
  | platformJwk :: _ =>
    match verify_sd_jwt_kb_str mandate platformJwk (some sessionId) now with
    | .error e =>
      if e.isValueError then
        .ok (false, "mandate_invalid_signature: " ++ e.msg)
      else .error e
    | .ok claimsV =>
      match claimsV with
      | .obj cl =>
        match jlookup "checkout" cl with
        | none => .ok (false, "mandate_scope_mismatch: no checkout in mandate")
        | some emb =>
          if !jvalTruthy emb then .ok (false, "mandate_scope_mismatch: no checkout in mandate")
          else
            match emb with
            | .obj co =>
              if !((jlookup "id" co).any (fun v => jvalIsStr v sessionId)) then
                .ok (false, "mandate_scope_mismatch: session ID mismatch")
              else
                let embTotal : Except PyErr (Option JVal) :=
                  match jlookup "totals" co with
                  | none => .ok none
                  | some (.obj t) => .ok (jlookup "total" t)
                  | some _ => .error .attributeError
                match embTotal with
                | .error e => .error e
                | .ok et =>
                  if !pyEqOpt et sessionTotal then
                    .ok (false, "mandate_scope_mismatch: total mismatch")
                  else
                    let embAuth : Except PyErr (Option JVal) :=
                      match jlookup "ap2" co with
                      | none => .ok none
                      | some (.obj a) => .ok (jlookup "merchant_authorization" a)
                      | some _ => .error .attributeError
                    match embAuth with
                    | .error e => .error e
                    | .ok ao =>
                      if !(ao.any jvalTruthy) then
                        .ok (false, "merchant_authorization_missing in mandate")
                      else
                        match verify_own_merchant_authorization merchantJwk emb with
                        | .error e => .error e
                        | .ok true => .ok (true, "")
                        | .ok false => .ok (false, "merchant_authorization_invalid in mandate")
            | _ => .error .attributeError
      | _ => .error .attributeError

/-! ## Concrete instances used by witnesses and counterexamples -/

/-- A small platform (issuer) key; coordinates stand in for P-256 points. -/
def wKeyI : ECKey := ⟨1, 2⟩

/-- A small holder key, distinct from the platform key. -/
def wKeyH : ECKey := ⟨3, 4⟩

def wJwkI : JVal := export_public_jwk wKeyI "platform_key"

def wJwkH : JVal := export_public_jwk wKeyH "holder_key"

/-- Intent-mandate claims whose allow-list names only `m_other`. -/
def wAuthOther : List (String × JVal) :=
  [("authorization", .obj [("max_amount", .num 5000), ("max_uses", .num 2),
    ("merchant_ids", .arr [.str "m_other"])])]

def wCredOther : SdJwtKb :=
  create_sd_jwt_kb_with_holder_key wAuthOther wKeyI "platform_key" wKeyH wJwkH
    "cs_1" "intent-mandate+sd-jwt" 300 [] 1000 [byte 7]

def wTokOther : String := serializeSdJwtKb wCredOther

def wClOther : List (String × JVal) := issuerPayloadOf wAuthOther wJwkH 1000 300

/-- Intent-mandate claims with `max_uses = 1` and no allow-list. -/
def wAuthUses1 : List (String × JVal) :=
  [("authorization", .obj [("max_uses", .num 1)])]

def wCredUses1 : SdJwtKb :=
  create_sd_jwt_kb_with_holder_key wAuthUses1 wKeyI "platform_key" wKeyH wJwkH
    "cs_1" "intent-mandate+sd-jwt" 300 [] 1000 [byte 7]

/-- The same issuer token re-bound to a fresh key-binding proof (different
nonce), as a replay with a new possession proof would present it. -/
def wCredUses1Rebound : SdJwtKb :=
  ⟨wCredUses1.issuer,
    (create_sd_jwt_kb_with_holder_key wAuthUses1 wKeyI "platform_key" wKeyH wJwkH
      "cs_1" "intent-mandate+sd-jwt" 300 [] 1000 [byte 8]).kb⟩

end AP2

namespace AP2

/-! ## Theorems: byte-level primitives -/

theorem byte_val (n : Nat) : (byte n).val = n % 256 := rfl

theorem byte_eq_of_lt {n : Nat} (b : Byte) (h : b.val = n) : byte n = b := by
  apply Fin.ext
  rw [byte_val, ← h, Nat.mod_eq_of_lt b.isLt]

theorem b64CharIndex_b64Char : ∀ n : Fin 64, b64CharIndex? (b64Char n.val) = some n.val := by
  decide

theorem b64Char_mem_alphabet : ∀ n : Fin 64, b64Char n.val ∈ b64Alphabet := by
  decide

theorem b64Sextets_lt (bs : Bytes) : ∀ x ∈ b64Sextets bs, x < 64 := by
  induction bs using b64Sextets.induct with
  | case1 => intro x hx; simp [b64Sextets] at hx
  | case2 a =>
    intro x hx
    have ha := a.isLt
    simp [b64Sextets] at hx
    rcases hx with h | h <;> omega
  | case3 a b =>
    intro x hx
    have ha := a.isLt; have hb := b.isLt
    simp [b64Sextets] at hx
    rcases hx with h | h | h <;> omega
  | case4 a b c rest ih =>
    intro x hx
    have ha := a.isLt; have hb := b.isLt; have hc := c.isLt
    simp only [b64Sextets, List.mem_cons] at hx
    rcases hx with h | h | h | h | h
    · omega
    · omega
    · omega
    · omega
    · exact ih x h

theorem filterMap_b64EncodeChars (bs : Bytes) :
    (b64EncodeChars bs).filterMap b64CharIndex? = b64Sextets bs := by
  have key : ∀ n, n < 64 → b64CharIndex? (b64Char n) = some n := by
    intro n hn
    exact b64CharIndex_b64Char ⟨n, hn⟩
  induction bs using b64EncodeChars.induct with
  | case1 => rfl
  | case2 a =>
    have ha := a.isLt
    simp [b64EncodeChars, b64Sextets, List.filterMap]
    rw [key _ (by omega), key _ (by omega)]
  | case3 a b =>
    have ha := a.isLt; have hb := b.isLt
    simp [b64EncodeChars, b64Sextets, List.filterMap]
    rw [key _ (by omega), key _ (by omega), key _ (by omega)]
  | case4 a b c rest ih =>
    have ha := a.isLt; have hb := b.isLt; have hc := c.isLt
    simp only [b64EncodeChars, b64Sextets, List.filterMap_cons]
    rw [key _ (by omega), key _ (by omega), key _ (by omega), key _ (by omega)]
    simp [ih]

theorem b64Sextets_length_mod (bs : Bytes) : (b64Sextets bs).length % 4 ≠ 1 := by
  induction bs using b64Sextets.induct with
  | case1 => simp [b64Sextets]
  | case2 a => simp [b64Sextets]
  | case3 a b => simp [b64Sextets]
  | case4 a b c rest ih =>
    simp only [b64Sextets, List.length_cons] at *
    omega

theorem b64DecodeGroups_b64Sextets (bs : Bytes) :
    b64DecodeGroups (b64Sextets bs) = bs := by
  induction bs using b64Sextets.induct with
  | case1 => rfl
  | case2 a =>
    have ha := a.isLt
    simp only [b64Sextets, b64DecodeGroups]
    congr 1
    apply byte_eq_of_lt
    omega
  | case3 a b =>
    have ha := a.isLt; have hb := b.isLt
    simp only [b64Sextets, b64DecodeGroups]
    congr 1
    · apply byte_eq_of_lt; omega
    congr 1
    apply byte_eq_of_lt; omega
  | case4 a b c rest ih =>
    have ha := a.isLt; have hb := b.isLt; have hc := c.isLt
    simp only [b64Sextets, b64DecodeGroups]
    rw [ih]
    congr 1
    · apply byte_eq_of_lt; omega
    congr 1
    · apply byte_eq_of_lt; omega
    congr 1
    apply byte_eq_of_lt; omega

theorem b64DecIndex_b64Char : ∀ n : Fin 64, b64DecIndex? (b64Char n.val) = some n.val := by
  decide

theorem b64Char_ne_pad : ∀ n : Fin 64, b64Char n.val ≠ '=' := by
  decide

theorem a2b_data_step {s : Nat} (hs : s < 64) (rest : List Char) (qp lc pads : Nat)
    (acc : Bytes) :
    a2bBase64 (b64Char s :: rest) qp lc pads acc =
      (if qp = 0 then a2bBase64 rest 1 s 0 acc
       else if qp = 1 then a2bBase64 rest 2 (s % 16) 0 (byte (lc * 4 + s / 16) :: acc)
       else if qp = 2 then a2bBase64 rest 3 (s % 4) 0 (byte (lc * 16 + s / 4) :: acc)
       else a2bBase64 rest 0 0 0 (byte (lc * 64 + s) :: acc)) := by
  rw [a2bBase64, if_neg (b64Char_ne_pad ⟨s, hs⟩), b64DecIndex_b64Char ⟨s, hs⟩]

theorem a2b_pad_step (rest : List Char) (qp lc pads : Nat) (acc : Bytes) :
    a2bBase64 ('=' :: rest) qp lc pads acc =
      (if 2 ≤ qp ∧ 4 ≤ qp + (pads + 1) then .ok acc.reverse
       else a2bBase64 rest qp lc (if 2 ≤ qp then pads + 1 else pads) acc) := by
  rw [a2bBase64, if_pos rfl]

theorem a2b_encode : ∀ (bs : Bytes) (acc : Bytes),
    a2bBase64 (b64EncodeChars bs ++
        List.replicate ((4 - (b64EncodeChars bs).length % 4) % 4) '=') 0 0 0 acc =
      .ok (acc.reverse ++ bs) := by
  intro bs
  induction bs using b64EncodeChars.induct with
  | case1 =>
    intro acc
    simp [b64EncodeChars, a2bBase64]
  | case2 a =>
    intro acc
    have ha := a.isLt
    simp only [b64EncodeChars, List.length_cons, List.length_nil]
    rw [show (4 - (0 + 1 + 1) % 4) % 4 = 2 from rfl]
    rw [show List.replicate 2 '=' = ['=', '='] from rfl]
    rw [List.cons_append, List.cons_append, List.nil_append]
    rw [a2b_data_step (by omega), if_pos rfl]
    rw [a2b_data_step (by omega), if_neg (by omega), if_pos rfl]
    rw [a2b_pad_step, if_neg (by omega), if_pos (by omega)]
    rw [show byte ((a.val / 4) * 4 + (a.val % 4 * 16) / 16) = a from
      byte_eq_of_lt a (by omega)]
    rw [a2b_pad_step, if_pos (by omega)]
    simp
  | case3 a b =>
    intro acc
    have ha := a.isLt; have hb := b.isLt
    simp only [b64EncodeChars, List.length_cons, List.length_nil]
    rw [show (4 - (0 + 1 + 1 + 1) % 4) % 4 = 1 from rfl]
    rw [show List.replicate 1 '=' = ['='] from rfl]
    rw [List.cons_append, List.cons_append, List.cons_append, List.nil_append]
    rw [a2b_data_step (by omega), if_pos rfl]
    rw [a2b_data_step (by omega), if_neg (by omega), if_pos rfl]
    rw [a2b_data_step (by omega), if_neg (by omega), if_neg (by omega), if_pos rfl]
    rw [a2b_pad_step, if_pos (by omega)]
    rw [show (a.val % 4 * 16 + b.val / 16) % 16 = b.val / 16 from by omega]
    rw [show byte ((a.val / 4) * 4 + (a.val % 4 * 16 + b.val / 16) / 16) = a from
      byte_eq_of_lt a (by omega)]
    rw [show byte ((b.val / 16) * 16 + (b.val % 16 * 4) / 4) = b from
      byte_eq_of_lt b (by omega)]
    simp
  | case4 a b c rest ih =>
    intro acc
    have ha := a.isLt; have hb := b.isLt; have hc := c.isLt
    simp only [b64EncodeChars, List.length_cons]
    rw [show (4 - ((b64EncodeChars rest).length + 1 + 1 + 1 + 1) % 4) % 4 =
      (4 - (b64EncodeChars rest).length % 4) % 4 from by omega]
    rw [List.cons_append, List.cons_append, List.cons_append, List.cons_append]
    rw [a2b_data_step (by omega), if_pos rfl]
    rw [a2b_data_step (by omega), if_neg (by omega), if_pos rfl]
    rw [a2b_data_step (by omega), if_neg (by omega), if_neg (by omega), if_pos rfl]
    rw [a2b_data_step (by omega), if_neg (by omega), if_neg (by omega), if_neg (by omega)]
    rw [show (a.val % 4 * 16 + b.val / 16) % 16 = b.val / 16 from by omega]
    rw [show (b.val % 16 * 4 + c.val / 64) % 4 = c.val / 64 from by omega]
    rw [show byte ((a.val / 4) * 4 + (a.val % 4 * 16 + b.val / 16) / 16) = a from
      byte_eq_of_lt a (by omega)]
    rw [show byte ((b.val / 16) * 16 + (b.val % 16 * 4 + c.val / 64) / 4) = b from
      byte_eq_of_lt b (by omega)]
    rw [show byte ((c.val / 64) * 64 + c.val % 64) = c from
      byte_eq_of_lt c (by omega)]
    rw [ih]
    simp

theorem b64EncodeChars_mem_alphabet (bs : Bytes) :
    ∀ c ∈ b64EncodeChars bs, c ∈ b64Alphabet := by
  have key : ∀ n, n < 64 → b64Char n ∈ b64Alphabet := by
    intro n hn
    exact b64Char_mem_alphabet ⟨n, hn⟩
  induction bs using b64EncodeChars.induct with
  | case1 => intro c hc; simp [b64EncodeChars] at hc
  | case2 a =>
    intro c hc
    have ha := a.isLt
    simp [b64EncodeChars] at hc
    rcases hc with h | h <;> (subst h; exact key _ (by omega))
  | case3 a b =>
    intro c hc
    have ha := a.isLt; have hb := b.isLt
    simp [b64EncodeChars] at hc
    rcases hc with h | h | h <;> (subst h; exact key _ (by omega))
  | case4 a b c rest ih =>
    intro d hd
    have ha := a.isLt; have hb := b.isLt; have hc := c.isLt
    simp only [b64EncodeChars, List.mem_cons] at hd
    rcases hd with h | h | h | h | h
    · subst h; exact key _ (by omega)
    · subst h; exact key _ (by omega)
    · subst h; exact key _ (by omega)
    · subst h; exact key _ (by omega)
    · exact ih d h

theorem dot_not_mem_b64Alphabet : '.' ∉ b64Alphabet := by decide

theorem tilde_not_mem_b64Alphabet : '~' ∉ b64Alphabet := by decide

/-! ### `pySplit` -/

theorem splitChars_sep_not_mem {sep : Char} {l : List Char} (h : sep ∉ l) :
    splitChars sep l = [l] := by
  induction l with
  | nil => rfl
  | cons c rest ih =>
    have hc : c ≠ sep := fun he => h (he ▸ List.mem_cons_self c rest)
    have hrest : sep ∉ rest := fun hm => h (List.mem_cons_of_mem c hm)
    simp only [splitChars, if_neg hc, ih hrest]

theorem splitChars_append_sep {sep : Char} {l₁ l₂ : List Char} (h : sep ∉ l₁) :
    splitChars sep (l₁ ++ sep :: l₂) = l₁ :: splitChars sep l₂ := by
  induction l₁ with
  | nil =>
    simp [splitChars]
  | cons c rest ih =>
    have hc : c ≠ sep := fun he => h (he ▸ List.mem_cons_self c rest)
    have hrest : sep ∉ rest := fun hm => h (List.mem_cons_of_mem c hm)
    have hr := ih hrest
    simp only [List.cons_append, splitChars, if_neg hc, List.append_eq, hr]

theorem splitChars_ne_nil (sep : Char) (l : List Char) : splitChars sep l ≠ [] := by
  induction l with
  | nil => simp [splitChars]
  | cons c rest ih =>
    by_cases hc : c = sep
    · simp [splitChars, hc]
    · simp only [splitChars, if_neg hc]
      rcases h : splitChars sep rest with _ | ⟨g, gs⟩
      · exact absurd h ih
      · simp

theorem string_mk_append (l₁ l₂ : List Char) :
    String.mk l₁ ++ String.mk l₂ = String.mk (l₁ ++ l₂) := rfl

theorem string_data_append (a b : String) : (a ++ b).data = a.data ++ b.data := by
  cases a; cases b; rfl

theorem string_mk_data (s : String) : String.mk s.data = s := by
  cases s; rfl

theorem string_data_inj {a b : String} (h : a.data = b.data) : a = b := by
  cases a; cases b
  simp only at h
  rw [h]

/-! ### UTF-8 on ASCII text -/

theorem utf8Bytes_append (a b : String) :
    utf8Bytes (a ++ b) = utf8Bytes a ++ utf8Bytes b := by
  unfold utf8Bytes
  rw [string_data_append, List.map_append, List.flatten_append]

theorem utf8EncodeCharM_ascii {c : Char} (h : c.toNat < 128) :
    utf8EncodeCharM c = [byte c.toNat] := by
  unfold utf8EncodeCharM
  rw [if_pos h]

theorem flatten_map_enc_ascii {l : List Char} (h : ∀ c ∈ l, c.toNat < 128) :
    (l.map utf8EncodeCharM).flatten = l.map (fun c => byte c.toNat) := by
  induction l with
  | nil => rfl
  | cons c rest ih =>
    have hc : c.toNat < 128 := h c (List.mem_cons_self c rest)
    have hrest : ∀ d ∈ rest, d.toNat < 128 := fun d hd => h d (List.mem_cons_of_mem c hd)
    simp [utf8EncodeCharM_ascii hc, ih hrest]

theorem utf8Bytes_ascii {s : String} (h : ∀ c ∈ s.data, c.toNat < 128) :
    utf8Bytes s = s.data.map (fun c => byte c.toNat) :=
  flatten_map_enc_ascii h

theorem char_toNat_inj {c d : Char} (h : c.toNat = d.toNat) : c = d := by
  apply Char.ext
  exact UInt32.ext h

theorem map_byte_toNat_inj : ∀ {l₁ l₂ : List Char},
    (∀ c ∈ l₁, c.toNat < 128) → (∀ c ∈ l₂, c.toNat < 128) →
    l₁.map (fun c => byte c.toNat) = l₂.map (fun c => byte c.toNat) → l₁ = l₂ := by
  intro l₁
  induction l₁ with
  | nil => intro l₂ _ _ h; cases l₂ <;> simp_all
  | cons c rest ih =>
    intro l₂ h₁ h₂ h
    cases l₂ with
    | nil => simp at h
    | cons d rest₂ =>
      simp only [List.map_cons, List.cons.injEq] at h
      have hc : c.toNat < 128 := h₁ c (List.mem_cons_self c rest)
      have hd : d.toNat < 128 := h₂ d (List.mem_cons_self d rest₂)
      have hval : c.toNat % 256 = d.toNat % 256 := congrArg Fin.val h.1
      have : c.toNat = d.toNat := by omega
      refine List.cons_eq_cons.mpr ⟨char_toNat_inj this, ?_⟩
      exact ih (fun x hx => h₁ x (List.mem_cons_of_mem c hx))
        (fun x hx => h₂ x (List.mem_cons_of_mem d hx)) h.2

theorem utf8Bytes_inj_ascii {s t : String} (hs : ∀ c ∈ s.data, c.toNat < 128)
    (ht : ∀ c ∈ t.data, c.toNat < 128) (h : utf8Bytes s = utf8Bytes t) : s = t := by
  rw [utf8Bytes_ascii hs, utf8Bytes_ascii ht] at h
  exact string_data_inj (map_byte_toNat_inj hs ht h)

theorem b64Alphabet_ascii : ∀ c ∈ b64Alphabet, c.toNat < 128 := by decide

theorem b64urlEncode_data (bs : Bytes) : (b64urlEncode bs).data = b64EncodeChars bs := rfl

theorem b64urlEncode_ascii (bs : Bytes) : ∀ c ∈ (b64urlEncode bs).data, c.toNat < 128 := by
  intro c hc
  exact b64Alphabet_ascii c (b64EncodeChars_mem_alphabet bs c hc)

theorem b64url_decode_encode (bs : Bytes) : b64url_decode (b64urlEncode bs) = .ok bs := by
  unfold b64url_decode
  rw [if_pos (by
    rw [List.all_eq_true]
    intro c hc
    have := b64urlEncode_ascii bs c hc
    simpa using this)]
  rw [show (b64urlEncode bs).data = b64EncodeChars bs from rfl]
  rw [a2b_encode bs []]
  simp

theorem b64urlEncode_inj {bs bs' : Bytes} (h : b64urlEncode bs = b64urlEncode bs') :
    bs = bs' := by
  have h1 := b64url_decode_encode bs
  have h2 := b64url_decode_encode bs'
  rw [h] at h1
  rw [h1] at h2
  exact Except.ok.inj h2

theorem b64urlEncode_no_dot (bs : Bytes) : '.' ∉ (b64urlEncode bs).data := by
  intro h
  exact dot_not_mem_b64Alphabet (b64EncodeChars_mem_alphabet bs '.' h)

theorem b64urlEncode_no_tilde (bs : Bytes) : '~' ∉ (b64urlEncode bs).data := by
  intro h
  exact tilde_not_mem_b64Alphabet (b64EncodeChars_mem_alphabet bs '~' h)

/-! ### The idealized signature primitive -/

theorem lencNat_append_inj : ∀ {x x' : Nat} {r r' : Bytes},
    lencNat x ++ r = lencNat x' ++ r' → x = x' ∧ r = r' := by
  intro x
  induction x with
  | zero =>
    intro x' r r' h
    cases x' with
    | zero => simpa [lencNat] using h
    | succ n =>
      simp only [lencNat, List.replicate, List.nil_append, List.cons_append,
        List.cons.injEq] at h
      exact absurd (congrArg Fin.val h.1) (by decide)
  | succ n ih =>
    intro x' r r' h
    cases x' with
    | zero =>
      simp only [lencNat, List.replicate, List.nil_append, List.cons_append,
        List.cons.injEq] at h
      exact absurd (congrArg Fin.val h.1) (by decide)
    | succ m =>
      simp only [lencNat, List.replicate, List.cons_append, List.cons.injEq] at h
      have := @ih m r r' (by simpa [lencNat] using h.2)
      exact ⟨by omega, this.2⟩

theorem sigBytes_inj {x y x' y' : Nat} {d d' : Bytes}
    (h : sigBytes x y d = sigBytes x' y' d') : x = x' ∧ y = y' ∧ d = d' := by
  unfold sigBytes at h
  obtain ⟨hx, h₂⟩ := lencNat_append_inj h
  obtain ⟨hy, hd⟩ := lencNat_append_inj h₂
  exact ⟨hx, hy, hd⟩

theorem verify_raw_sign (data : Bytes) (k : ECKey) :
    verify_raw (sign_raw data k) data (k.x, k.y) = true := by
  simp [verify_raw, sign_raw]

theorem verify_raw_eq_true_iff {sig data : Bytes} {pk : PubPoint} :
    verify_raw sig data pk = true ↔ sig = sigBytes pk.1 pk.2 data := by
  simp [verify_raw]

theorem verify_raw_sign_other {data : Bytes} {k : ECKey} {pk' : PubPoint}
    (h : pk' ≠ (k.x, k.y)) : verify_raw (sign_raw data k) data pk' = false := by
  apply Bool.eq_false_iff.mpr
  intro hv
  have := verify_raw_eq_true_iff.mp hv
  unfold sign_raw at this
  obtain ⟨hx, hy, _⟩ := sigBytes_inj this
  exact h (by cases pk'; simp_all)

theorem verify_raw_sign_other_data {data data' : Bytes} {k : ECKey} {pk' : PubPoint}
    (h : data' ≠ data) : verify_raw (sign_raw data k) data' pk' = false := by
  apply Bool.eq_false_iff.mpr
  intro hv
  have := verify_raw_eq_true_iff.mp hv
  unfold sign_raw at this
  obtain ⟨_, _, hd⟩ := sigBytes_inj this
  exact h hd.symm

/-! ### Byte views of integers -/

theorem natOfBytesBE_foldl (bs : Bytes) (acc : Nat) :
    bs.foldl (fun a b => a * 256 + b.val) acc = acc * 256 ^ bs.length + natOfBytesBE bs := by
  induction bs generalizing acc with
  | nil => simp [natOfBytesBE]
  | cons b rest ih =>
    simp only [natOfBytesBE, List.foldl_cons, List.length_cons]
    rw [ih, ih (0 * 256 + b.val)]
    ring

theorem natToBytesBE_length (len n : Nat) : (natToBytesBE len n).length = len := by
  induction len generalizing n with
  | zero => rfl
  | succ m ih => simp [natToBytesBE, ih]

theorem natOfBytesBE_natToBytesBE (len n : Nat) (h : n < 256 ^ len) :
    natOfBytesBE (natToBytesBE len n) = n := by
  induction len generalizing n with
  | zero =>
    simp only [natToBytesBE, natOfBytesBE, List.foldl_nil]
    simp only [pow_zero] at h
    omega
  | succ m ih =>
    have hpow : (0 : Nat) < 256 ^ m := pow_pos (by norm_num) m
    have hdiv : n / 256 ^ m < 256 := by
      rw [Nat.div_lt_iff_lt_mul hpow]
      calc n < 256 ^ (m + 1) := h
        _ = 256 * 256 ^ m := by ring
    have hmod : n % 256 ^ m < 256 ^ m := Nat.mod_lt _ hpow
    have hb : (byte (n / 256 ^ m)).val = n / 256 ^ m := by
      rw [byte_val]
      exact Nat.mod_eq_of_lt hdiv
    simp only [natToBytesBE, natOfBytesBE, List.foldl_cons]
    rw [natOfBytesBE_foldl, natToBytesBE_length, ih _ hmod]
    rw [Nat.zero_mul, Nat.zero_add, hb, Nat.mul_comm]
    exact Nat.div_add_mod n (256 ^ m)

/-! ### Association-list and ledger operations -/

theorem jlookup_assocSet_self (l : List (String × JVal)) (k : String) (v : JVal) :
    jlookup k (assocSet l k v) = some v := by
  induction l with
  | nil => simp [assocSet, jlookup]
  | cons p rest ih =>
    obtain ⟨k', v'⟩ := p
    by_cases h : k' = k
    · simp [assocSet, h, jlookup]
    · simp [assocSet, h, jlookup, ih]

theorem jlookup_assocSet_other {k k' : String} (h : k' ≠ k)
    (l : List (String × JVal)) (v : JVal) :
    jlookup k' (assocSet l k v) = jlookup k' l := by
  induction l with
  | nil => simp [assocSet, jlookup, Ne.symm h]
  | cons p rest ih =>
    obtain ⟨k₀, v₀⟩ := p
    by_cases h₀ : k₀ = k
    · subst h₀
      simp [assocSet, jlookup, Ne.symm h]
    · simp [assocSet, h₀, jlookup, ih]

theorem ledgerGet_ledgerSet_self (L : Ledger) (k : String) (v : UsageEntry) :
    ledgerGet (ledgerSet L k v) k = some v := by
  induction L with
  | nil => simp [ledgerSet, ledgerGet]
  | cons p rest ih =>
    obtain ⟨k', v'⟩ := p
    by_cases h : k' = k
    · simp [ledgerSet, h, ledgerGet]
    · simp [ledgerSet, h, ledgerGet, ih]

theorem ledgerGet_ledgerSet_other {k k' : String} (h : k' ≠ k)
    (L : Ledger) (v : UsageEntry) :
    ledgerGet (ledgerSet L k v) k' = ledgerGet L k' := by
  induction L with
  | nil => simp [ledgerSet, ledgerGet, Ne.symm h]
  | cons p rest ih =>
    obtain ⟨k₀, v₀⟩ := p
    by_cases h₀ : k₀ = k
    · subst h₀
      simp [ledgerSet, ledgerGet, Ne.symm h]
    · simp [ledgerSet, h₀, ledgerGet, ih]

/-! ### Monadic reductions for `Except PyErr` -/

theorem except_bind_ok {α β : Type} (a : α) (f : α → Except PyErr β) :
    (Except.ok a >>= f) = f a := rfl

theorem except_bind_err {α β : Type} (e : PyErr) (f : α → Except PyErr β) :
    ((Except.error e : Except PyErr α) >>= f) = .error e := rfl

theorem except_pure {α : Type} (a : α) : (pure a : Except PyErr α) = .ok a := rfl

theorem except_throw {α : Type} (e : PyErr) : (throw e : Except PyErr α) = .error e := rfl

/-! ### Splitting serialized tokens -/

theorem splitChars_cons_sep (sep : Char) (l : List Char) :
    splitChars sep (sep :: l) = [] :: splitChars sep l := by
  simp [splitChars]

theorem pySplit_detached (encH encSig : String)
    (hH : '.' ∉ encH.data) (hS : '.' ∉ encSig.data) :
    pySplit '.' (encH ++ ".." ++ encSig) = [encH, "", encSig] := by
  unfold pySplit
  have hdots : (".." : String).data = ['.', '.'] := rfl
  have hdata : (encH ++ ".." ++ encSig).data = encH.data ++ '.' :: ('.' :: encSig.data) := by
    rw [string_data_append, string_data_append, hdots]
    simp
  rw [hdata, splitChars_append_sep hH, splitChars_cons_sep, splitChars_sep_not_mem hS]
  simp [string_mk_data]

theorem dot_str_data : ("." : String).data = ['.'] := rfl

theorem pySplit_two (sep : Char) (a b : String)
    (ha : sep ∉ a.data) (hb : sep ∉ b.data) :
    pySplit sep (a ++ String.mk [sep] ++ b) = [a, b] := by
  unfold pySplit
  have hdata : (a ++ String.mk [sep] ++ b).data = a.data ++ sep :: b.data := by
    rw [string_data_append, string_data_append]
    simp
  rw [hdata, splitChars_append_sep ha, splitChars_sep_not_mem hb]
  simp [string_mk_data]

theorem signingInputStr_data (h p : JVal) :
    (signingInputStr h p).data =
      (b64urlEncode (utf8Bytes (jsonDumps h))).data ++
        '.' :: (b64urlEncode (utf8Bytes (jsonDumps p))).data := by
  unfold signingInputStr
  rw [string_data_append, string_data_append, dot_str_data]
  simp

theorem serializeJwt_data (j : Jwt) :
    (serializeJwt j).data =
      (signingInputStr j.header j.payload).data ++ '.' :: (b64urlEncode j.sig).data := by
  unfold serializeJwt
  rw [string_data_append, string_data_append, dot_str_data]
  simp

theorem serializeJwt_chars (j : Jwt) :
    ∀ c ∈ (serializeJwt j).data, c ∈ b64Alphabet ∨ c = '.' := by
  rw [serializeJwt_data, signingInputStr_data]
  intro c hmem
  simp only [List.append_assoc, List.cons_append, List.mem_append, List.mem_cons] at hmem
  rcases hmem with h | h | h | h | h
  · exact Or.inl (b64EncodeChars_mem_alphabet _ c h)
  · exact Or.inr h
  · exact Or.inl (b64EncodeChars_mem_alphabet _ c h)
  · exact Or.inr h
  · exact Or.inl (b64EncodeChars_mem_alphabet _ c h)

theorem serializeJwt_no_tilde (j : Jwt) : '~' ∉ (serializeJwt j).data := by
  intro hmem
  rcases serializeJwt_chars j '~' hmem with h | h
  · exact tilde_not_mem_b64Alphabet h
  · exact absurd h (by decide)

theorem serializeJwt_ascii (j : Jwt) : ∀ c ∈ (serializeJwt j).data, c.toNat < 128 := by
  intro c hmem
  rcases serializeJwt_chars j c hmem with h | h
  · exact b64Alphabet_ascii c h
  · subst h; decide

theorem pySplit_serializeSdJwtKb (c : SdJwtKb) :
    pySplit '~' (serializeSdJwtKb c) = [serializeJwt c.issuer, serializeJwt c.kb] := by
  unfold serializeSdJwtKb
  have : ("~" : String) = String.mk ['~'] := rfl
  rw [this]
  exact pySplit_two '~' _ _ (serializeJwt_no_tilde c.issuer) (serializeJwt_no_tilde c.kb)

/-! ### Evaluating the verifiers on well-formed keys and tokens -/

theorem jwk_to_public_key_export (k : ECKey) (kid : String)
    (hx : k.x < 256 ^ 32) (hy : k.y < 256 ^ 32) :
    jwk_to_public_key (export_public_jwk k kid) = .ok (k.x, k.y) := by
  simp [jwk_to_public_key, export_public_jwk, jlookup, b64url_decode_encode,
    natOfBytesBE_natToBytesBE 32 k.x hx, natOfBytesBE_natToBytesBE 32 k.y hy]

theorem cnfSubset_export (k : ECKey) (kid : String) :
    cnfSubset (export_public_jwk k kid) =
      .obj [("kty", .str "EC"), ("crv", .str "P-256"),
        ("x", .str (b64urlEncode (natToBytesBE 32 k.x))),
        ("y", .str (b64urlEncode (natToBytesBE 32 k.y)))] := rfl

theorem jwk_to_public_key_cnf (k : ECKey) (kid : String)
    (hx : k.x < 256 ^ 32) (hy : k.y < 256 ^ 32) :
    jwk_to_public_key (cnfSubset (export_public_jwk k kid)) = .ok (k.x, k.y) := by
  rw [cnfSubset_export]
  simp [jwk_to_public_key, jlookup, b64url_decode_encode,
    natOfBytesBE_natToBytesBE 32 k.x hx, natOfBytesBE_natToBytesBE 32 k.y hy]

theorem verify_jwt_create {k : ECKey} {jwk : JVal} (h p : JVal)
    (hjwk : jwk_to_public_key jwk = .ok (k.x, k.y)) :
    verify_jwt (create_jwt h p k) jwk = .ok p := by
  unfold verify_jwt create_jwt
  rw [hjwk]
  simp [verify_raw_sign]

theorem verify_jwt_create_wrongkey {k : ECKey} {jwk : JVal} {pk' : PubPoint} (h p : JVal)
    (hjwk : jwk_to_public_key jwk = .ok pk') (hne : pk' ≠ (k.x, k.y)) :
    verify_jwt (create_jwt h p k) jwk = .error (.valueError .invalidJwtSignature) := by
  unfold verify_jwt create_jwt
  rw [hjwk]
  simp [verify_raw_sign_other hne]

theorem str_encode_ascii_ok {s : String} (h : ∀ c ∈ s.data, c.toNat < 128) :
    str_encode_ascii s = .ok (utf8Bytes s) := by
  unfold str_encode_ascii
  rw [if_pos (by rw [List.all_eq_true]; intro c hc; simpa using h c hc)]

theorem ascii_append {s t : String} (hs : ∀ c ∈ s.data, c.toNat < 128)
    (ht : ∀ c ∈ t.data, c.toNat < 128) : ∀ c ∈ (s ++ t).data, c.toNat < 128 := by
  intro c hc
  rw [string_data_append] at hc
  rcases List.mem_append.mp hc with h | h
  · exact hs c h
  · exact ht c h

theorem dot_ascii : ∀ c ∈ ("." : String).data, c.toNat < 128 := by decide

theorem verify_detached_eval (encH : String) (sigB pb : Bytes) (jwk : JVal) (pk : PubPoint)
    (hH : '.' ∉ encH.data) (hA : ∀ c ∈ encH.data, c.toNat < 128)
    (hjwk : jwk_to_public_key jwk = .ok pk) :
    verify_detached (encH ++ ".." ++ b64urlEncode sigB) pb jwk =
      .ok (verify_raw sigB (utf8Bytes (encH ++ "." ++ b64urlEncode pb)) pk) := by
  unfold verify_detached
  rw [pySplit_detached encH (b64urlEncode sigB) hH (b64urlEncode_no_dot sigB)]
  simp only [if_neg (by simp : ¬(("" : String) ≠ ""))]
  rw [str_encode_ascii_ok (ascii_append (ascii_append hA dot_ascii) (b64urlEncode_ascii pb))]
  dsimp only
  rw [b64url_decode_encode]
  dsimp only
  rw [hjwk]

theorem sign_detached_eq (payload : Bytes) (k : ECKey) (kid : String) :
    sign_detached payload k kid =
      b64urlEncode (utf8Bytes (jsonDumps (detachedHeader kid))) ++ ".." ++
        b64urlEncode (sign_raw
          (utf8Bytes (b64urlEncode (utf8Bytes (jsonDumps (detachedHeader kid))) ++ "." ++
            b64urlEncode payload)) k) := rfl

/-! ## Claim C6 -/

/-- C6: for all payload bytes and key pairs (with 32-byte coordinates, as
`generate_ec_key` produces), verifying a freshly created detached token
against the same payload and the matching public key returns true; changing
the payload bytes, or the raw signature bytes carried in the token, makes
verification return false; and verification returns false for any token
with exactly three dot-separated segments whose middle segment is
non-empty. -/
theorem C6_detached_roundtrip (payload : Bytes) (k : ECKey) (kid kid' : String)
    (hx : k.x < 256 ^ 32) (hy : k.y < 256 ^ 32) :
    verify_detached (sign_detached payload k kid) payload (export_public_jwk k kid') = .ok true
    ∧ (∀ payload' : Bytes, payload' ≠ payload →
      verify_detached (sign_detached payload k kid) payload' (export_public_jwk k kid') = .ok false)
    ∧ (∀ sig' : Bytes,
      sig' ≠ sign_raw (utf8Bytes (b64urlEncode (utf8Bytes (jsonDumps (detachedHeader kid))) ++
        "." ++ b64urlEncode payload)) k →
      verify_detached (b64urlEncode (utf8Bytes (jsonDumps (detachedHeader kid))) ++ ".." ++
        b64urlEncode sig') payload (export_public_jwk k kid') = .ok false)
    ∧ (∀ (jws : String) (pb : Bytes) (pj : JVal) (a m c : String),
      pySplit '.' jws = [a, m, c] → m ≠ "" → verify_detached jws pb pj = .ok false) := by
  have hjwk := jwk_to_public_key_export k kid' hx hy
  have hH : '.' ∉ (b64urlEncode (utf8Bytes (jsonDumps (detachedHeader kid)))).data :=
    b64urlEncode_no_dot _
  refine ⟨?_, ?_, ?_, ?_⟩
  · rw [sign_detached_eq, verify_detached_eval _ _ _ _ _ hH (b64urlEncode_ascii _) hjwk, verify_raw_sign]
  · intro payload' hne
    rw [sign_detached_eq, verify_detached_eval _ _ _ _ _ hH (b64urlEncode_ascii _) hjwk]
    rw [verify_raw_sign_other_data]
    intro heq
    simp only [utf8Bytes_append] at heq
    have h2 := List.append_cancel_left heq
    have h3 : b64urlEncode payload' = b64urlEncode payload :=
      utf8Bytes_inj_ascii (b64urlEncode_ascii _) (b64urlEncode_ascii _) h2
    exact hne (b64urlEncode_inj h3)
  · intro sig' hne
    rw [verify_detached_eval _ _ _ _ _ hH (b64urlEncode_ascii _) hjwk]
    have : verify_raw sig'
        (utf8Bytes (b64urlEncode (utf8Bytes (jsonDumps (detachedHeader kid))) ++ "." ++
          b64urlEncode payload)) (k.x, k.y) = false := by
      apply Bool.eq_false_iff.mpr
      intro hv
      exact hne (verify_raw_eq_true_iff.mp hv)
    rw [this]
  · intro jws pb pj a m c hsplit hm
    unfold verify_detached
    rw [hsplit]
    simp [hm]

/-- Closed witness for C6 at a concrete payload and key pair. -/
theorem C6_detached_roundtrip_witness :
    verify_detached (sign_detached [byte 5, byte 200] ⟨1, 2⟩ "mk") [byte 5, byte 200]
      (export_public_jwk ⟨1, 2⟩ "mk") = .ok true :=
  (C6_detached_roundtrip [byte 5, byte 200] ⟨1, 2⟩ "mk" "mk"
    (by norm_num) (by norm_num)).1

/-! ## Claim C8 -/

theorem verify_jwt_str_format {tok : String} {pj : JVal}
    (h : (pySplit '.' tok).length ≠ 3) :
    verify_jwt_str tok pj = .error (.valueError .invalidJwtFormat) := by
  unfold verify_jwt_str
  rcases hp : pySplit '.' tok with _ | ⟨a, _ | ⟨b, _ | ⟨c, _ | ⟨d, rest⟩⟩⟩⟩
  · rfl
  · rfl
  · rfl
  · rw [hp] at h; simp at h
  · rfl

theorem verify_jwt_str_b64err {tok : String} {pj : JVal} {eh ep es : String}
    {si : Bytes} {r : B64Err}
    (hp : pySplit '.' tok = [eh, ep, es])
    (hA : str_encode_ascii (eh ++ "." ++ ep) = .ok si)
    (hdec : b64url_decode es = .error r) :
    verify_jwt_str tok pj = .error (.valueError (.b64 r)) := by
  unfold verify_jwt_str
  rw [hp]
  dsimp only
  rw [hA]
  dsimp only
  rw [hdec]

theorem verify_jwt_str_badsig {tok : String} {pj : JVal} {eh ep es : String}
    {sigB : Bytes} {pk : PubPoint}
    (hp : pySplit '.' tok = [eh, ep, es])
    (hA : str_encode_ascii (eh ++ "." ++ ep) = .ok (utf8Bytes (eh ++ "." ++ ep)))
    (hdec : b64url_decode es = .ok sigB)
    (hjwk : jwk_to_public_key pj = .ok pk)
    (hraw : verify_raw sigB (utf8Bytes (eh ++ "." ++ ep)) pk = false) :
    verify_jwt_str tok pj = .error (.valueError .invalidJwtSignature) := by
  unfold verify_jwt_str
  rw [hp]
  dsimp only
  rw [hA]
  dsimp only
  simp only [hdec, hjwk, hraw]
  simp

/-- C8 (amended): the malformed-input classes produce typed `ValueError`
rejections — wrong segment count, non-empty middle segment or an invalid
raw signature make `verify_detached` return false; wrong `~` or `.` counts
raise the format `ValueError`s, an undecodable signature segment raises the
exact `binascii` error, and an invalid signature raises the signature
`ValueError` on the SD-JWT+kb pipeline — and both mandate verifiers catch
every `ValueError` and return `(False, reason)` without touching the
ledger. The one exception the code has (the counterexample): a detached
signature segment that fails base64url decoding makes `verify_detached`
itself raise `binascii.Error` instead of returning false. -/
theorem C8_error_containment :
    (∀ (jws : String) (pb : Bytes) (pj : JVal), (pySplit '.' jws).length ≠ 3 →
      verify_detached jws pb pj = .ok false)
    ∧ (∀ (jws : String) (pb : Bytes) (pj : JVal) (a m c : String),
      pySplit '.' jws = [a, m, c] → m ≠ "" → verify_detached jws pb pj = .ok false)
    ∧ (∀ (jws : String) (pb : Bytes) (pj : JVal) (a c : String) (sigB : Bytes) (pk : PubPoint),
      pySplit '.' jws = [a, "", c] →
      str_encode_ascii (a ++ "." ++ b64urlEncode pb) =
        .ok (utf8Bytes (a ++ "." ++ b64urlEncode pb)) →
      b64url_decode c = .ok sigB →
      jwk_to_public_key pj = .ok pk →
      verify_raw sigB (utf8Bytes (a ++ "." ++ b64urlEncode pb)) pk = false →
      verify_detached jws pb pj = .ok false)
    ∧ (∀ (tok : String) (pj : JVal) (aud : Option String) (now : Int),
      (pySplit '~' tok).length ≠ 2 →
      verify_sd_jwt_kb_str tok pj aud now = .error (.valueError .sdJwtFormat))
    ∧ (∀ (tok ij kj : String) (pj : JVal) (aud : Option String) (now : Int),
      pySplit '~' tok = [ij, kj] → (pySplit '.' ij).length ≠ 3 →
      verify_sd_jwt_kb_str tok pj aud now = .error (.valueError .invalidJwtFormat))
    ∧ (∀ (ij : String) (pj : JVal) (eh ep es : String) (si : Bytes) (r : B64Err),
      pySplit '.' ij = [eh, ep, es] →
      str_encode_ascii (eh ++ "." ++ ep) = .ok si →
      b64url_decode es = .error r →
      verify_jwt_str ij pj = .error (.valueError (.b64 r)))
    ∧ (∀ (ij : String) (pj : JVal) (eh ep es : String) (sigB : Bytes) (pk : PubPoint),
      pySplit '.' ij = [eh, ep, es] →
      str_encode_ascii (eh ++ "." ++ ep) = .ok (utf8Bytes (eh ++ "." ++ ep)) →
      b64url_decode es = .ok sigB →
      jwk_to_public_key pj = .ok pk →
      verify_raw sigB (utf8Bytes (eh ++ "." ++ ep)) pk = false →
      verify_jwt_str ij pj = .error (.valueError .invalidJwtSignature))
    ∧ (∀ (pj mj : JVal) (rest : List JVal) (mandate sid : String)
        (stotal : Option JVal) (now : Int) (e : PyErr),
      verify_sd_jwt_kb_str mandate pj (some sid) now = .error e → e.isValueError = true →
      ∃ reason, verify_checkout_mandate (pj :: rest) mj mandate sid stotal now =
        .ok (false, reason))
    ∧ (∀ (pj : JVal) (rest : List JVal) (mandate sid : String) (amt : Int)
        (store : String) (now : Int) (L : Ledger) (e : PyErr),
      verify_sd_jwt_kb_str mandate pj (some sid) now = .error e → e.isValueError = true →
      ∃ reason, verify_intent_mandate (pj :: rest) mandate sid amt store now L =
        .ok ((false, reason), L)) := by
  refine ⟨?_, ?_, ?_, ?_, ?_, ?_, ?_, ?_, ?_⟩
  · intro jws pb pj h
    unfold verify_detached
    rcases hp : pySplit '.' jws with _ | ⟨a, _ | ⟨b, _ | ⟨c, _ | ⟨d, rest⟩⟩⟩⟩
    · rfl
    · rfl
    · rfl
    · rw [hp] at h; simp at h
    · rfl
  · intro jws pb pj a m c hp hm
    unfold verify_detached
    rw [hp]
    simp [hm]
  · intro jws pb pj a c sigB pk hp hA hdec hjwk hraw
    unfold verify_detached
    rw [hp]
    dsimp only
    simp only [if_neg (by simp : ¬(("" : String) ≠ ""))]
    rw [hA]
    dsimp only
    simp only [hdec, hjwk, hraw]
  · intro tok pj aud now h
    unfold verify_sd_jwt_kb_str
    rcases hp : pySplit '~' tok with _ | ⟨a, _ | ⟨b, _ | ⟨c, rest⟩⟩⟩
    · rfl
    · rfl
    · rw [hp] at h; simp at h
    · rfl
  · intro tok ij kj pj aud now hp hij
    unfold verify_sd_jwt_kb_str
    rw [hp]
    dsimp only
    rw [verify_jwt_str_format hij]
    rfl
  · intro ij pj eh ep es si r hp hA hdec
    exact verify_jwt_str_b64err hp hA hdec
  · intro ij pj eh ep es sigB pk hp hA hdec hjwk hraw
    exact verify_jwt_str_badsig hp hA hdec hjwk hraw
  · intro pj mj rest mandate sid stotal now e hv hval
    refine ⟨"mandate_invalid_signature: " ++ e.msg, ?_⟩
    unfold verify_checkout_mandate
    dsimp only
    rw [hv]
    dsimp only
    rw [hval]
    simp
  · intro pj rest mandate sid amt store now L e hv hval
    refine ⟨"mandate_invalid_signature: " ++ e.msg, ?_⟩
    unfold verify_intent_mandate
    dsimp only
    rw [hv]
    dsimp only
    rw [hval]
    simp

/-- Counterexample for C8 as frozen: a detached token whose signature
segment (`"A"`, one base64 character, which even after padding leaves a
quad position of 1) makes `verify_detached` raise `binascii.Error` (a
`ValueError`) with the exact length message, instead of returning false as
the spec's propagation policy states. -/
theorem C8_detached_b64_raises_cx :
    verify_detached "e30..A" [] (export_public_jwk ⟨1, 2⟩ "k") =
      .error (.valueError (.b64 (.invalidLength 1))) := rfl

/-! ### Decimal rendering parses back -/

theorem digitChar_isDigit {d : Nat} (h : d < 10) : (Nat.digitChar d).isDigit = true := by
  have key : ∀ d : Fin 10, (Nat.digitChar d.val).isDigit = true := by decide
  exact key ⟨d, h⟩

theorem digitChar_val48 {d : Nat} (h : d < 10) : (Nat.digitChar d).toNat - 48 = d := by
  have key : ∀ d : Fin 10, (Nat.digitChar d.val).toNat - 48 = d.val := by decide
  exact key ⟨d, h⟩

theorem digitChar_ne_dash {d : Nat} (h : d < 10) : Nat.digitChar d ≠ '-' := by
  have key : ∀ d : Fin 10, Nat.digitChar d.val ≠ '-' := by decide
  exact key ⟨d, h⟩

theorem natChars_lt10 {n : Nat} (h : n < 10) : natChars n = [Nat.digitChar n] := by
  unfold natChars natDigitsAux
  rw [if_pos h]

theorem natDigitsAux_eq (n : Nat) : ∀ (f : Nat) (acc : List Char), n < 10 ^ (f + 1) →
    natDigitsAux (f + 1) n acc = natChars n ++ acc := by
  induction n using Nat.strong_induction_on with
  | _ n ih =>
    intro f acc hlt
    by_cases h10 : n < 10
    · show natDigitsAux (f + 1) n acc = _
      rw [natChars_lt10 h10]
      unfold natDigitsAux
      rw [if_pos h10]
      rfl
    · have hdiv : n / 10 < n := Nat.div_lt_self (by omega) (by norm_num)
      have hstep : natDigitsAux (f + 1) n acc =
          natDigitsAux f (n / 10) (Nat.digitChar (n % 10) :: acc) := by
        simp only [natDigitsAux]
        rw [if_neg h10]
      have hf : 1 ≤ f := by
        rcases Nat.eq_zero_or_pos f with hf0 | hf0
        · subst hf0
          simp at hlt
          omega
        · exact hf0
      obtain ⟨f', rfl⟩ : ∃ f', f = f' + 1 := ⟨f - 1, by omega⟩
      have hdivlt : n / 10 < 10 ^ (f' + 1) := by
        rw [Nat.div_lt_iff_lt_mul (by norm_num)]
        calc n < 10 ^ (f' + 1 + 1) := hlt
          _ = 10 ^ (f' + 1) * 10 := by ring
      rw [hstep, ih (n / 10) hdiv f' _ hdivlt]
      have hself : n < 10 ^ n := Nat.lt_pow_self (by norm_num) n
      have hsplit : natChars n = natChars (n / 10) ++ [Nat.digitChar (n % 10)] := by
        unfold natChars
        have hone : natDigitsAux (n + 1) n [] =
            natDigitsAux n (n / 10) [Nat.digitChar (n % 10)] := by
          simp only [natDigitsAux]
          rw [if_neg h10]
        obtain ⟨m, rfl⟩ : ∃ m, n = m + 1 := ⟨n - 1, by omega⟩
        rw [hone, ih ((m + 1) / 10) hdiv m _ (by
          calc (m + 1) / 10 < m + 1 := hdiv
            _ ≤ 10 ^ (m + 1) := le_of_lt hself)]
        rfl
      rw [hsplit]
      simp

theorem natChars_split {n : Nat} (h : 10 ≤ n) :
    natChars n = natChars (n / 10) ++ [Nat.digitChar (n % 10)] := by
  unfold natChars
  have hone : natDigitsAux (n + 1) n [] =
      natDigitsAux n (n / 10) [Nat.digitChar (n % 10)] := by
    simp only [natDigitsAux]
    rw [if_neg (by omega)]
  obtain ⟨m, rfl⟩ : ∃ m, n = m + 1 := ⟨n - 1, by omega⟩
  have hdiv : (m + 1) / 10 < m + 1 := Nat.div_lt_self (by omega) (by norm_num)
  have hself : m + 1 < 10 ^ (m + 1) := Nat.lt_pow_self (by norm_num) (m + 1)
  rw [hone, natDigitsAux_eq ((m + 1) / 10) m _ (by omega)]
  rfl

theorem natChars_head (n : Nat) :
    ∃ d t, d < 10 ∧ natChars n = Nat.digitChar d :: t := by
  induction n using Nat.strong_induction_on with
  | _ n ih =>
    by_cases h10 : n < 10
    · exact ⟨n, [], h10, natChars_lt10 h10⟩
    · have hdiv : n / 10 < n := Nat.div_lt_self (by omega) (by norm_num)
      obtain ⟨d, t, hd, ht⟩ := ih (n / 10) hdiv
      refine ⟨d, t ++ [Nat.digitChar (n % 10)], hd, ?_⟩
      rw [natChars_split (by omega), ht]
      rfl

theorem parseDigits_cons_digit {c : Char} (h : c.isDigit = true) (t : List Char) (acc : Nat) :
    parseDigits (c :: t) acc = parseDigits t (acc * 10 + (c.toNat - 48)) := by
  simp only [parseDigits]
  rw [h]
  simp

theorem parseDigits_stop {cs : List Char} (h : ∀ c t, cs = c :: t → c.isDigit = false)
    (acc : Nat) : parseDigits cs acc = (acc, cs) := by
  cases cs with
  | nil => rfl
  | cons c t =>
    simp only [parseDigits]
    rw [h c t rfl]
    simp

theorem parseDigits_natChars (n : Nat) : ∀ (acc : Nat) (rest : List Char),
    parseDigits (natChars n ++ rest) acc =
      parseDigits rest (acc * 10 ^ (natChars n).length + n) := by
  induction n using Nat.strong_induction_on with
  | _ n ih =>
    intro acc rest
    by_cases h10 : n < 10
    · rw [natChars_lt10 h10]
      simp only [List.cons_append, List.nil_append, List.length_cons, List.length_nil]
      rw [parseDigits_cons_digit (digitChar_isDigit h10), digitChar_val48 h10]
      norm_num
    · have hdiv : n / 10 < n := Nat.div_lt_self (by omega) (by norm_num)
      rw [natChars_split (by omega)]
      rw [List.append_assoc, List.singleton_append]
      rw [ih (n / 10) hdiv acc (Nat.digitChar (n % 10) :: rest)]
      rw [parseDigits_cons_digit (digitChar_isDigit (Nat.mod_lt n (by norm_num)))]
      rw [digitChar_val48 (Nat.mod_lt n (by norm_num))]
      congr 1
      · simp [Nat.pow_succ]
        ring_nf
        have := Nat.div_add_mod n 10
        omega

theorem numCont_false {cs : List Char}
    (h : ∀ c t, cs = c :: t → (c ≠ '.' ∧ c ≠ 'e' ∧ c ≠ 'E')) :
    numCont cs = false := by
  rw [numCont.eq_def]
  split
  · exact absurd rfl (h _ _ rfl).1
  · exact absurd rfl (h _ _ rfl).2.1
  · exact absurd rfl (h _ _ rfl).2.2
  · rfl

theorem parseIntNum_intChars (n : Int) (rest : List Char)
    (hstop : ∀ c t, rest = c :: t →
      (c.isDigit = false ∧ c ≠ '.' ∧ c ≠ 'e' ∧ c ≠ 'E')) :
    parseIntNum (intChars n ++ rest) = some (n, rest) := by
  have hafter : ∀ m : Nat, parseDigits (natChars m ++ rest) 0 = (m, rest) := by
    intro m
    rw [parseDigits_natChars m 0 rest, parseDigits_stop (fun c t hct => (hstop c t hct).1)]
    norm_num
  have hfin : ∀ neg m, finishInt neg (m, rest) =
      some (if neg then -(m : Int) else (m : Int), rest) := by
    intro neg m
    unfold finishInt
    rw [numCont_false (fun c t hct => (hstop c t hct).2)]
    simp
  cases n with
  | ofNat m =>
    obtain ⟨d, t, hd, ht⟩ := natChars_head m
    show parseIntNum (natChars m ++ rest) = _
    rw [ht, List.cons_append]
    simp only [parseIntNum]
    rw [if_neg (digitChar_ne_dash hd), if_pos (digitChar_isDigit hd)]
    rw [show Nat.digitChar d :: (t ++ rest) = natChars m ++ rest from by rw [ht]; rfl]
    rw [hafter m, hfin false m]
    simp

  | negSucc m =>
    show parseIntNum ('-' :: (natChars (m + 1) ++ rest)) = _
    obtain ⟨d, t, hd, ht⟩ := natChars_head (m + 1)
    rw [ht, List.cons_append]
    simp only [parseIntNum, if_true]
    rw [if_pos (digitChar_isDigit hd)]
    rw [show Nat.digitChar d :: (t ++ rest) = natChars (m + 1) ++ rest from by rw [ht]; rfl]
    rw [hafter (m + 1), hfin true (m + 1)]
    simp [Int.negSucc_eq]

/-- Closed witness for C8 (amended): a token with two dot-separated segments
is rejected with `False` by `verify_detached`. -/
theorem C8_error_containment_witness :
    verify_detached "ab.cd" [] (export_public_jwk ⟨1, 2⟩ "k") = .ok false :=
  C8_error_containment.1 "ab.cd" [] (export_public_jwk ⟨1, 2⟩ "k") (by decide)

/-! ## Claim C2 -/

/-- C2: the intent-mandate check-and-reserve step rejects when the entry's
`use_count` has reached `max_uses` (when set), rejects when `total_spent`
plus the transaction's cents amount would exceed `max_total` (when set,
and the use limit does not already reject), and otherwise adds exactly the
amount to `total_spent`, 1 to `use_count`, and accepts; rejections leave
the ledger unchanged. In particular `max_uses = 2` gives accept, accept,
reject over three reservations, and `max_total = 1000` gives accept then
reject for 600 then 500 cents. -/
theorem C2_usage_ledger_limits (L : Ledger) (id : String) (amt : Int) :
    (∀ (mu : Int) (mtv : Option JVal),
      ((ledgerGet L id).getD ⟨0, 0⟩).use_count ≥ mu →
      checkAndReserve L id amt mtv (some (.num mu)) =
        .ok (.rejectUses ((ledgerGet L id).getD ⟨0, 0⟩).use_count mu, L))
    ∧ (∀ (mt : Int) (muv : Option JVal),
      (muv = none ∨ muv = some .null ∨
        ∃ mu : Int, muv = some (.num mu) ∧ ((ledgerGet L id).getD ⟨0, 0⟩).use_count < mu) →
      ((ledgerGet L id).getD ⟨0, 0⟩).total_spent + amt > mt →
      checkAndReserve L id amt (some (.num mt)) muv = .ok (.rejectTotal mt, L))
    ∧ (∀ (mtv muv : Option JVal),
      (muv = none ∨ muv = some .null ∨
        ∃ mu : Int, muv = some (.num mu) ∧ ((ledgerGet L id).getD ⟨0, 0⟩).use_count < mu) →
      (mtv = none ∨ mtv = some .null ∨
        ∃ mt : Int, mtv = some (.num mt) ∧
          ((ledgerGet L id).getD ⟨0, 0⟩).total_spent + amt ≤ mt) →
      checkAndReserve L id amt mtv muv =
        .ok (.accepted, ledgerSet L id ⟨((ledgerGet L id).getD ⟨0, 0⟩).total_spent + amt,
          ((ledgerGet L id).getD ⟨0, 0⟩).use_count + 1⟩))
    ∧ (checkAndReserve [] "m" 100 none (some (.num 2)) = .ok (.accepted, [("m", ⟨100, 1⟩)])
      ∧ checkAndReserve [("m", ⟨100, 1⟩)] "m" 100 none (some (.num 2)) =
          .ok (.accepted, [("m", ⟨200, 2⟩)])
      ∧ checkAndReserve [("m", ⟨200, 2⟩)] "m" 100 none (some (.num 2)) =
          .ok (.rejectUses 2 2, [("m", ⟨200, 2⟩)]))
    ∧ (checkAndReserve [] "m" 600 (some (.num 1000)) none = .ok (.accepted, [("m", ⟨600, 1⟩)])
      ∧ checkAndReserve [("m", ⟨600, 1⟩)] "m" 500 (some (.num 1000)) none =
          .ok (.rejectTotal 1000, [("m", ⟨600, 1⟩)])) := by
  refine ⟨?_, ?_, ?_, ⟨rfl, rfl, rfl⟩, ⟨rfl, rfl⟩⟩
  · intro mu mtv h
    unfold checkAndReserve
    dsimp only [pyNum?]
    rw [if_pos h]
  · intro mt muv hmu htot
    rcases hmu with h | h | ⟨mu, h, hlt⟩ <;> subst h <;>
      unfold checkAndReserve <;> dsimp only [pyNum?]
    · rw [if_pos htot]
    · rw [if_pos htot]
    · rw [if_neg (by omega), if_pos htot]
  · intro mtv muv hmu hmt
    rcases hmu with h | h | ⟨mu, h, hlt⟩ <;> subst h <;>
      rcases hmt with h | h | ⟨mt, h, hle⟩ <;> subst h <;>
      unfold checkAndReserve <;> dsimp only [pyNum?]
    all_goals try rw [if_neg (by omega)]
    all_goals try rw [if_neg (by omega)]

/-- Closed witness for C2: the uses-limit rejection at an entry already used
five times, and the accept case. -/
theorem C2_usage_ledger_limits_witness :
    checkAndReserve [("m", ⟨0, 5⟩)] "m" 7 none (some (.num 2)) =
      .ok (.rejectUses 5 2, [("m", ⟨0, 5⟩)])
    ∧ checkAndReserve [("m", ⟨40, 1⟩)] "m" 7 (some (.num 1000)) (some (.num 5)) =
      .ok (.accepted, [("m", ⟨47, 2⟩)]) :=
  ⟨(C2_usage_ledger_limits [("m", ⟨0, 5⟩)] "m" 7).1 2 none (by decide),
   (C2_usage_ledger_limits [("m", ⟨40, 1⟩)] "m" 7).2.2.1 (some (.num 1000)) (some (.num 5))
     (Or.inr (Or.inr ⟨5, rfl, by decide⟩)) (Or.inr (Or.inr ⟨1000, rfl, by decide⟩))⟩

/-! ## Claim C3 -/

theorem allowListRejects_arr_not_mem {ms : List JVal} {store : String}
    (hne : ms ≠ []) (hnm : ∀ v ∈ ms, jvalIsStr v store = false) :
    allowListRejects (.arr ms) store = .ok true := by
  unfold allowListRejects
  have hem : ms.isEmpty = false := by
    cases ms with
    | nil => exact absurd rfl hne
    | cons v tl => rfl
  have hany : ms.any (fun v => jvalIsStr v store) = false := by
    rw [List.any_eq_false]
    intro v hv
    simp [hnm v hv]
  simp [jvalTruthy, hem, hany]

/-- C3: an intent-mandate presentation that fails the merchant allow-list
(non-empty list, requesting merchant not a member) or the per-transaction
cap (`max_amount` set and exceeded) is rejected with a scope-mismatch
reason before any reservation, and the usage ledger is returned exactly as
it was — at the merchant site for both checks, and at the PSP site for the
cap (its reason string carries no `scope_mismatch` prefix). -/
theorem C3_scope_rejections_leave_ledger (pj : JVal) (rest : List JVal)
    (mandate sid store : String) (amt : Int) (now : Int) (L : Ledger)
    (cl a : List (String × JVal)) :
    (∀ ms : List JVal,
      verify_sd_jwt_kb_str mandate pj (some sid) now = .ok (.obj cl) →
      jlookup "authorization" cl = some (.obj a) →
      jlookup "merchant_ids" a = some (.arr ms) →
      ms ≠ [] → (∀ v ∈ ms, jvalIsStr v store = false) →
      verify_intent_mandate (pj :: rest) mandate sid amt store now L =
        .ok ((false, "mandate_scope_mismatch: store " ++ store ++
          " not in authorized merchants"), L))
    ∧ (∀ ma : Int,
      verify_sd_jwt_kb_str mandate pj (some sid) now = .ok (.obj cl) →
      jlookup "authorization" cl = some (.obj a) →
      allowListRejects ((jlookup "merchant_ids" a).getD (.arr [])) store = .ok false →
      jlookup "max_amount" a = some (.num ma) → amt > ma →
      verify_intent_mandate (pj :: rest) mandate sid amt store now L =
        .ok ((false, "mandate_scope_mismatch: amount " ++ toString amt ++
          " exceeds max_amount"), L))
    ∧ (∀ e ma : Int,
      verify_sd_jwt_kb_str mandate pj none now = .ok (.obj cl) →
      jlookup "exp" cl = some (.num e) → now < e →
      jlookup "authorization" cl = some (.obj a) →
      jlookup "max_amount" a = some (.num ma) → amt > ma →
      psp_verify_intent_mandate (pj :: rest) mandate amt now L =
        .ok ((false, "amount " ++ toString amt ++ " exceeds max_amount"), L)) := by
  refine ⟨?_, ?_, ?_⟩
  · intro ms hv hauth hids hne hnm
    unfold verify_intent_mandate
    dsimp only
    rw [hv]
    dsimp only
    rw [show authEnvelope cl = .ok (jlookup "max_amount" a, jlookup "max_total" a,
      jlookup "max_uses" a, (jlookup "merchant_ids" a).getD (.arr [])) from by
        unfold authEnvelope; rw [hauth]]
    rw [except_bind_ok]
    dsimp only
    rw [hids]
    dsimp only [Option.getD]
    rw [allowListRejects_arr_not_mem hne hnm, except_bind_ok]
    rfl
  · intro ma hv hauth hallow hma hgt
    unfold verify_intent_mandate
    dsimp only
    rw [hv]
    dsimp only
    rw [show authEnvelope cl = .ok (jlookup "max_amount" a, jlookup "max_total" a,
      jlookup "max_uses" a, (jlookup "merchant_ids" a).getD (.arr [])) from by
        unfold authEnvelope; rw [hauth]]
    rw [except_bind_ok]
    dsimp only
    rw [hallow, except_bind_ok]
    rw [show capExceeded (jlookup "max_amount" a) amt = .ok true from by
      unfold capExceeded; rw [hma]; dsimp only [pyNum?]; rw [decide_eq_true hgt]]
    rw [except_bind_ok]
    rfl
  · intro e ma hv hexp hlt hauth hma hgt
    unfold psp_verify_intent_mandate
    dsimp only
    rw [hv]
    dsimp only
    rw [hexp]
    dsimp only [Option.getD, pyNum?]
    rw [if_neg (by omega)]
    rw [show authEnvelope cl = .ok (jlookup "max_amount" a, jlookup "max_total" a,
      jlookup "max_uses" a, (jlookup "merchant_ids" a).getD (.arr [])) from by
        unfold authEnvelope; rw [hauth]]
    rw [except_bind_ok]
    dsimp only
    rw [show capExceeded (jlookup "max_amount" a) amt = .ok true from by
      unfold capExceeded; rw [hma]; dsimp only [pyNum?]; rw [decide_eq_true hgt]]
    rw [except_bind_ok]
    rfl

/-! ## Round trip of the JSON serializer and parser

`json.loads` recovers exactly what `json.dumps(..., separators=(",", ":"))`
emitted; proved character by character, then for whole values by fuel
induction. -/

theorem parseHexDigit_hexDigit {d : Nat} (h : d < 16) :
    parseHexDigit? (hexDigit d) = some d := by
  have hall : ∀ e : Fin 16, parseHexDigit? (hexDigit e.val) = some e.val := by decide
  exact hall ⟨d, h⟩

theorem parseStringChars_step (c : Char) {k l rest : List Char}
    (hk : parseStringChars k = some (l, rest)) :
    parseStringChars (escapeJsonChar c ++ k) = some (c :: l, rest) := by
  unfold escapeJsonChar
  split_ifs with h1 h2 h3 h4 h5 h6 h7 h8
  · subst h1; rw [parseStringChars.eq_def]; simp [hk]
  · subst h2; rw [parseStringChars.eq_def]; simp [hk]
  · subst h3; rw [parseStringChars.eq_def]; simp [hk]
  · subst h4; rw [parseStringChars.eq_def]; simp [hk]
  · subst h5; rw [parseStringChars.eq_def]; simp [hk]
  · subst h6; rw [parseStringChars.eq_def]; simp [hk]
  · subst h7; rw [parseStringChars.eq_def]; simp [hk]
  · have hhi : c.toNat / 16 < 16 := by omega
    have hlo : c.toNat % 16 < 16 := Nat.mod_lt _ (by norm_num)
    have h0 : parseHexDigit? '0' = some 0 := rfl
    rw [parseStringChars.eq_def]
    simp [h0, parseHexDigit_hexDigit hhi, parseHexDigit_hexDigit hlo, hk]
    rw [show c.toNat / 16 * 16 + c.toNat % 16 = c.toNat from by omega]
    exact Char.ofNat_toNat c
  · rw [List.singleton_append, parseStringChars.eq_def]
    dsimp only
    rw [if_neg h1, if_neg h2, hk]
    rfl

theorem parseStringChars_escape (l rest : List Char) :
    parseStringChars ((l.map escapeJsonChar).flatten ++ '"' :: rest) = some (l, rest) := by
  induction l with
  | nil =>
    rw [List.map_nil, List.flatten_nil, List.nil_append, parseStringChars.eq_def]
    simp
  | cons c t ih =>
    simp only [List.map_cons, List.flatten_cons, List.append_assoc]
    exact parseStringChars_step c ih

theorem utf8Dec2_cons (b0 : Nat) (b2 : Byte) (r2 : Bytes) :
    utf8Dec2 b0 (b2 :: r2) =
      if contByte b2 then
        (if (b0 - 0xC0) * 64 + (b2.val - 0x80) < 0x80 then none
         else (utf8Decode? r2).map (Char.ofNat ((b0 - 0xC0) * 64 + (b2.val - 0x80)) :: ·))
      else none := rfl

theorem utf8Dec3_cons (b0 : Nat) (b2 b3 : Byte) (r2 : Bytes) :
    utf8Dec3 b0 (b2 :: b3 :: r2) =
      (if contByte b2 && contByte b3 then
        (if (b0 - 0xE0) * 4096 + (b2.val - 0x80) * 64 + (b3.val - 0x80) < 0x800 ||
            (0xD800 ≤ (b0 - 0xE0) * 4096 + (b2.val - 0x80) * 64 + (b3.val - 0x80) &&
              (b0 - 0xE0) * 4096 + (b2.val - 0x80) * 64 + (b3.val - 0x80) < 0xE000) then none
         else (utf8Decode? r2).map
           (Char.ofNat ((b0 - 0xE0) * 4096 + (b2.val - 0x80) * 64 + (b3.val - 0x80)) :: ·))
      else none) := rfl

theorem utf8Dec4_cons (b0 : Nat) (b2 b3 b4 : Byte) (r2 : Bytes) :
    utf8Dec4 b0 (b2 :: b3 :: b4 :: r2) =
      (if contByte b2 && contByte b3 && contByte b4 then
        (if (b0 - 0xF0) * 262144 + (b2.val - 0x80) * 4096 + (b3.val - 0x80) * 64 +
              (b4.val - 0x80) < 0x10000 ||
            (b0 - 0xF0) * 262144 + (b2.val - 0x80) * 4096 + (b3.val - 0x80) * 64 +
              (b4.val - 0x80) ≥ 0x110000 then none
         else (utf8Decode? r2).map
           (Char.ofNat ((b0 - 0xF0) * 262144 + (b2.val - 0x80) * 4096 + (b3.val - 0x80) * 64 +
             (b4.val - 0x80)) :: ·))
      else none) := rfl

set_option maxHeartbeats 2000000 in
theorem utf8Decode_encodeChar (c : Char) (bs : Bytes) :
    utf8Decode? (utf8EncodeCharM c ++ bs) = (utf8Decode? bs).map (fun l => c :: l) := by
  have hval : c.toNat < 0xD800 ∨ (0xE000 ≤ c.toNat ∧ c.toNat < 0x110000) := by
    have h := c.valid
    unfold UInt32.isValidChar Nat.isValidChar at h
    exact h
  rcases Nat.lt_or_ge c.toNat 0x80 with h1 | h1
  · rw [show utf8EncodeCharM c = [byte c.toNat] from by
      unfold utf8EncodeCharM; rw [if_pos h1]]
    have hb : (byte c.toNat).val = c.toNat := by rw [byte_val]; omega
    rw [List.singleton_append, utf8Decode?.eq_def]
    dsimp only
    rw [hb, if_pos h1, Char.ofNat_toNat]
  · rcases Nat.lt_or_ge c.toNat 0x800 with h2 | h2
    · rw [show utf8EncodeCharM c = [byte (0xC0 + c.toNat / 64), byte (0x80 + c.toNat % 64)] from by
        unfold utf8EncodeCharM; rw [if_neg (by omega), if_pos h2]]
      have hb1 : (byte (0xC0 + c.toNat / 64)).val = 0xC0 + c.toNat / 64 := by
        rw [byte_val]; apply Nat.mod_eq_of_lt; omega
      have hb2 : (byte (0x80 + c.toNat % 64)).val = 0x80 + c.toNat % 64 := by
        rw [byte_val]; apply Nat.mod_eq_of_lt; omega
      have hc2 : contByte (byte (0x80 + c.toNat % 64)) = true := by
        simp only [contByte, hb2, Bool.and_eq_true, decide_eq_true_eq]
        omega
      rw [List.cons_append, List.cons_append, List.nil_append, utf8Decode?.eq_def]
      dsimp only
      rw [hb1, if_neg (by omega), if_neg (by omega), if_pos (by omega)]
      rw [utf8Dec2_cons, hc2, if_pos rfl]
      rw [hb2]
      rw [show (0xC0 + c.toNat / 64 - 0xC0) * 64 + (0x80 + c.toNat % 64 - 0x80) = c.toNat from by
        omega]
      rw [if_neg (by omega), Char.ofNat_toNat]
    · rcases Nat.lt_or_ge c.toNat 0x10000 with h3 | h3
      · rw [show utf8EncodeCharM c = [byte (0xE0 + c.toNat / 4096),
            byte (0x80 + c.toNat / 64 % 64), byte (0x80 + c.toNat % 64)] from by
          unfold utf8EncodeCharM; rw [if_neg (by omega), if_neg (by omega), if_pos h3]]
        have hb1 : (byte (0xE0 + c.toNat / 4096)).val = 0xE0 + c.toNat / 4096 := by
          rw [byte_val]; apply Nat.mod_eq_of_lt; omega
        have hb2 : (byte (0x80 + c.toNat / 64 % 64)).val = 0x80 + c.toNat / 64 % 64 := by
          rw [byte_val]; apply Nat.mod_eq_of_lt; omega
        have hb3 : (byte (0x80 + c.toNat % 64)).val = 0x80 + c.toNat % 64 := by
          rw [byte_val]; apply Nat.mod_eq_of_lt; omega
        have hc2 : contByte (byte (0x80 + c.toNat / 64 % 64)) = true := by
          simp only [contByte, hb2, Bool.and_eq_true, decide_eq_true_eq]
          omega
        have hc3 : contByte (byte (0x80 + c.toNat % 64)) = true := by
          simp only [contByte, hb3, Bool.and_eq_true, decide_eq_true_eq]
          omega
        rw [List.cons_append, List.cons_append, List.cons_append, List.nil_append,
          utf8Decode?.eq_def]
        dsimp only
        rw [hb1, if_neg (by omega), if_neg (by omega), if_neg (by omega), if_pos (by omega)]
        rw [utf8Dec3_cons, hc2, hc3, if_pos (show (true && true) = true from rfl)]
        rw [hb2, hb3]
        rw [show (0xE0 + c.toNat / 4096 - 0xE0) * 4096 + (0x80 + c.toNat / 64 % 64 - 0x80) * 64 +
            (0x80 + c.toNat % 64 - 0x80) = c.toNat from by omega]
        rw [if_neg (by
          simp only [Bool.or_eq_true, Bool.and_eq_true, decide_eq_true_eq, not_or, not_and,
            not_lt]
          omega)]
        rw [Char.ofNat_toNat]
      · have h4 : c.toNat < 0x110000 := by omega
        rw [show utf8EncodeCharM c = [byte (0xF0 + c.toNat / 262144),
            byte (0x80 + c.toNat / 4096 % 64), byte (0x80 + c.toNat / 64 % 64),
            byte (0x80 + c.toNat % 64)] from by
          unfold utf8EncodeCharM; rw [if_neg (by omega), if_neg (by omega), if_neg (by omega)]]
        have hb1 : (byte (0xF0 + c.toNat / 262144)).val = 0xF0 + c.toNat / 262144 := by
          rw [byte_val]; apply Nat.mod_eq_of_lt; omega
        have hb2 : (byte (0x80 + c.toNat / 4096 % 64)).val = 0x80 + c.toNat / 4096 % 64 := by
          rw [byte_val]; apply Nat.mod_eq_of_lt; omega
        have hb3 : (byte (0x80 + c.toNat / 64 % 64)).val = 0x80 + c.toNat / 64 % 64 := by
          rw [byte_val]; apply Nat.mod_eq_of_lt; omega
        have hb4 : (byte (0x80 + c.toNat % 64)).val = 0x80 + c.toNat % 64 := by
          rw [byte_val]; apply Nat.mod_eq_of_lt; omega
        have hc2 : contByte (byte (0x80 + c.toNat / 4096 % 64)) = true := by
          simp only [contByte, hb2, Bool.and_eq_true, decide_eq_true_eq]
          omega
        have hc3 : contByte (byte (0x80 + c.toNat / 64 % 64)) = true := by
          simp only [contByte, hb3, Bool.and_eq_true, decide_eq_true_eq]
          omega
        have hc4 : contByte (byte (0x80 + c.toNat % 64)) = true := by
          simp only [contByte, hb4, Bool.and_eq_true, decide_eq_true_eq]
          omega
        rw [List.cons_append, List.cons_append, List.cons_append, List.cons_append,
          List.nil_append, utf8Decode?.eq_def]
        dsimp only
        rw [hb1, if_neg (by omega), if_neg (by omega), if_neg (by omega), if_neg (by omega),
          if_pos (by omega)]
        rw [utf8Dec4_cons, hc2, hc3, hc4, if_pos (show (true && true && true) = true from rfl)]
        rw [hb2, hb3, hb4]
        rw [show (0xF0 + c.toNat / 262144 - 0xF0) * 262144 +
            (0x80 + c.toNat / 4096 % 64 - 0x80) * 4096 +
            (0x80 + c.toNat / 64 % 64 - 0x80) * 64 + (0x80 + c.toNat % 64 - 0x80) = c.toNat from by
          omega]
        rw [if_neg (by
          simp only [Bool.or_eq_true, decide_eq_true_eq, not_or, not_lt, ge_iff_le, not_le]
          omega)]
        rw [Char.ofNat_toNat]

theorem utf8Decode_flatten (l : List Char) :
    utf8Decode? ((l.map utf8EncodeCharM).flatten) = some l := by
  induction l with
  | nil => rfl
  | cons c t ih =>
    rw [List.map_cons, List.flatten_cons, utf8Decode_encodeChar, ih]
    rfl

theorem goodTail_nil : goodTail [] := fun _ _ h => nomatch h

theorem goodTail_cons {c : Char}
    (h : c.isDigit = false ∧ c ≠ '.' ∧ c ≠ 'e' ∧ c ≠ 'E') (t : List Char) :
    goodTail (c :: t) := by
  intro c' t' h'
  injection h' with h1 h2
  subst h1
  exact h

theorem digitChar_not_rbrack {d : Nat} (h : d < 10) : Nat.digitChar d ≠ ']' := by
  have hall : ∀ e : Fin 10, Nat.digitChar e.val ≠ ']' := by decide
  exact hall ⟨d, h⟩

theorem dumpsChars_cons (v : JVal) : ∃ c t, dumpsChars v = c :: t ∧ c ≠ ']' := by
  cases v with
  | null => exact ⟨'n', _, rfl, by decide⟩
  | bool b =>
    cases b with
    | false => exact ⟨'f', _, rfl, by decide⟩
    | true => exact ⟨'t', _, rfl, by decide⟩
  | num n =>
    rcases n with m | m
    · obtain ⟨d, t, hd, ht⟩ := natChars_head m
      exact ⟨Nat.digitChar d, t,
        by rw [show dumpsChars (.num (Int.ofNat m)) = natChars m from rfl, ht],
        digitChar_not_rbrack hd⟩
    · exact ⟨'-', natChars (m + 1), rfl, by decide⟩
  | str s => exact ⟨'"', _, rfl, by decide⟩
  | arr xs => exact ⟨'[', _, rfl, by decide⟩
  | obj l => exact ⟨'\x7b', _, rfl, by decide⟩

theorem parseVal_str_head (fuel : Nat) (r : List Char) :
    parseVal (fuel + 1) ('"' :: r) =
      (parseStringChars r).map (fun p => (JVal.str ⟨p.1⟩, p.2)) := rfl

theorem option_bind_some {α β : Type} (a : α) (f : α → Option β) :
    (do let x ← some a; f x) = f a := rfl

theorem parseElems_succ (fuel : Nat) (cs : List Char) :
    parseElems (fuel + 1) cs = (do
      let (v, r) ← parseVal fuel cs
      match r with
      | ',' :: r2 => do
        let (vs, r3) ← parseElems fuel r2
        some (v :: vs, r3)
      | ']' :: r2 => some ([v], r2)
      | _ => none) := rfl

theorem parseMembers_quote (fuel : Nat) (r : List Char) :
    parseMembers (fuel + 1) ('"' :: r) = (do
      let (k, r2) ← parseStringChars r
      match r2 with
      | ':' :: r3 => do
        let (v, r4) ← parseVal fuel r3
        match r4 with
        | ',' :: r5 => do
          let (ms, r6) ← parseMembers fuel r5
          some ((⟨k⟩, v) :: ms, r6)
        | '\x7d' :: r5 => some ([(⟨k⟩, v)], r5)
        | _ => none
      | _ => none) := rfl

theorem parseVal_arr_cons (fuel : Nat) (c₀ : Char) (t : List Char) (h : c₀ ≠ ']') :
    parseVal (fuel + 1) ('[' :: c₀ :: t) =
      (parseElems fuel (c₀ :: t)).map (fun p => (JVal.arr p.1, p.2)) := by
  rw [show parseVal (fuel + 1) ('[' :: c₀ :: t) =
    (if headIs (c₀ :: t) ']' then some (JVal.arr [], (c₀ :: t).tail)
     else (parseElems fuel (c₀ :: t)).map (fun p => (JVal.arr p.1, p.2))) from rfl]
  rw [if_neg (by simp [headIs, h])]

theorem parse_dumps (fuel : Nat) :
    (∀ v rest, sizeJ v ≤ fuel → goodTail rest →
      parseVal fuel (dumpsChars v ++ rest) = some (v, rest)) ∧
    (∀ xs rest, sizeList xs ≤ fuel → xs ≠ [] →
      parseElems fuel (dumpsArr xs ++ ']' :: rest) = some (xs, rest)) ∧
    (∀ ms rest, sizeEntries ms ≤ fuel → ms ≠ [] →
      parseMembers fuel (dumpsObj ms ++ '\x7d' :: rest) = some (ms, rest)) := by
  induction fuel with
  | zero =>
    refine ⟨?_, ?_, ?_⟩
    · intro v rest hsz _
      exact absurd hsz (by cases v <;> simp [sizeJ])
    · intro xs rest hsz _
      exact absurd hsz (by cases xs <;> simp [sizeList])
    · intro ms rest hsz _
      exact absurd hsz (by cases ms <;> simp [sizeEntries])
  | succ fuel ih =>
    refine ⟨?_, ?_, ?_⟩
    · intro v rest hsz hrest
      cases v with
      | null => rfl
      | bool b => cases b <;> rfl
      | num n =>
        rcases n with m | m
        · obtain ⟨d, t, hd, ht⟩ := natChars_head m
          have hstep : parseVal (fuel + 1) (natChars m ++ rest) =
              (parseIntNum (natChars m ++ rest)).map (fun p => (JVal.num p.1, p.2)) := by
            rw [ht, List.cons_append]
            interval_cases d <;> rfl
          show parseVal (fuel + 1) (natChars m ++ rest) = some (JVal.num (Int.ofNat m), rest)
          rw [hstep]
          rw [show (natChars m ++ rest : List Char) = intChars (Int.ofNat m) ++ rest from rfl]
          rw [parseIntNum_intChars (Int.ofNat m) rest hrest]
          rfl
        · show parseVal (fuel + 1) ('-' :: (natChars (m + 1) ++ rest)) =
            some (JVal.num (Int.negSucc m), rest)
          rw [show parseVal (fuel + 1) ('-' :: (natChars (m + 1) ++ rest)) =
            (parseIntNum ('-' :: (natChars (m + 1) ++ rest))).map
              (fun p => (JVal.num p.1, p.2)) from rfl]
          rw [show ('-' :: (natChars (m + 1) ++ rest) : List Char) =
            intChars (Int.negSucc m) ++ rest from by
              rw [show intChars (Int.negSucc m) = '-' :: natChars (m + 1) from rfl,
                List.cons_append]]
          rw [parseIntNum_intChars (Int.negSucc m) rest hrest]
          rfl
      | str s =>
        show parseVal (fuel + 1) (escapeJsonString s ++ rest) = some (JVal.str s, rest)
        rw [show escapeJsonString s ++ rest =
          '"' :: ((s.data.map escapeJsonChar).flatten ++ '"' :: rest) from by
            rw [show escapeJsonString s =
              '"' :: ((s.data.map escapeJsonChar).flatten ++ ['"']) from rfl]
            rw [List.cons_append, List.append_assoc, List.singleton_append]]
        rw [parseVal_str_head, parseStringChars_escape]
        simp [string_mk_data]
      | arr xs =>
        rcases xs with _ | ⟨x, tl⟩
        · rfl
        · obtain ⟨c₀, t₀, hct, hc0⟩ := dumpsChars_cons x
          have hszl : sizeList (x :: tl) ≤ fuel := by
            have h := hsz
            rw [show sizeJ (JVal.arr (x :: tl)) = sizeList (x :: tl) + 1 from rfl] at h
            omega
          have hcons : ∃ u, dumpsArr (x :: tl) = c₀ :: u := by
            rcases tl with _ | ⟨y, ys⟩
            · exact ⟨t₀, by rw [show dumpsArr [x] = dumpsChars x from rfl, hct]⟩
            · exact ⟨t₀ ++ ',' :: dumpsArr (y :: ys), by
                rw [show dumpsArr (x :: y :: ys) =
                  dumpsChars x ++ ',' :: dumpsArr (y :: ys) from rfl, hct, List.cons_append]⟩
          obtain ⟨u, hu⟩ := hcons
          rw [show dumpsChars (JVal.arr (x :: tl)) =
            '[' :: (dumpsArr (x :: tl) ++ [']']) from rfl]
          rw [List.cons_append, List.append_assoc, List.singleton_append]
          rw [hu, List.cons_append, parseVal_arr_cons fuel c₀ _ hc0]
          rw [show (c₀ :: (u ++ ']' :: rest) : List Char) =
            dumpsArr (x :: tl) ++ ']' :: rest from by rw [hu, List.cons_append]]
          rw [ih.2.1 (x :: tl) rest hszl (by simp)]
          rfl
      | obj l =>
        rcases l with _ | ⟨⟨k, w⟩, tl⟩
        · rfl
        · have hsze : sizeEntries ((k, w) :: tl) ≤ fuel := by
            have h := hsz
            rw [show sizeJ (JVal.obj ((k, w) :: tl)) =
              sizeEntries ((k, w) :: tl) + 1 from rfl] at h
            omega
          have hcons : ∃ u, dumpsObj ((k, w) :: tl) = '"' :: u := by
            rcases tl with _ | ⟨m2, ms2⟩
            · exact ⟨((k.data.map escapeJsonChar).flatten ++ ['"']) ++
                ':' :: dumpsChars w, rfl⟩
            · exact ⟨(((k.data.map escapeJsonChar).flatten ++ ['"']) ++
                ':' :: dumpsChars w) ++ ',' :: dumpsObj (m2 :: ms2), rfl⟩
          obtain ⟨u, hu⟩ := hcons
          rw [show dumpsChars (JVal.obj ((k, w) :: tl)) =
            '\x7b' :: (dumpsObj ((k, w) :: tl) ++ ['\x7d']) from rfl]
          rw [List.cons_append, List.append_assoc, List.singleton_append]
          rw [hu, List.cons_append]
          rw [show parseVal (fuel + 1) ('\x7b' :: '"' :: (u ++ '\x7d' :: rest)) =
            (parseMembers fuel ('"' :: (u ++ '\x7d' :: rest))).map
              (fun p => (JVal.obj p.1, p.2)) from rfl]
          rw [show ('"' :: (u ++ '\x7d' :: rest) : List Char) =
            dumpsObj ((k, w) :: tl) ++ '\x7d' :: rest from by rw [hu, List.cons_append]]
          rw [ih.2.2 ((k, w) :: tl) rest hsze (by simp)]
          rfl
    · intro xs rest hsz hne
      rcases xs with _ | ⟨x, tl⟩
      · exact absurd rfl hne
      · rcases tl with _ | ⟨y, ys⟩
        · have hszx : sizeJ x ≤ fuel := by
            have h := hsz
            rw [show sizeList [x] = max (sizeJ x) (sizeList []) + 1 from rfl] at h
            omega
          have h1 : parseVal fuel (dumpsChars x ++ ']' :: rest) = some (x, ']' :: rest) :=
            ih.1 x (']' :: rest) hszx (goodTail_cons (by decide) _)
          rw [parseElems_succ]
          rw [show (dumpsArr [x] ++ ']' :: rest : List Char) =
            dumpsChars x ++ ']' :: rest from rfl]
          rw [h1, option_bind_some]
          rfl
        · have hszx : sizeJ x ≤ fuel := by
            have h := hsz
            rw [show sizeList (x :: y :: ys) =
              max (sizeJ x) (sizeList (y :: ys)) + 1 from rfl] at h
            omega
          have hszy : sizeList (y :: ys) ≤ fuel := by
            have h := hsz
            rw [show sizeList (x :: y :: ys) =
              max (sizeJ x) (sizeList (y :: ys)) + 1 from rfl] at h
            omega
          have h1 : parseVal fuel
              (dumpsChars x ++ ',' :: (dumpsArr (y :: ys) ++ ']' :: rest)) =
              some (x, ',' :: (dumpsArr (y :: ys) ++ ']' :: rest)) :=
            ih.1 x _ hszx (goodTail_cons (by decide) _)
          have h2 : parseElems fuel (dumpsArr (y :: ys) ++ ']' :: rest) =
              some (y :: ys, rest) :=
            ih.2.1 (y :: ys) rest hszy (by simp)
          rw [parseElems_succ]
          rw [show (dumpsArr (x :: y :: ys) ++ ']' :: rest : List Char) =
            dumpsChars x ++ ',' :: (dumpsArr (y :: ys) ++ ']' :: rest) from by
              rw [show dumpsArr (x :: y :: ys) =
                dumpsChars x ++ ',' :: dumpsArr (y :: ys) from rfl, List.append_assoc,
                List.cons_append]]
          rw [h1, option_bind_some]
          simp [h2]
    · intro ms rest hsz hne
      rcases ms with _ | ⟨⟨k, w⟩, tl⟩
      · exact absurd rfl hne
      · have hszw : sizeJ w ≤ fuel := by
          have h := hsz
          rw [show sizeEntries ((k, w) :: tl) =
            max (sizeJ w) (sizeEntries tl) + 1 from rfl] at h
          omega
        rcases tl with _ | ⟨⟨k2, w2⟩, ms2⟩
        · have h1 : parseVal fuel (dumpsChars w ++ '\x7d' :: rest) =
              some (w, '\x7d' :: rest) :=
            ih.1 w ('\x7d' :: rest) hszw (goodTail_cons (by decide) _)
          rw [show (dumpsObj [(k, w)] ++ '\x7d' :: rest : List Char) =
            '"' :: ((k.data.map escapeJsonChar).flatten ++
              ('"' :: (':' :: (dumpsChars w ++ '\x7d' :: rest)))) from by
              rw [show (dumpsObj [(k, w)] : List Char) =
                escapeJsonString k ++ ':' :: dumpsChars w from rfl]
              simp [escapeJsonString]]
          rw [parseMembers_quote]
          rw [parseStringChars_escape, option_bind_some]
          simp [h1, string_mk_data]
        · have hszt : sizeEntries ((k2, w2) :: ms2) ≤ fuel := by
            have h := hsz
            rw [show sizeEntries ((k, w) :: (k2, w2) :: ms2) =
              max (sizeJ w) (sizeEntries ((k2, w2) :: ms2)) + 1 from rfl] at h
            omega
          have h1 : parseVal fuel
              (dumpsChars w ++ ',' :: (dumpsObj ((k2, w2) :: ms2) ++ '\x7d' :: rest)) =
              some (w, ',' :: (dumpsObj ((k2, w2) :: ms2) ++ '\x7d' :: rest)) :=
            ih.1 w _ hszw (goodTail_cons (by decide) _)
          have h2 : parseMembers fuel (dumpsObj ((k2, w2) :: ms2) ++ '\x7d' :: rest) =
              some ((k2, w2) :: ms2, rest) :=
            ih.2.2 ((k2, w2) :: ms2) rest hszt (by simp)
          rw [show (dumpsObj ((k, w) :: (k2, w2) :: ms2) ++ '\x7d' :: rest : List Char) =
            '"' :: ((k.data.map escapeJsonChar).flatten ++
              ('"' :: (':' :: (dumpsChars w ++
                ',' :: (dumpsObj ((k2, w2) :: ms2) ++ '\x7d' :: rest))))) from by
              rw [show (dumpsObj ((k, w) :: (k2, w2) :: ms2) : List Char) =
                escapeJsonString k ++ ':' :: dumpsChars w ++
                  ',' :: dumpsObj ((k2, w2) :: ms2) from rfl]
              simp [escapeJsonString]]
          rw [parseMembers_quote]
          rw [parseStringChars_escape, option_bind_some]
          simp [h1, h2, string_mk_data]

theorem sizeJ_pos (v : JVal) : 1 ≤ sizeJ v := by
  cases v with
  | null => exact Nat.le.refl
  | bool b => exact Nat.le.refl
  | num n => exact Nat.le.refl
  | str s => exact Nat.le.refl
  | arr xs => show 1 ≤ sizeList xs + 1; omega
  | obj l => show 1 ≤ sizeEntries l + 1; omega

theorem size_le_len (N : Nat) :
    (∀ v, sizeJ v ≤ N → sizeJ v ≤ (dumpsChars v).length) ∧
    (∀ xs, sizeList xs ≤ N → sizeList xs ≤ (dumpsArr xs).length + 1) ∧
    (∀ ms, sizeEntries ms ≤ N → sizeEntries ms ≤ (dumpsObj ms).length + 1) := by
  induction N with
  | zero =>
    refine ⟨?_, ?_, ?_⟩
    · intro v hsz; exact absurd (Nat.le_trans (sizeJ_pos v) hsz) (by omega)
    · intro xs hsz
      exact absurd (Nat.le_trans (by cases xs <;> simp [sizeList] : 1 ≤ sizeList xs) hsz)
        (by omega)
    · intro ms hsz
      exact absurd (Nat.le_trans
        (by rcases ms with _ | ⟨⟨k, w⟩, tl⟩ <;> simp [sizeEntries] : 1 ≤ sizeEntries ms) hsz)
        (by omega)
  | succ N ih =>
    refine ⟨?_, ?_, ?_⟩
    · intro v hsz
      cases v with
      | null => simp [dumpsChars, sizeJ]
      | bool b => cases b <;> simp [dumpsChars, sizeJ]
      | num n =>
        rcases n with m | m
        · obtain ⟨d, t, hd, ht⟩ := natChars_head m
          rw [show dumpsChars (JVal.num (Int.ofNat m)) = natChars m from rfl, ht]
          show 1 ≤ (Nat.digitChar d :: t).length
          simp
        · rw [show dumpsChars (JVal.num (Int.negSucc m)) =
            '-' :: natChars (m + 1) from rfl]
          show 1 ≤ ('-' :: natChars (m + 1)).length
          simp
      | str s =>
        rw [show dumpsChars (JVal.str s) =
          '"' :: ((s.data.map escapeJsonChar).flatten ++ ['"']) from rfl]
        show 1 ≤ ('"' :: ((s.data.map escapeJsonChar).flatten ++ ['"'])).length
        simp
      | arr xs =>
        have hxs : sizeList xs ≤ N := by
          have h := hsz
          rw [show sizeJ (JVal.arr xs) = sizeList xs + 1 from rfl] at h
          omega
        have h2 := ih.2.1 xs hxs
        rw [show dumpsChars (JVal.arr xs) = '[' :: (dumpsArr xs ++ [']']) from rfl,
          show sizeJ (JVal.arr xs) = sizeList xs + 1 from rfl]
        simp only [List.length_cons, List.length_append, List.length_singleton]
        omega
      | obj l =>
        have hl : sizeEntries l ≤ N := by
          have h := hsz
          rw [show sizeJ (JVal.obj l) = sizeEntries l + 1 from rfl] at h
          omega
        have h2 := ih.2.2 l hl
        rw [show dumpsChars (JVal.obj l) = '\x7b' :: (dumpsObj l ++ ['\x7d']) from rfl,
          show sizeJ (JVal.obj l) = sizeEntries l + 1 from rfl]
        simp only [List.length_cons, List.length_append, List.length_singleton]
        omega
    · intro xs hsz
      rcases xs with _ | ⟨x, tl⟩
      · simp [sizeList, dumpsArr]
      · rcases tl with _ | ⟨y, ys⟩
        · have hx : sizeJ x ≤ N := by
            have h := hsz
            rw [show sizeList [x] = max (sizeJ x) (sizeList []) + 1 from rfl] at h
            simp [sizeList] at h
            omega
          have h1 := ih.1 x hx
          have hp := sizeJ_pos x
          rw [show sizeList [x] = max (sizeJ x) (sizeList []) + 1 from rfl,
            show dumpsArr [x] = dumpsChars x from rfl,
            show sizeList ([] : List JVal) = 1 from rfl]
          omega
        · have hx : sizeJ x ≤ N := by
            have h := hsz
            rw [show sizeList (x :: y :: ys) =
              max (sizeJ x) (sizeList (y :: ys)) + 1 from rfl] at h
            omega
          have hy : sizeList (y :: ys) ≤ N := by
            have h := hsz
            rw [show sizeList (x :: y :: ys) =
              max (sizeJ x) (sizeList (y :: ys)) + 1 from rfl] at h
            omega
          have h1 := ih.1 x hx
          have h2 := ih.2.1 (y :: ys) hy
          rw [show sizeList (x :: y :: ys) =
            max (sizeJ x) (sizeList (y :: ys)) + 1 from rfl,
            show dumpsArr (x :: y :: ys) =
              dumpsChars x ++ ',' :: dumpsArr (y :: ys) from rfl]
          simp only [List.length_append, List.length_cons]
          omega
    · intro ms hsz
      rcases ms with _ | ⟨⟨k, w⟩, tl⟩
      · simp [sizeEntries, dumpsObj]
      · have hw : sizeJ w ≤ N := by
          have h := hsz
          rw [show sizeEntries ((k, w) :: tl) =
            max (sizeJ w) (sizeEntries tl) + 1 from rfl] at h
          omega
        have h1 := ih.1 w hw
        rcases tl with _ | ⟨⟨k2, w2⟩, ms2⟩
        · rw [show sizeEntries [(k, w)] = max (sizeJ w) (sizeEntries []) + 1 from rfl,
            show dumpsObj [(k, w)] = escapeJsonString k ++ ':' :: dumpsChars w from rfl,
            show sizeEntries ([] : List (String × JVal)) = 1 from rfl]
          have hp := sizeJ_pos w
          simp only [List.length_append, List.length_cons]
          omega
        · have ht : sizeEntries ((k2, w2) :: ms2) ≤ N := by
            have h := hsz
            rw [show sizeEntries ((k, w) :: (k2, w2) :: ms2) =
              max (sizeJ w) (sizeEntries ((k2, w2) :: ms2)) + 1 from rfl] at h
            omega
          have h2 := ih.2.2 ((k2, w2) :: ms2) ht
          rw [show sizeEntries ((k, w) :: (k2, w2) :: ms2) =
            max (sizeJ w) (sizeEntries ((k2, w2) :: ms2)) + 1 from rfl,
            show dumpsObj ((k, w) :: (k2, w2) :: ms2) =
              escapeJsonString k ++ ':' :: dumpsChars w ++
                ',' :: dumpsObj ((k2, w2) :: ms2) from rfl]
          simp only [List.length_append, List.length_cons]
          omega

theorem jsonLoads_dumps (v : JVal) : jsonLoads (utf8Bytes (jsonDumps v)) = .ok v := by
  have hdec : utf8Decode? (utf8Bytes (jsonDumps v)) = some (dumpsChars v) :=
    utf8Decode_flatten (dumpsChars v)
  have hsz : sizeJ v ≤ (dumpsChars v).length := (size_le_len (sizeJ v)).1 v (Nat.le_refl _)
  have hp := (parse_dumps ((dumpsChars v).length + 1)).1 v [] (by omega) goodTail_nil
  rw [List.append_nil] at hp
  unfold jsonLoads
  rw [hdec]
  show (match parseVal ((dumpsChars v).length + 1) (dumpsChars v) with
    | some (w, []) => Except.ok w
    | _ => Except.error (PyErr.valueError VReason.jsonError)) = Except.ok v
  rw [hp]

theorem pySplit_three (sep : Char) (a b c : String)
    (ha : sep ∉ a.data) (hb : sep ∉ b.data) (hc : sep ∉ c.data) :
    pySplit sep (a ++ String.mk [sep] ++ b ++ String.mk [sep] ++ c) = [a, b, c] := by
  unfold pySplit
  have hdata : (a ++ String.mk [sep] ++ b ++ String.mk [sep] ++ c).data =
      a.data ++ sep :: (b.data ++ sep :: c.data) := by
    rw [string_data_append, string_data_append, string_data_append, string_data_append]
    simp
  rw [hdata, splitChars_append_sep ha, splitChars_append_sep hb, splitChars_sep_not_mem hc]
  simp [string_mk_data]

theorem verify_jwt_str_jwkerr {tok : String} {pj : JVal} {eh ep es : String}
    {si sigB : Bytes} {e : PyErr}
    (hp : pySplit '.' tok = [eh, ep, es])
    (hA : str_encode_ascii (eh ++ "." ++ ep) = .ok si)
    (hdec : b64url_decode es = .ok sigB)
    (hjwk : jwk_to_public_key pj = .error e) :
    verify_jwt_str tok pj = .error e := by
  unfold verify_jwt_str
  rw [hp]
  dsimp only
  rw [hA]
  dsimp only
  simp only [hdec, hjwk]

theorem verify_jwt_str_goodsig {tok : String} {pj : JVal} {eh ep es : String}
    {sigB : Bytes} {pk : PubPoint}
    (hp : pySplit '.' tok = [eh, ep, es])
    (hA : str_encode_ascii (eh ++ "." ++ ep) = .ok (utf8Bytes (eh ++ "." ++ ep)))
    (hdec : b64url_decode es = .ok sigB)
    (hjwk : jwk_to_public_key pj = .ok pk)
    (hraw : verify_raw sigB (utf8Bytes (eh ++ "." ++ ep)) pk = true) :
    verify_jwt_str tok pj =
      (match b64url_decode ep with
        | .error r => .error (.valueError (.b64 r))
        | .ok pb => jsonLoads pb) := by
  unfold verify_jwt_str
  rw [hp]
  dsimp only
  rw [hA]
  dsimp only
  simp only [hdec, hjwk, hraw]
  simp

theorem verify_jwt_str_serialize (j : Jwt) (jwk : JVal) :
    verify_jwt_str (serializeJwt j) jwk = verify_jwt j jwk := by
  have hsplit : pySplit '.' (serializeJwt j) =
      [b64urlEncode (utf8Bytes (jsonDumps j.header)),
        b64urlEncode (utf8Bytes (jsonDumps j.payload)), b64urlEncode j.sig] :=
    pySplit_three '.' _ _ _ (b64urlEncode_no_dot _) (b64urlEncode_no_dot _)
      (b64urlEncode_no_dot _)
  have hA : str_encode_ascii (b64urlEncode (utf8Bytes (jsonDumps j.header)) ++ "." ++
      b64urlEncode (utf8Bytes (jsonDumps j.payload))) =
      .ok (utf8Bytes (b64urlEncode (utf8Bytes (jsonDumps j.header)) ++ "." ++
        b64urlEncode (utf8Bytes (jsonDumps j.payload)))) :=
    str_encode_ascii_ok (ascii_append (ascii_append (b64urlEncode_ascii _) dot_ascii)
      (b64urlEncode_ascii _))
  cases hj : jwk_to_public_key jwk with
  | error e =>
    rw [verify_jwt_str_jwkerr hsplit hA (b64url_decode_encode j.sig) hj]
    unfold verify_jwt
    rw [hj]
  | ok pk =>
    by_cases hv : verify_raw j.sig (utf8Bytes (signingInputStr j.header j.payload)) pk = true
    · rw [verify_jwt_str_goodsig hsplit hA (b64url_decode_encode j.sig) hj hv]
      rw [b64url_decode_encode]
      unfold verify_jwt
      rw [hj]
      dsimp only
      rw [if_pos hv]
      exact jsonLoads_dumps j.payload
    · rw [verify_jwt_str_badsig hsplit hA (b64url_decode_encode j.sig) hj
        (Bool.eq_false_iff.mpr hv)]
      unfold verify_jwt
      rw [hj]
      dsimp only
      rw [if_neg hv]

theorem verify_sd_jwt_kb_str_serialize (c : SdJwtKb) (jwk : JVal) (aud : Option String)
    (now : Int) :
    verify_sd_jwt_kb_str (serializeSdJwtKb c) jwk aud now = verify_sd_jwt_kb c jwk aud now := by
  unfold verify_sd_jwt_kb_str verify_sd_jwt_kb
  rw [pySplit_serializeSdJwtKb]
  dsimp only
  simp only [verify_jwt_str_serialize]

/-! ## Evaluating the SD-JWT verifier on freshly created credentials -/

theorem issuerPayload_exp (claims : List (String × JVal)) (hjwk : JVal) (now ttl : Int) :
    jlookup "exp" (issuerPayloadOf claims hjwk now ttl) = some (.num (now + ttl)) := by
  unfold issuerPayloadOf
  rw [jlookup_assocSet_other (by decide), jlookup_assocSet_self]

theorem issuerPayload_cnf (claims : List (String × JVal)) (hjwk : JVal) (now ttl : Int) :
    jlookup "cnf" (issuerPayloadOf claims hjwk now ttl) =
      some (.obj [("jwk", cnfSubset hjwk)]) := by
  unfold issuerPayloadOf
  rw [jlookup_assocSet_self]

theorem issuerPayload_other {key : String} (h1 : key ≠ "iat") (h2 : key ≠ "exp")
    (h3 : key ≠ "cnf") (claims : List (String × JVal)) (hjwk : JVal) (now ttl : Int) :
    jlookup key (issuerPayloadOf claims hjwk now ttl) = jlookup key claims := by
  unfold issuerPayloadOf
  rw [jlookup_assocSet_other h3, jlookup_assocSet_other h2, jlookup_assocSet_other h1]

theorem cnfSubset_obj (j : JVal) : ∃ l, cnfSubset j = .obj l := by
  cases j <;> exact ⟨_, rfl⟩

theorem verify_raw_unique {sig data : Bytes} {pk pk' : PubPoint}
    (h : verify_raw sig data pk = true) (hne : pk' ≠ pk) :
    verify_raw sig data pk' = false := by
  apply Bool.eq_false_iff.mpr
  intro hv
  have h1 := verify_raw_eq_true_iff.mp h
  have h2 := verify_raw_eq_true_iff.mp hv
  obtain ⟨hx, hy, -⟩ := sigBytes_inj (h2.symm.trans h1)
  exact hne (Prod.ext hx hy)

theorem except_bind_inv {α β : Type} {x : Except PyErr α} {f : α → Except PyErr β} {b : β}
    (h : (do let a ← x; f a) = .ok b) : ∃ a, x = .ok a ∧ f a = .ok b := by
  cases x with
  | error e => exact absurd h (by simp [except_bind_err])
  | ok a => exact ⟨a, rfl, h⟩

theorem create_sd_eq (claims : List (String × JVal)) (kI : ECKey) (kidI : String)
    (holderJwk : JVal) (aud typ : String) (ttl now : Int) (nonce : Bytes) :
    create_sd_jwt_kb claims kI kidI holderJwk aud typ ttl now nonce =
      create_sd_jwt_kb_with_holder_key claims kI kidI kI holderJwk aud typ ttl [] now nonce :=
  rfl

theorem verify_sd_jwt_kb_create (claims : List (String × JVal)) (kI kH : ECKey)
    (kidI : String) (holderJwk : JVal) (aud typ : String) (ttl now now' : Int)
    (nonce : Bytes) (issuerJwk : JVal)
    (hjwkI : jwk_to_public_key issuerJwk = .ok (kI.x, kI.y))
    (hjwkH : jwk_to_public_key (cnfSubset holderJwk) = .ok (kH.x, kH.y))
    (hexp : ¬(now + ttl < now')) :
    verify_sd_jwt_kb
      (create_sd_jwt_kb_with_holder_key claims kI kidI kH holderJwk aud typ ttl [] now nonce)
      issuerJwk (some aud) now' =
      .ok (.obj (issuerPayloadOf claims holderJwk now ttl)) := by
  obtain ⟨lc, hlc⟩ := cnfSubset_obj holderJwk
  have h1 : verify_jwt
      (create_sd_jwt_kb_with_holder_key claims kI kidI kH holderJwk aud typ ttl
        [] now nonce).issuer issuerJwk =
      .ok (.obj (issuerPayloadOf claims holderJwk now ttl)) :=
    verify_jwt_create _ _ hjwkI
  have h2 : verify_jwt
      (create_sd_jwt_kb_with_holder_key claims kI kidI kH holderJwk aud typ ttl
        [] now nonce).kb (cnfSubset holderJwk) =
      .ok (.obj (kbPayloadOf aud now nonce (sdHashOf (serializeJwt
        (create_sd_jwt_kb_with_holder_key claims kI kidI kH holderJwk aud typ ttl
          [] now nonce).issuer)))) :=
    verify_jwt_create _ _ hjwkH
  unfold verify_sd_jwt_kb
  rw [h1, except_bind_ok]
  dsimp only
  rw [show expCheck (issuerPayloadOf claims holderJwk now ttl) now' = .ok () from by
    unfold expCheck
    rw [issuerPayload_exp]
    dsimp only [pyNum?]
    rw [if_neg hexp]]
  rw [except_bind_ok]
  rw [show cnfJwkOf (issuerPayloadOf claims holderJwk now ttl) =
      .ok (some (cnfSubset holderJwk)) from by
    unfold cnfJwkOf
    rw [issuerPayload_cnf]
    rfl]
  rw [except_bind_ok, hlc]
  dsimp only
  rw [← hlc, h2, except_bind_ok]
  dsimp only
  rw [show audCheck (kbPayloadOf aud now nonce (sdHashOf (serializeJwt
      (create_sd_jwt_kb_with_holder_key claims kI kidI kH holderJwk aud typ ttl
        [] now nonce).issuer))) (some aud) = .ok () from by
    unfold audCheck
    dsimp only
    rw [show jlookup "aud" (kbPayloadOf aud now nonce (sdHashOf (serializeJwt
        (create_sd_jwt_kb_with_holder_key claims kI kidI kH holderJwk aud typ ttl
          [] now nonce).issuer))) = some (.str aud) from rfl]
    simp [jvalIsStr]]
  rw [except_bind_ok]
  rw [if_pos (by
    rw [show jlookup "sd_hash" (kbPayloadOf aud now nonce (sdHashOf (serializeJwt
        (create_sd_jwt_kb_with_holder_key claims kI kidI kH holderJwk aud typ ttl
          [] now nonce).issuer))) = some (.str (sdHashOf (serializeJwt
        (create_sd_jwt_kb_with_holder_key claims kI kidI kH holderJwk aud typ ttl
          [] now nonce).issuer))) from rfl]
    simp [jvalIsStr])]
  rfl

theorem verify_sd_issuer_err {cred : SdJwtKb} {jwk : JVal} {aud : Option String}
    {now : Int} {e : PyErr} (hv : verify_jwt cred.issuer jwk = .error e) :
    verify_sd_jwt_kb cred jwk aud now = .error e := by
  unfold verify_sd_jwt_kb
  rw [hv, except_bind_err]

theorem verify_sd_expired {cred : SdJwtKb} {jwk : JVal} {cl : List (String × JVal)}
    {e now : Int} {aud : Option String}
    (hv : verify_jwt cred.issuer jwk = .ok (.obj cl))
    (he : jlookup "exp" cl = some (.num e)) (hlt : e < now) :
    verify_sd_jwt_kb cred jwk aud now = .error (.valueError .sdJwtExpired) := by
  unfold verify_sd_jwt_kb
  rw [hv, except_bind_ok]
  dsimp only
  rw [show expCheck cl now = .error (.valueError .sdJwtExpired) from by
    unfold expCheck
    rw [he]
    dsimp only [pyNum?]
    rw [if_pos hlt]]
  rw [except_bind_err]

theorem expCheck_no_exp {cl : List (String × JVal)} (h : jlookup "exp" cl = none)
    (now : Int) : expCheck cl now = .ok () := by
  unfold expCheck
  rw [h]

theorem verify_sd_missing_cnf {cred : SdJwtKb} {jwk : JVal} {cl : List (String × JVal)}
    {now : Int} {aud : Option String}
    (hv : verify_jwt cred.issuer jwk = .ok (.obj cl))
    (hexp : expCheck cl now = .ok ())
    (hcnf : cnfJwkOf cl = .ok none) :
    verify_sd_jwt_kb cred jwk aud now = .error (.valueError .missingBindingKey) := by
  unfold verify_sd_jwt_kb
  rw [hv, except_bind_ok]
  dsimp only
  rw [hexp, except_bind_ok, hcnf, except_bind_ok]
  rfl

theorem verify_sd_jwt_kb_create_badaud (claims : List (String × JVal)) (kI kH : ECKey)
    (kidI : String) (holderJwk : JVal) (aud aud' typ : String) (ttl now now' : Int)
    (nonce : Bytes) (issuerJwk : JVal)
    (hjwkI : jwk_to_public_key issuerJwk = .ok (kI.x, kI.y))
    (hjwkH : jwk_to_public_key (cnfSubset holderJwk) = .ok (kH.x, kH.y))
    (hexp : ¬(now + ttl < now')) (hne : aud ≠ aud') :
    verify_sd_jwt_kb
      (create_sd_jwt_kb_with_holder_key claims kI kidI kH holderJwk aud typ ttl [] now nonce)
      issuerJwk (some aud') now' =
      .error (.valueError (.audienceMismatch aud' (some (.str aud)))) := by
  obtain ⟨lc, hlc⟩ := cnfSubset_obj holderJwk
  have h1 : verify_jwt
      (create_sd_jwt_kb_with_holder_key claims kI kidI kH holderJwk aud typ ttl
        [] now nonce).issuer issuerJwk =
      .ok (.obj (issuerPayloadOf claims holderJwk now ttl)) :=
    verify_jwt_create _ _ hjwkI
  have h2 : verify_jwt
      (create_sd_jwt_kb_with_holder_key claims kI kidI kH holderJwk aud typ ttl
        [] now nonce).kb (cnfSubset holderJwk) =
      .ok (.obj (kbPayloadOf aud now nonce (sdHashOf (serializeJwt
        (create_sd_jwt_kb_with_holder_key claims kI kidI kH holderJwk aud typ ttl
          [] now nonce).issuer)))) :=
    verify_jwt_create _ _ hjwkH
  unfold verify_sd_jwt_kb
  rw [h1, except_bind_ok]
  dsimp only
  rw [show expCheck (issuerPayloadOf claims holderJwk now ttl) now' = .ok () from by
    unfold expCheck
    rw [issuerPayload_exp]
    dsimp only [pyNum?]
    rw [if_neg hexp]]
  rw [except_bind_ok]
  rw [show cnfJwkOf (issuerPayloadOf claims holderJwk now ttl) =
      .ok (some (cnfSubset holderJwk)) from by
    unfold cnfJwkOf
    rw [issuerPayload_cnf]
    rfl]
  rw [except_bind_ok, hlc]
  dsimp only
  rw [← hlc, h2, except_bind_ok]
  dsimp only
  rw [show audCheck (kbPayloadOf aud now nonce (sdHashOf (serializeJwt
      (create_sd_jwt_kb_with_holder_key claims kI kidI kH holderJwk aud typ ttl
        [] now nonce).issuer))) (some aud') =
      .error (.valueError (.audienceMismatch aud' (some (.str aud)))) from by
    unfold audCheck
    dsimp only
    rw [show jlookup "aud" (kbPayloadOf aud now nonce (sdHashOf (serializeJwt
        (create_sd_jwt_kb_with_holder_key claims kI kidI kH holderJwk aud typ ttl
          [] now nonce).issuer))) = some (.str aud) from rfl]
    rw [if_neg (by simp [jvalIsStr]; exact hne)]]
  rw [except_bind_err]

theorem verify_sd_jwt_kb_badhash (claims : List (String × JVal)) (kI kH kB : ECKey)
    (kidI : String) (holderJwk : JVal) (aud aud2 typ : String)
    (ttl now now2 now' : Int) (nonce nonce2 : Bytes) (issuerJwk : JVal) (sdh : String)
    (hjwkI : jwk_to_public_key issuerJwk = .ok (kI.x, kI.y))
    (hjwkH : jwk_to_public_key (cnfSubset holderJwk) = .ok (kB.x, kB.y))
    (hexp : ¬(now + ttl < now'))
    (hsd : sdh ≠ sdHashOf (serializeJwt
      (create_sd_jwt_kb_with_holder_key claims kI kidI kH holderJwk aud typ ttl
        [] now nonce).issuer)) :
    verify_sd_jwt_kb
      ⟨(create_sd_jwt_kb_with_holder_key claims kI kidI kH holderJwk aud typ ttl
          [] now nonce).issuer,
        create_jwt (.obj [("alg", .str "ES256"), ("typ", .str "kb+jwt")])
          (.obj (kbPayloadOf aud2 now2 nonce2 sdh)) kB⟩
      issuerJwk (some aud2) now' =
      .error (.valueError .sdHashMismatch) := by
  obtain ⟨lc, hlc⟩ := cnfSubset_obj holderJwk
  have h1 : verify_jwt
      (⟨(create_sd_jwt_kb_with_holder_key claims kI kidI kH holderJwk aud typ ttl
          [] now nonce).issuer,
        create_jwt (.obj [("alg", .str "ES256"), ("typ", .str "kb+jwt")])
          (.obj (kbPayloadOf aud2 now2 nonce2 sdh)) kB⟩ : SdJwtKb).issuer issuerJwk =
      .ok (.obj (issuerPayloadOf claims holderJwk now ttl)) :=
    verify_jwt_create _ _ hjwkI
  have h2 : verify_jwt
      (⟨(create_sd_jwt_kb_with_holder_key claims kI kidI kH holderJwk aud typ ttl
          [] now nonce).issuer,
        create_jwt (.obj [("alg", .str "ES256"), ("typ", .str "kb+jwt")])
          (.obj (kbPayloadOf aud2 now2 nonce2 sdh)) kB⟩ : SdJwtKb).kb
        (cnfSubset holderJwk) =
      .ok (.obj (kbPayloadOf aud2 now2 nonce2 sdh)) :=
    verify_jwt_create _ _ hjwkH
  unfold verify_sd_jwt_kb
  rw [h1, except_bind_ok]
  dsimp only
  rw [show expCheck (issuerPayloadOf claims holderJwk now ttl) now' = .ok () from by
    unfold expCheck
    rw [issuerPayload_exp]
    dsimp only [pyNum?]
    rw [if_neg hexp]]
  rw [except_bind_ok]
  rw [show cnfJwkOf (issuerPayloadOf claims holderJwk now ttl) =
      .ok (some (cnfSubset holderJwk)) from by
    unfold cnfJwkOf
    rw [issuerPayload_cnf]
    rfl]
  rw [except_bind_ok, hlc]
  dsimp only
  rw [← hlc, h2, except_bind_ok]
  dsimp only
  rw [show audCheck (kbPayloadOf aud2 now2 nonce2 sdh) (some aud2) = .ok () from by
    unfold audCheck
    dsimp only
    rw [show jlookup "aud" (kbPayloadOf aud2 now2 nonce2 sdh) = some (.str aud2) from rfl]
    simp [jvalIsStr]]
  rw [except_bind_ok]
  rw [if_neg (by
    rw [show jlookup "sd_hash" (kbPayloadOf aud2 now2 nonce2 sdh) =
      some (.str sdh) from rfl]
    simp [jvalIsStr]
    exact hsd)]
  rfl

theorem verify_sd_kb_err {cred : SdJwtKb} {jwk : JVal} {cl lc : List (String × JVal)}
    {now : Int} {aud : Option String} {e : PyErr}
    (hv : verify_jwt cred.issuer jwk = .ok (.obj cl))
    (hex : expCheck cl now = .ok ())
    (hcnf : cnfJwkOf cl = .ok (some (.obj lc)))
    (hkb : verify_jwt cred.kb (.obj lc) = .error e) :
    verify_sd_jwt_kb cred jwk aud now = .error e := by
  unfold verify_sd_jwt_kb
  rw [hv, except_bind_ok]
  dsimp only
  rw [hex, except_bind_ok, hcnf, except_bind_ok]
  dsimp only
  rw [hkb, except_bind_err]

theorem verify_sd_jwt_kb_create_noaud (claims : List (String × JVal)) (kI kH : ECKey)
    (kidI : String) (holderJwk : JVal) (aud typ : String) (ttl now now' : Int)
    (nonce : Bytes) (issuerJwk : JVal)
    (hjwkI : jwk_to_public_key issuerJwk = .ok (kI.x, kI.y))
    (hjwkH : jwk_to_public_key (cnfSubset holderJwk) = .ok (kH.x, kH.y))
    (hexp : ¬(now + ttl < now')) :
    verify_sd_jwt_kb
      (create_sd_jwt_kb_with_holder_key claims kI kidI kH holderJwk aud typ ttl [] now nonce)
      issuerJwk none now' =
      .ok (.obj (issuerPayloadOf claims holderJwk now ttl)) := by
  obtain ⟨lc, hlc⟩ := cnfSubset_obj holderJwk
  have h1 : verify_jwt
      (create_sd_jwt_kb_with_holder_key claims kI kidI kH holderJwk aud typ ttl
        [] now nonce).issuer issuerJwk =
      .ok (.obj (issuerPayloadOf claims holderJwk now ttl)) :=
    verify_jwt_create _ _ hjwkI
  have h2 : verify_jwt
      (create_sd_jwt_kb_with_holder_key claims kI kidI kH holderJwk aud typ ttl
        [] now nonce).kb (cnfSubset holderJwk) =
      .ok (.obj (kbPayloadOf aud now nonce (sdHashOf (serializeJwt
        (create_sd_jwt_kb_with_holder_key claims kI kidI kH holderJwk aud typ ttl
          [] now nonce).issuer)))) :=
    verify_jwt_create _ _ hjwkH
  unfold verify_sd_jwt_kb
  rw [h1, except_bind_ok]
  dsimp only
  rw [show expCheck (issuerPayloadOf claims holderJwk now ttl) now' = .ok () from by
    unfold expCheck
    rw [issuerPayload_exp]
    dsimp only [pyNum?]
    rw [if_neg hexp]]
  rw [except_bind_ok]
  rw [show cnfJwkOf (issuerPayloadOf claims holderJwk now ttl) =
      .ok (some (cnfSubset holderJwk)) from by
    unfold cnfJwkOf
    rw [issuerPayload_cnf]
    rfl]
  rw [except_bind_ok, hlc]
  dsimp only
  rw [← hlc, h2, except_bind_ok]
  dsimp only
  rw [show audCheck (kbPayloadOf aud now nonce (sdHashOf (serializeJwt
      (create_sd_jwt_kb_with_holder_key claims kI kidI kH holderJwk aud typ ttl
        [] now nonce).issuer))) none = .ok () from rfl]
  rw [except_bind_ok]
  rw [if_pos (by
    rw [show jlookup "sd_hash" (kbPayloadOf aud now nonce (sdHashOf (serializeJwt
        (create_sd_jwt_kb_with_holder_key claims kI kidI kH holderJwk aud typ ttl
          [] now nonce).issuer))) = some (.str (sdHashOf (serializeJwt
        (create_sd_jwt_kb_with_holder_key claims kI kidI kH holderJwk aud typ ttl
          [] now nonce).issuer))) from rfl]
    simp [jvalIsStr])]
  rfl

/-! ## Claim C9 -/

/-- C9 (amended): with the two-key creator `create_sd_jwt_kb_with_holder_key`
(key binding signed by the holder key), verifying a fresh credential under
the issuer public key and the same audience returns the issuer payload —
the original claims plus the `iat`/`exp`/`cnf` fields the creator merges in,
every other claim reading back unchanged; verifying with a different
audience yields the audience-mismatch failure; a key-binding token
re-signed over a different `sd_hash` yields the binding-hash-mismatch
failure. The correction: the single-key `create_sd_jwt_kb` signs the key
binding with the ISSUER key while naming the holder key in `cnf.jwk`, so
whenever the holder point differs from the issuer point its fresh
credential is rejected (invalid key-binding signature) instead of round
tripping. -/
theorem C9_bound_credential_roundtrip (claims : List (String × JVal)) (kI kH : ECKey)
    (kidI kidH kidI' aud aud' typ : String) (ttl now now' : Int) (nonce : Bytes)
    (hxI : kI.x < 256 ^ 32) (hyI : kI.y < 256 ^ 32)
    (hxH : kH.x < 256 ^ 32) (hyH : kH.y < 256 ^ 32)
    (hexp : ¬(now + ttl < now')) :
    (verify_sd_jwt_kb
        (create_sd_jwt_kb_with_holder_key claims kI kidI kH (export_public_jwk kH kidH)
          aud typ ttl [] now nonce)
        (export_public_jwk kI kidI') (some aud) now' =
      .ok (.obj (issuerPayloadOf claims (export_public_jwk kH kidH) now ttl)))
    ∧ (∀ key, key ≠ "iat" → key ≠ "exp" → key ≠ "cnf" →
        jlookup key (issuerPayloadOf claims (export_public_jwk kH kidH) now ttl) =
          jlookup key claims)
    ∧ (aud ≠ aud' →
      verify_sd_jwt_kb
        (create_sd_jwt_kb_with_holder_key claims kI kidI kH (export_public_jwk kH kidH)
          aud typ ttl [] now nonce)
        (export_public_jwk kI kidI') (some aud') now' =
      .error (.valueError (.audienceMismatch aud' (some (.str aud)))))
    ∧ (∀ sdh, sdh ≠ sdHashOf (serializeJwt
        (create_sd_jwt_kb_with_holder_key claims kI kidI kH (export_public_jwk kH kidH)
          aud typ ttl [] now nonce).issuer) →
      verify_sd_jwt_kb
        ⟨(create_sd_jwt_kb_with_holder_key claims kI kidI kH (export_public_jwk kH kidH)
            aud typ ttl [] now nonce).issuer,
          create_jwt (.obj [("alg", .str "ES256"), ("typ", .str "kb+jwt")])
            (.obj (kbPayloadOf aud now nonce sdh)) kH⟩
        (export_public_jwk kI kidI') (some aud) now' =
      .error (.valueError .sdHashMismatch))
    ∧ ((kH.x, kH.y) ≠ (kI.x, kI.y) →
      verify_sd_jwt_kb
        (create_sd_jwt_kb claims kI kidI (export_public_jwk kH kidH) aud typ ttl now nonce)
        (export_public_jwk kI kidI') (some aud) now' =
      .error (.valueError .invalidJwtSignature)) := by
  have hjI := jwk_to_public_key_export kI kidI' hxI hyI
  have hjH := jwk_to_public_key_cnf kH kidH hxH hyH
  refine ⟨?_, ?_, ?_, ?_, ?_⟩
  · exact verify_sd_jwt_kb_create claims kI kH kidI _ aud typ ttl now now' nonce _ hjI hjH hexp
  · intro key h1 h2 h3
    exact issuerPayload_other h1 h2 h3 claims _ now ttl
  · intro hne
    exact verify_sd_jwt_kb_create_badaud claims kI kH kidI _ aud aud' typ ttl now now' nonce
      _ hjI hjH hexp hne
  · intro sdh hsd
    exact verify_sd_jwt_kb_badhash claims kI kH kH kidI _ aud aud typ ttl now now now'
      nonce nonce _ sdh hjI hjH hexp hsd
  · intro hne
    rw [create_sd_eq]
    exact @verify_sd_kb_err _ _ _
      [("kty", JVal.str "EC"), ("crv", JVal.str "P-256"),
        ("x", JVal.str (b64urlEncode (natToBytesBE 32 kH.x))),
        ("y", JVal.str (b64urlEncode (natToBytesBE 32 kH.y)))] _ _ _
      (verify_jwt_create _ _ hjI)
      (by
        unfold expCheck
        rw [issuerPayload_exp]
        dsimp only [pyNum?]
        rw [if_neg hexp])
      (by
        unfold cnfJwkOf
        rw [issuerPayload_cnf, cnfSubset_export]
        rfl)
      (by
        rw [← cnfSubset_export kH kidH]
        exact verify_jwt_create_wrongkey _ _ hjH hne)

/-- Closed witness for C9: the concrete two-key credential round trips, and
its audience-shifted verification fails with the audience mismatch. -/
theorem C9_bound_credential_roundtrip_witness :
    verify_sd_jwt_kb
      (create_sd_jwt_kb_with_holder_key [("scope", .str "pay")] ⟨1, 2⟩ "platform_key"
        ⟨3, 4⟩ (export_public_jwk ⟨3, 4⟩ "holder_key") "cs_1" "intent-mandate+sd-jwt"
        300 [] 1000 [byte 7])
      (export_public_jwk ⟨1, 2⟩ "platform_key") (some "cs_1") 1100 =
    .ok (.obj (issuerPayloadOf [("scope", .str "pay")]
      (export_public_jwk ⟨3, 4⟩ "holder_key") 1000 300)) :=
  (C9_bound_credential_roundtrip [("scope", .str "pay")] ⟨1, 2⟩ ⟨3, 4⟩ "platform_key"
    "holder_key" "platform_key" "cs_1" "other_aud" "intent-mandate+sd-jwt" 300 1000 1100
    [byte 7] (by norm_num) (by norm_num) (by norm_num) (by norm_num) (by norm_num)).1

theorem psp_expired_reject {pj : JVal} {rest : List JVal} {mandate : String} {amt : Int}
    {cl : List (String × JVal)} {e now : Int} {L : Ledger}
    (hv : verify_sd_jwt_kb_str mandate pj none now = .ok (.obj cl))
    (he : jlookup "exp" cl = some (.num e)) (hge : now ≥ e) :
    psp_verify_intent_mandate (pj :: rest) mandate amt now L =
      .ok ((false, "mandate_expired"), L) := by
  unfold psp_verify_intent_mandate
  dsimp only
  rw [hv]
  dsimp only
  rw [he]
  dsimp only [Option.getD, pyNum?]
  rw [if_pos hge]

theorem psp_default_exp_reject {pj : JVal} {rest : List JVal} {mandate : String} {amt : Int}
    {cl : List (String × JVal)} {now : Int} {L : Ledger}
    (hv : verify_sd_jwt_kb_str mandate pj none now = .ok (.obj cl))
    (he : jlookup "exp" cl = none) (hge : now ≥ 0) :
    psp_verify_intent_mandate (pj :: rest) mandate amt now L =
      .ok ((false, "mandate_expired"), L) := by
  unfold psp_verify_intent_mandate
  dsimp only
  rw [hv]
  dsimp only
  rw [he]
  dsimp only [Option.getD, pyNum?]
  rw [if_pos hge]

/-! ## Claim C4 -/

/-- C4 (amended): the crypto-layer expiry check is STRICT and runs after the
signature check — verification fails `sdJwtExpired` exactly when the issuer
signature verifies, the claims carry a numeric `exp`, and `exp < now`
(so `now = exp` still verifies); a missing `exp` skips the check entirely;
an invalid issuer signature surfaces as the signature error even for a
long-expired credential, so "expired independent of signature validity"
does not hold. The PSP intent-mandate verifier separately re-checks expiry
INCLUSIVELY (`now ≥ exp` rejects `mandate_expired`) with `exp` defaulting
to 0 when absent, so the two layers disagree exactly at `now = exp` and on
`exp`-less claims. -/
theorem C4_expiry_semantics :
    (∀ (cred : SdJwtKb) (jwk : JVal) (aud : Option String) (cl : List (String × JVal))
      (e now : Int),
      verify_jwt cred.issuer jwk = .ok (.obj cl) →
      jlookup "exp" cl = some (.num e) → e < now →
      verify_sd_jwt_kb cred jwk aud now = .error (.valueError .sdJwtExpired))
    ∧ (∀ (cl : List (String × JVal)) (now : Int),
        jlookup "exp" cl = none → expCheck cl now = .ok ())
    ∧ (∀ (cred : SdJwtKb) (jwk : JVal) (aud : Option String) (now : Int) (e : PyErr),
        verify_jwt cred.issuer jwk = .error e →
        verify_sd_jwt_kb cred jwk aud now = .error e)
    ∧ (∀ (pj : JVal) (rest : List JVal) (mandate : String) (amt : Int)
        (cl : List (String × JVal)) (e now : Int) (L : Ledger),
        verify_sd_jwt_kb_str mandate pj none now = .ok (.obj cl) →
        jlookup "exp" cl = some (.num e) → now ≥ e →
        psp_verify_intent_mandate (pj :: rest) mandate amt now L =
          .ok ((false, "mandate_expired"), L))
    ∧ (∀ (pj : JVal) (rest : List JVal) (mandate : String) (amt : Int)
        (cl : List (String × JVal)) (now : Int) (L : Ledger),
        verify_sd_jwt_kb_str mandate pj none now = .ok (.obj cl) →
        jlookup "exp" cl = none → now ≥ 0 →
        psp_verify_intent_mandate (pj :: rest) mandate amt now L =
          .ok ((false, "mandate_expired"), L)) := by
  refine ⟨?_, ?_, ?_, ?_, ?_⟩
  · intro cred jwk aud cl e now hv he hlt
    exact verify_sd_expired hv he hlt
  · intro cl now h
    exact expCheck_no_exp h now
  · intro cred jwk aud now e hv
    exact verify_sd_issuer_err hv
  · intro pj rest mandate amt cl e now L hv he hge
    exact psp_expired_reject hv he hge
  · intro pj rest mandate amt cl now L hv he hge
    exact psp_default_exp_reject hv he hge

/-- Closed witness for C4: a concrete credential whose `exp` is 1300 fails
with the expired reason at `now = 1301`. -/
theorem C4_expiry_semantics_witness :
    verify_sd_jwt_kb
      (create_sd_jwt_kb_with_holder_key [("scope", .str "pay")] ⟨1, 2⟩ "platform_key"
        ⟨3, 4⟩ (export_public_jwk ⟨3, 4⟩ "holder_key") "cs_1" "intent-mandate+sd-jwt"
        300 [] 1000 [byte 7])
      (export_public_jwk ⟨1, 2⟩ "platform_key") (some "cs_1") 1301 =
      .error (.valueError .sdJwtExpired) :=
  C4_expiry_semantics.1
    (create_sd_jwt_kb_with_holder_key [("scope", .str "pay")] ⟨1, 2⟩ "platform_key"
      ⟨3, 4⟩ (export_public_jwk ⟨3, 4⟩ "holder_key") "cs_1" "intent-mandate+sd-jwt"
      300 [] 1000 [byte 7])
    (export_public_jwk ⟨1, 2⟩ "platform_key") (some "cs_1")
    (issuerPayloadOf [("scope", .str "pay")] (export_public_jwk ⟨3, 4⟩ "holder_key")
      1000 300) 1300 1301
    (verify_jwt_create _ _ (jwk_to_public_key_export ⟨1, 2⟩ "platform_key"
      (by norm_num) (by norm_num)))
    (by rw [issuerPayload_exp]; norm_num)
    (by norm_num)

/-- Counterexample to C4 as stated: at `now = exp` exactly (exp = 1300,
verification time 1300) the credential still verifies successfully — the
code's check `exp < now` is strict, while the spec demands failure whenever
current time ≥ `exp`. -/
theorem C4_boundary_cx :
    verify_sd_jwt_kb
      (create_sd_jwt_kb_with_holder_key [("scope", .str "pay")] ⟨1, 2⟩ "platform_key"
        ⟨3, 4⟩ (export_public_jwk ⟨3, 4⟩ "holder_key") "cs_1" "intent-mandate+sd-jwt"
        300 [] 1000 [byte 7])
      (export_public_jwk ⟨1, 2⟩ "platform_key") (some "cs_1") 1300 =
      .ok (.obj (issuerPayloadOf [("scope", .str "pay")]
        (export_public_jwk ⟨3, 4⟩ "holder_key") 1000 300))
    ∧ jlookup "exp" (issuerPayloadOf [("scope", .str "pay")]
        (export_public_jwk ⟨3, 4⟩ "holder_key") 1000 300) = some (.num 1300) :=
  ⟨verify_sd_jwt_kb_create [("scope", .str "pay")] ⟨1, 2⟩ ⟨3, 4⟩ "platform_key"
      (export_public_jwk ⟨3, 4⟩ "holder_key") "cs_1" "intent-mandate+sd-jwt" 300 1000 1300
      [byte 7] (export_public_jwk ⟨1, 2⟩ "platform_key")
      (jwk_to_public_key_export ⟨1, 2⟩ "platform_key" (by norm_num) (by norm_num))
      (jwk_to_public_key_cnf ⟨3, 4⟩ "holder_key" (by norm_num) (by norm_num))
      (by norm_num),
    by rw [issuerPayload_exp]; norm_num⟩

theorem verify_jwt_ok_inv {j : Jwt} {jwk : JVal} {pv : JVal}
    (h : verify_jwt j jwk = .ok pv) :
    ∃ pk, jwk_to_public_key jwk = .ok pk ∧
      verify_raw j.sig (utf8Bytes (signingInputStr j.header j.payload)) pk = true ∧
      pv = j.payload := by
  unfold verify_jwt at h
  cases hpk : jwk_to_public_key jwk with
  | error e =>
    rw [hpk] at h
    exact absurd h (by simp)
  | ok pk =>
    rw [hpk] at h
    dsimp only at h
    by_cases hv : verify_raw j.sig (utf8Bytes (signingInputStr j.header j.payload)) pk = true
    · rw [if_pos hv] at h
      refine ⟨pk, rfl, hv, ?_⟩
      cases h
      rfl
    · rw [if_neg hv] at h
      exact absurd h (by simp)

/-! ## Claim C1 -/

/-- C1: `verify_sd_jwt_kb` succeeds only when the key-binding JWT's raw
signature verifies under exactly the public point decoded from the
`cnf.jwk` claim of the (signature-checked) issuer payload — and under no
other point, by injectivity of the idealized signature — and the
key-binding claims carry an `sd_hash` equal to the recomputed hash of the
issuer JWT as presented; a claims object whose `cnf` lookup produces no
binding key fails with the missing-binding-key reason, and a surviving
credential whose `sd_hash` disagrees with the recomputation fails with the
binding-hash-mismatch reason. -/
theorem C1_binding_key_soundness (cred : SdJwtKb) (jwk : JVal) (aud : Option String)
    (now : Int) :
    (∀ v, verify_sd_jwt_kb cred jwk aud now = .ok v →
      ∃ cl cnfJwk pk kbCl,
        verify_jwt cred.issuer jwk = .ok (.obj cl) ∧
        cnfJwkOf cl = .ok (some cnfJwk) ∧
        jwk_to_public_key cnfJwk = .ok pk ∧
        verify_raw cred.kb.sig
          (utf8Bytes (signingInputStr cred.kb.header cred.kb.payload)) pk = true ∧
        (∀ pk', pk' ≠ pk → verify_raw cred.kb.sig
          (utf8Bytes (signingInputStr cred.kb.header cred.kb.payload)) pk' = false) ∧
        cred.kb.payload = .obj kbCl ∧
        (jlookup "sd_hash" kbCl).any
          (fun w => jvalIsStr w (sdHashOf (serializeJwt cred.issuer))) = true ∧
        v = .obj cl)
    ∧ (∀ cl, verify_jwt cred.issuer jwk = .ok (.obj cl) → expCheck cl now = .ok () →
        cnfJwkOf cl = .ok none →
        verify_sd_jwt_kb cred jwk aud now = .error (.valueError .missingBindingKey))
    ∧ (∀ cl lc kbCl, verify_jwt cred.issuer jwk = .ok (.obj cl) →
        expCheck cl now = .ok () →
        cnfJwkOf cl = .ok (some (.obj lc)) →
        verify_jwt cred.kb (.obj lc) = .ok (.obj kbCl) →
        audCheck kbCl aud = .ok () →
        (jlookup "sd_hash" kbCl).any
          (fun w => jvalIsStr w (sdHashOf (serializeJwt cred.issuer))) = false →
        verify_sd_jwt_kb cred jwk aud now = .error (.valueError .sdHashMismatch)) := by
  refine ⟨?_, ?_, ?_⟩
  · intro v h
    unfold verify_sd_jwt_kb at h
    obtain ⟨icv, hic, h⟩ := except_bind_inv h
    cases icv with
    | obj cl =>
      obtain ⟨u, hex, h⟩ := except_bind_inv h
      obtain ⟨cnfo, hcnf, h⟩ := except_bind_inv h
      rcases cnfo with _ | cj
      · simp at h
      · cases cj with
        | null => simp at h
        | bool b =>
          obtain ⟨kbv, hkb, h⟩ := except_bind_inv h
          cases kbv with
          | obj kbCl =>
            obtain ⟨u2, haud, h⟩ := except_bind_inv h
            by_cases hhash : (jlookup "sd_hash" kbCl).any
                (fun w => jvalIsStr w (sdHashOf (serializeJwt cred.issuer))) = true
            · obtain ⟨pk, hpk, hraw, hpl⟩ := verify_jwt_ok_inv hkb
              exact ⟨cl, _, pk, kbCl, hic, hcnf, hpk, hraw,
                fun pk' hne => verify_raw_unique hraw hne, hpl.symm, hhash,
                by rw [if_pos hhash] at h; cases h; rfl⟩
            · rw [if_neg hhash] at h
              simp at h
          | null => simp at h
          | bool b2 => simp at h
          | num n2 => simp at h
          | str s2 => simp at h
          | arr a2 => simp at h
        | num n =>
          obtain ⟨kbv, hkb, h⟩ := except_bind_inv h
          cases kbv with
          | obj kbCl =>
            obtain ⟨u2, haud, h⟩ := except_bind_inv h
            by_cases hhash : (jlookup "sd_hash" kbCl).any
                (fun w => jvalIsStr w (sdHashOf (serializeJwt cred.issuer))) = true
            · obtain ⟨pk, hpk, hraw, hpl⟩ := verify_jwt_ok_inv hkb
              exact ⟨cl, _, pk, kbCl, hic, hcnf, hpk, hraw,
                fun pk' hne => verify_raw_unique hraw hne, hpl.symm, hhash,
                by rw [if_pos hhash] at h; cases h; rfl⟩
            · rw [if_neg hhash] at h
              simp at h
          | null => simp at h
          | bool b2 => simp at h
          | num n2 => simp at h
          | str s2 => simp at h
          | arr a2 => simp at h
        | str s =>
          obtain ⟨kbv, hkb, h⟩ := except_bind_inv h
          cases kbv with
          | obj kbCl =>
            obtain ⟨u2, haud, h⟩ := except_bind_inv h
            by_cases hhash : (jlookup "sd_hash" kbCl).any
                (fun w => jvalIsStr w (sdHashOf (serializeJwt cred.issuer))) = true
            · obtain ⟨pk, hpk, hraw, hpl⟩ := verify_jwt_ok_inv hkb
              exact ⟨cl, _, pk, kbCl, hic, hcnf, hpk, hraw,
                fun pk' hne => verify_raw_unique hraw hne, hpl.symm, hhash,
                by rw [if_pos hhash] at h; cases h; rfl⟩
            · rw [if_neg hhash] at h
              simp at h
          | null => simp at h
          | bool b2 => simp at h
          | num n2 => simp at h
          | str s2 => simp at h
          | arr a2 => simp at h
        | arr xs =>
          obtain ⟨kbv, hkb, h⟩ := except_bind_inv h
          cases kbv with
          | obj kbCl =>
            obtain ⟨u2, haud, h⟩ := except_bind_inv h
            by_cases hhash : (jlookup "sd_hash" kbCl).any
                (fun w => jvalIsStr w (sdHashOf (serializeJwt cred.issuer))) = true
            · obtain ⟨pk, hpk, hraw, hpl⟩ := verify_jwt_ok_inv hkb
              exact ⟨cl, _, pk, kbCl, hic, hcnf, hpk, hraw,
                fun pk' hne => verify_raw_unique hraw hne, hpl.symm, hhash,
                by rw [if_pos hhash] at h; cases h; rfl⟩
            · rw [if_neg hhash] at h
              simp at h
          | null => simp at h
          | bool b2 => simp at h
          | num n2 => simp at h
          | str s2 => simp at h
          | arr a2 => simp at h
        | obj lo =>
          obtain ⟨kbv, hkb, h⟩ := except_bind_inv h
          cases kbv with
          | obj kbCl =>
            obtain ⟨u2, haud, h⟩ := except_bind_inv h
            by_cases hhash : (jlookup "sd_hash" kbCl).any
                (fun w => jvalIsStr w (sdHashOf (serializeJwt cred.issuer))) = true
            · obtain ⟨pk, hpk, hraw, hpl⟩ := verify_jwt_ok_inv hkb
              exact ⟨cl, _, pk, kbCl, hic, hcnf, hpk, hraw,
                fun pk' hne => verify_raw_unique hraw hne, hpl.symm, hhash,
                by rw [if_pos hhash] at h; cases h; rfl⟩
            · rw [if_neg hhash] at h
              simp at h
          | null => simp at h
          | bool b2 => simp at h
          | num n2 => simp at h
          | str s2 => simp at h
          | arr a2 => simp at h
    | null => simp at h
    | bool b => simp at h
    | num n => simp at h
    | str s => simp at h
    | arr xs => simp at h
  · intro cl hv hex hcnf
    exact verify_sd_missing_cnf hv hex hcnf
  · intro cl lc kbCl hv hex hcnf hkb haud hhash
    unfold verify_sd_jwt_kb
    rw [hv, except_bind_ok]
    dsimp only
    rw [hex, except_bind_ok, hcnf, except_bind_ok]
    dsimp only
    rw [hkb, except_bind_ok]
    dsimp only
    rw [haud, except_bind_ok, if_neg (by rw [hhash]; exact Bool.false_ne_true)]
    rfl

/-- Closed witness for C1: the missing-binding-key branch at a concrete
credential whose issuer claims carry no `cnf` member — an issuer JWT signed
directly over bare claims, paired with its own kb token. -/
theorem C1_binding_key_soundness_witness :
    verify_sd_jwt_kb
      ⟨create_jwt (.obj [("alg", .str "ES256")]) (.obj [("scope", .str "pay")]) ⟨1, 2⟩,
        create_jwt (.obj [("alg", .str "ES256")]) (.obj []) ⟨1, 2⟩⟩
      (export_public_jwk ⟨1, 2⟩ "platform_key") (some "cs_1") 1100 =
      .error (.valueError .missingBindingKey) :=
  (C1_binding_key_soundness
    ⟨create_jwt (.obj [("alg", .str "ES256")]) (.obj [("scope", .str "pay")]) ⟨1, 2⟩,
      create_jwt (.obj [("alg", .str "ES256")]) (.obj []) ⟨1, 2⟩⟩
    (export_public_jwk ⟨1, 2⟩ "platform_key") (some "cs_1") 1100).2.1
    [("scope", .str "pay")]
    (verify_jwt_create _ _ (jwk_to_public_key_export ⟨1, 2⟩ "platform_key"
      (by norm_num) (by norm_num)))
    rfl
    rfl

/-! ## Walking the intent-mandate verifiers -/

theorem merchant_accept_walk {pj : JVal} {rest : List JVal} {mandate sid store : String}
    {amt now : Int} {L : Ledger} {cl a kbCl : List (String × JVal)}
    {issuerJwt kbJwt : String} {cnfJwk : JVal}
    (hv : verify_sd_jwt_kb_str mandate pj (some sid) now = .ok (.obj cl))
    (hauth : jlookup "authorization" cl = some (.obj a))
    (hallow : allowListRejects ((jlookup "merchant_ids" a).getD (.arr [])) store = .ok false)
    (hcap : capExceeded (jlookup "max_amount" a) amt = .ok false)
    (hsplit : pySplit '~' mandate = [issuerJwt, kbJwt])
    (hcnf : cnfJwkOf cl = .ok (some cnfJwk))
    (htr : jvalTruthy cnfJwk = true)
    (hkb : verify_jwt_str kbJwt cnfJwk = .ok (.obj kbCl))
    (hamt : jlookup "amount" kbCl = none) :
    verify_intent_mandate (pj :: rest) mandate sid amt store now L =
      intentLedgerStepM issuerJwt amt (jlookup "max_total" a) (jlookup "max_uses" a) L := by
  unfold verify_intent_mandate
  dsimp only
  rw [hv]
  dsimp only
  rw [show authEnvelope cl = .ok (jlookup "max_amount" a, jlookup "max_total" a,
    jlookup "max_uses" a, (jlookup "merchant_ids" a).getD (.arr [])) from by
      unfold authEnvelope; rw [hauth]]
  rw [except_bind_ok]
  dsimp only
  rw [hallow, except_bind_ok]
  rw [hcap, except_bind_ok]
  rw [hsplit]
  dsimp only
  rw [hcnf, except_bind_ok]
  dsimp only
  rw [if_pos htr]
  rw [hkb, except_bind_ok]
  dsimp only
  rw [hamt]
  rfl

theorem psp_accept_walk {pj : JVal} {rest : List JVal} {mandate : String}
    {amt now e : Int} {L : Ledger} {cl a : List (String × JVal)}
    {issuerJwt kbJwt : String}
    (hv : verify_sd_jwt_kb_str mandate pj none now = .ok (.obj cl))
    (he : jlookup "exp" cl = some (.num e)) (hlt : ¬(now ≥ e))
    (hauth : jlookup "authorization" cl = some (.obj a))
    (hcap : capExceeded (jlookup "max_amount" a) amt = .ok false)
    (hsplit : pySplit '~' mandate = [issuerJwt, kbJwt]) :
    psp_verify_intent_mandate (pj :: rest) mandate amt now L =
      intentLedgerStepP issuerJwt amt (jlookup "max_total" a) (jlookup "max_uses" a) L := by
  unfold psp_verify_intent_mandate
  dsimp only
  rw [hv]
  dsimp only
  rw [he]
  dsimp only [Option.getD, pyNum?]
  rw [if_neg hlt]
  rw [show authEnvelope cl = .ok (jlookup "max_amount" a, jlookup "max_total" a,
    jlookup "max_uses" a, (jlookup "merchant_ids" a).getD (.arr [])) from by
      unfold authEnvelope; rw [hauth]]
  rw [except_bind_ok]
  dsimp only
  rw [hcap, except_bind_ok]
  rw [hsplit]
  rfl

theorem merchant_allow_reject_walk {pj : JVal} {rest : List JVal}
    {mandate sid store : String} {amt now : Int} {L : Ledger}
    {cl a : List (String × JVal)} {ms : List JVal}
    (hv : verify_sd_jwt_kb_str mandate pj (some sid) now = .ok (.obj cl))
    (hauth : jlookup "authorization" cl = some (.obj a))
    (hids : jlookup "merchant_ids" a = some (.arr ms))
    (hne : ms ≠ []) (hnm : ∀ v ∈ ms, jvalIsStr v store = false) :
    verify_intent_mandate (pj :: rest) mandate sid amt store now L =
      .ok ((false, "mandate_scope_mismatch: store " ++ store ++
        " not in authorized merchants"), L) := by
  unfold verify_intent_mandate
  dsimp only
  rw [hv]
  dsimp only
  rw [show authEnvelope cl = .ok (jlookup "max_amount" a, jlookup "max_total" a,
    jlookup "max_uses" a, (jlookup "merchant_ids" a).getD (.arr [])) from by
      unfold authEnvelope; rw [hauth]]
  rw [except_bind_ok]
  dsimp only
  rw [hids]
  dsimp only [Option.getD]
  rw [allowListRejects_arr_not_mem hne hnm, except_bind_ok]
  rfl

theorem checkAndReserve_fresh_accept (L : Ledger) (id : String) (amt mu : Int)
    (hget : ledgerGet L id = none) (hmu : (0 : Int) < mu) :
    checkAndReserve L id amt none (some (.num mu)) =
      .ok (.accepted, ledgerSet L id ⟨0 + amt, 0 + 1⟩) := by
  unfold checkAndReserve
  rw [hget]
  dsimp only [Option.getD, pyNum?]
  rw [if_neg (by omega)]

theorem checkAndReserve_uses_reject (L : Ledger) (id : String) (amt mu : Int)
    (u : UsageEntry) (mtv : Option JVal)
    (hget : ledgerGet L id = some u) (hge : u.use_count ≥ mu) :
    checkAndReserve L id amt mtv (some (.num mu)) = .ok (.rejectUses u.use_count mu, L) := by
  unfold checkAndReserve
  rw [hget]
  dsimp only [Option.getD, pyNum?]
  rw [if_pos hge]

theorem ledgerStepMP_agree (issuerJwt : String) (amt : Int) (mtv muv : Option JVal)
    (L : Ledger) :
    (intentLedgerStepM issuerJwt amt mtv muv L).map (fun r => (r.1.1, r.2)) =
      (intentLedgerStepP issuerJwt amt mtv muv L).map (fun r => (r.1.1, r.2)) := by
  unfold intentLedgerStepM intentLedgerStepP
  cases hres : checkAndReserve L (mandateIdOf issuerJwt) amt mtv muv with
  | error e => rw [except_bind_err, except_bind_err]
  | ok p =>
    obtain ⟨res, L'⟩ := p
    rw [except_bind_ok, except_bind_ok]
    cases res <;> rfl

/-! ## Concrete scenario facts for the witness credentials -/

theorem wv_other_some :
    verify_sd_jwt_kb_str wTokOther wJwkI (some "cs_1") 1100 = .ok (.obj wClOther) :=
  (verify_sd_jwt_kb_str_serialize wCredOther wJwkI (some "cs_1") 1100).trans
    (verify_sd_jwt_kb_create wAuthOther wKeyI wKeyH "platform_key" wJwkH "cs_1"
      "intent-mandate+sd-jwt" 300 1000 1100 [byte 7] wJwkI
      (jwk_to_public_key_export wKeyI "platform_key" (by norm_num [wKeyI])
        (by norm_num [wKeyI]))
      (jwk_to_public_key_cnf wKeyH "holder_key" (by norm_num [wKeyH]) (by norm_num [wKeyH]))
      (by norm_num))

theorem wv_other_none :
    verify_sd_jwt_kb_str wTokOther wJwkI none 1100 = .ok (.obj wClOther) :=
  (verify_sd_jwt_kb_str_serialize wCredOther wJwkI none 1100).trans
    (verify_sd_jwt_kb_create_noaud wAuthOther wKeyI wKeyH "platform_key" wJwkH "cs_1"
      "intent-mandate+sd-jwt" 300 1000 1100 [byte 7] wJwkI
      (jwk_to_public_key_export wKeyI "platform_key" (by norm_num [wKeyI])
        (by norm_num [wKeyI]))
      (jwk_to_public_key_cnf wKeyH "holder_key" (by norm_num [wKeyH]) (by norm_num [wKeyH]))
      (by norm_num))

theorem wv_other_kb :
    verify_jwt_str (serializeJwt wCredOther.kb) (cnfSubset wJwkH) =
      .ok (.obj (kbPayloadOf "cs_1" 1000 [byte 7]
        (sdHashOf (serializeJwt wCredOther.issuer)))) :=
  (verify_jwt_str_serialize wCredOther.kb (cnfSubset wJwkH)).trans
    (verify_jwt_create _ _ (jwk_to_public_key_cnf wKeyH "holder_key"
      (by norm_num [wKeyH]) (by norm_num [wKeyH])))

theorem wclOther_auth :
    jlookup "authorization" wClOther =
      some (.obj [("max_amount", .num 5000), ("max_uses", .num 2),
        ("merchant_ids", .arr [.str "m_other"])]) := by
  rw [show wClOther = issuerPayloadOf wAuthOther wJwkH 1000 300 from rfl,
    issuerPayload_other (by decide) (by decide) (by decide)]
  rfl

theorem wclOther_exp : jlookup "exp" wClOther = some (.num 1300) := by
  rw [show wClOther = issuerPayloadOf wAuthOther wJwkH 1000 300 from rfl,
    issuerPayload_exp]
  norm_num

theorem wclOther_cnf : cnfJwkOf wClOther = .ok (some (cnfSubset wJwkH)) := by
  rw [show wClOther = issuerPayloadOf wAuthOther wJwkH 1000 300 from rfl]
  unfold cnfJwkOf
  rw [issuerPayload_cnf]
  rfl

theorem wv_uses1_some :
    verify_sd_jwt_kb_str (serializeSdJwtKb wCredUses1) wJwkI (some "cs_1") 1100 =
      .ok (.obj (issuerPayloadOf wAuthUses1 wJwkH 1000 300)) :=
  (verify_sd_jwt_kb_str_serialize wCredUses1 wJwkI (some "cs_1") 1100).trans
    (verify_sd_jwt_kb_create wAuthUses1 wKeyI wKeyH "platform_key" wJwkH "cs_1"
      "intent-mandate+sd-jwt" 300 1000 1100 [byte 7] wJwkI
      (jwk_to_public_key_export wKeyI "platform_key" (by norm_num [wKeyI])
        (by norm_num [wKeyI]))
      (jwk_to_public_key_cnf wKeyH "holder_key" (by norm_num [wKeyH]) (by norm_num [wKeyH]))
      (by norm_num))

theorem wv_uses1r_some :
    verify_sd_jwt_kb_str (serializeSdJwtKb wCredUses1Rebound) wJwkI (some "cs_1") 1100 =
      .ok (.obj (issuerPayloadOf wAuthUses1 wJwkH 1000 300)) :=
  (verify_sd_jwt_kb_str_serialize wCredUses1Rebound wJwkI (some "cs_1") 1100).trans
    (verify_sd_jwt_kb_create wAuthUses1 wKeyI wKeyH "platform_key" wJwkH "cs_1"
      "intent-mandate+sd-jwt" 300 1000 1100 [byte 8] wJwkI
      (jwk_to_public_key_export wKeyI "platform_key" (by norm_num [wKeyI])
        (by norm_num [wKeyI]))
      (jwk_to_public_key_cnf wKeyH "holder_key" (by norm_num [wKeyH]) (by norm_num [wKeyH]))
      (by norm_num))

theorem wv_uses1_kb :
    verify_jwt_str (serializeJwt wCredUses1.kb) (cnfSubset wJwkH) =
      .ok (.obj (kbPayloadOf "cs_1" 1000 [byte 7]
        (sdHashOf (serializeJwt wCredUses1.issuer)))) :=
  (verify_jwt_str_serialize wCredUses1.kb (cnfSubset wJwkH)).trans
    (verify_jwt_create _ _ (jwk_to_public_key_cnf wKeyH "holder_key"
      (by norm_num [wKeyH]) (by norm_num [wKeyH])))

theorem wv_uses1r_kb :
    verify_jwt_str (serializeJwt wCredUses1Rebound.kb) (cnfSubset wJwkH) =
      .ok (.obj (kbPayloadOf "cs_1" 1000 [byte 8]
        (sdHashOf (serializeJwt wCredUses1.issuer)))) :=
  (verify_jwt_str_serialize wCredUses1Rebound.kb (cnfSubset wJwkH)).trans
    (verify_jwt_create _ _ (jwk_to_public_key_cnf wKeyH "holder_key"
      (by norm_num [wKeyH]) (by norm_num [wKeyH])))

theorem wclUses1_auth :
    jlookup "authorization" (issuerPayloadOf wAuthUses1 wJwkH 1000 300) =
      some (.obj [("max_uses", .num 1)]) := by
  rw [issuerPayload_other (by decide) (by decide) (by decide)]
  rfl

theorem wclUses1_cnf :
    cnfJwkOf (issuerPayloadOf wAuthUses1 wJwkH 1000 300) =
      .ok (some (cnfSubset wJwkH)) := by
  unfold cnfJwkOf
  rw [issuerPayload_cnf]
  rfl

/-! ## Claim C5 -/

/-- C5 (amended): the two intent-mandate verification sites share their
usage-accounting step exactly — for every issuer token, amount and limit
configuration the merchant-site and PSP-site ledger steps agree on the
accept/reject outcome and on the resulting ledger, differing only in the
reason strings — and on any presentation that passes the signature check at
both sites with the same claims, passes the (merchant-only) allow-list and
the shared per-transaction cap, sits strictly inside the validity window,
and carries no key-binding amount, the full pipelines agree on outcome and
ledger as well. The omitted checks (the PSP performs no merchant allow-list
and no key-binding-amount check, and adds an inclusive expiry re-check) are
exactly where the two sites diverge. -/
theorem C5_sites_agreement :
    (∀ (issuerJwt : String) (amt : Int) (mtv muv : Option JVal) (L : Ledger),
      (intentLedgerStepM issuerJwt amt mtv muv L).map (fun r => (r.1.1, r.2)) =
        (intentLedgerStepP issuerJwt amt mtv muv L).map (fun r => (r.1.1, r.2)))
    ∧ (∀ (pj : JVal) (rest : List JVal) (mandate sid store : String) (amt now e : Int)
        (L : Ledger) (cl a kbCl : List (String × JVal)) (issuerJwt kbJwt : String)
        (cnfJwk : JVal),
      verify_sd_jwt_kb_str mandate pj (some sid) now = .ok (.obj cl) →
      verify_sd_jwt_kb_str mandate pj none now = .ok (.obj cl) →
      jlookup "authorization" cl = some (.obj a) →
      allowListRejects ((jlookup "merchant_ids" a).getD (.arr [])) store = .ok false →
      capExceeded (jlookup "max_amount" a) amt = .ok false →
      jlookup "exp" cl = some (.num e) → ¬(now ≥ e) →
      pySplit '~' mandate = [issuerJwt, kbJwt] →
      cnfJwkOf cl = .ok (some cnfJwk) → jvalTruthy cnfJwk = true →
      verify_jwt_str kbJwt cnfJwk = .ok (.obj kbCl) →
      jlookup "amount" kbCl = none →
      (verify_intent_mandate (pj :: rest) mandate sid amt store now L).map
        (fun r => (r.1.1, r.2)) =
      (psp_verify_intent_mandate (pj :: rest) mandate amt now L).map
        (fun r => (r.1.1, r.2))) := by
  refine ⟨ledgerStepMP_agree, ?_⟩
  intro pj rest mandate sid store amt now e L cl a kbCl issuerJwt kbJwt cnfJwk
    hv1 hv2 hauth hallow hcap he hlt hsplit hcnf htr hkb hamt
  rw [merchant_accept_walk hv1 hauth hallow hcap hsplit hcnf htr hkb hamt,
    psp_accept_walk hv2 he hlt hauth hcap hsplit]
  exact ledgerStepMP_agree issuerJwt amt _ _ L

/-- Closed witness for C5: on the concrete in-window mandate presented at
its authorized store, merchant-site and PSP-site verification agree on the
accept outcome and the updated ledger. -/
theorem C5_sites_agreement_witness :
    (verify_intent_mandate [wJwkI] wTokOther "cs_1" 100 "m_other" 1100 []).map
      (fun r => (r.1.1, r.2)) =
    (psp_verify_intent_mandate [wJwkI] wTokOther 100 1100 []).map
      (fun r => (r.1.1, r.2)) :=
  C5_sites_agreement.2 wJwkI [] wTokOther "cs_1" "m_other" 100 1100 1300 []
    wClOther
    [("max_amount", .num 5000), ("max_uses", .num 2),
      ("merchant_ids", .arr [.str "m_other"])]
    (kbPayloadOf "cs_1" 1000 [byte 7] (sdHashOf (serializeJwt wCredOther.issuer)))
    (serializeJwt wCredOther.issuer) (serializeJwt wCredOther.kb) (cnfSubset wJwkH)
    wv_other_some wv_other_none wclOther_auth rfl rfl wclOther_exp (by norm_num)
    (pySplit_serializeSdJwtKb wCredOther) wclOther_cnf rfl wv_other_kb rfl

/-- Counterexample to C5 as stated: the same mandate, presented for a store
outside its allow-list, is rejected `scope_mismatch` by the merchant site
but accepted outright by the PSP site, which never checks the allow-list —
the two sites are not identical up to audience. -/
theorem C5_psp_divergence_cx :
    verify_intent_mandate [wJwkI] wTokOther "cs_1" 100 "m_1" 1100 [] =
      .ok ((false, "mandate_scope_mismatch: store " ++ "m_1" ++
        " not in authorized merchants"), [])
    ∧ ∃ L₁, psp_verify_intent_mandate [wJwkI] wTokOther 100 1100 [] =
        .ok ((true, ""), L₁) := by
  constructor
  · exact merchant_allow_reject_walk wv_other_some wclOther_auth rfl (by simp)
      (by intro v hv; rw [List.mem_singleton] at hv; subst hv; rfl)
  · refine ⟨ledgerSet [] (mandateIdOf (serializeJwt wCredOther.issuer)) ⟨0 + 100, 0 + 1⟩, ?_⟩
    rw [psp_accept_walk wv_other_none wclOther_exp (by norm_num) wclOther_auth
      (show capExceeded (jlookup "max_amount" [("max_amount", JVal.num 5000),
        ("max_uses", JVal.num 2), ("merchant_ids", JVal.arr [JVal.str "m_other"])]) 100 =
        Except.ok false from rfl)
      (pySplit_serializeSdJwtKb wCredOther)]
    unfold intentLedgerStepP
    rw [show jlookup "max_total" [("max_amount", JVal.num 5000), ("max_uses", JVal.num 2),
        ("merchant_ids", JVal.arr [JVal.str "m_other"])] = (none : Option JVal) from rfl,
      show jlookup "max_uses" [("max_amount", JVal.num 5000), ("max_uses", JVal.num 2),
        ("merchant_ids", JVal.arr [JVal.str "m_other"])] = some (JVal.num 2) from rfl]
    rw [checkAndReserve_fresh_accept [] (mandateIdOf (serializeJwt wCredOther.issuer))
      100 2 rfl (by norm_num), except_bind_ok]

/-! ## Claim C10 -/

/-- C10: the usage-ledger key is derived from the issuer JWT alone — for
any two credentials with the same issuer token, both serializations split
into the same issuer segment, and the ledger step both verifiers run is
literally the same function of that segment; concretely, presenting the
`max_uses = 1` mandate once consumes its use, and re-presenting the same
issuer token re-bound to a different key-binding token (the key-binding
payloads differ) is rejected against the same ledger entry with the ledger
unchanged, so usage limits cannot be reset by re-binding. -/
theorem C10_ledger_key_from_issuer (c c' : SdJwtKb) (hs : c.issuer = c'.issuer) :
    (pySplit '~' (serializeSdJwtKb c) = [serializeJwt c.issuer, serializeJwt c.kb]
      ∧ pySplit '~' (serializeSdJwtKb c') = [serializeJwt c.issuer, serializeJwt c'.kb]
      ∧ ∀ (amt : Int) (mtv muv : Option JVal) (L : Ledger),
        intentLedgerStepM (serializeJwt c.issuer) amt mtv muv L =
          intentLedgerStepM (serializeJwt c'.issuer) amt mtv muv L)
    ∧ (wCredUses1Rebound.issuer = wCredUses1.issuer
      ∧ wCredUses1Rebound.kb.payload ≠ wCredUses1.kb.payload)
    ∧ (verify_intent_mandate [wJwkI] (serializeSdJwtKb wCredUses1) "cs_1" 100 "m_1" 1100 []
        = .ok ((true, ""),
          ledgerSet [] (mandateIdOf (serializeJwt wCredUses1.issuer)) ⟨0 + 100, 0 + 1⟩)
      ∧ ∃ reason, verify_intent_mandate [wJwkI] (serializeSdJwtKb wCredUses1Rebound)
          "cs_1" 100 "m_1" 1100
          (ledgerSet [] (mandateIdOf (serializeJwt wCredUses1.issuer)) ⟨0 + 100, 0 + 1⟩)
        = .ok ((false, reason),
          ledgerSet [] (mandateIdOf (serializeJwt wCredUses1.issuer)) ⟨0 + 100, 0 + 1⟩)) := by
  refine ⟨⟨pySplit_serializeSdJwtKb c, hs ▸ pySplit_serializeSdJwtKb c', fun amt mtv muv L => by rw [hs]⟩, ⟨rfl, ?_⟩, ?_, ?_⟩
  · intro h
    have h2 : (JVal.obj (kbPayloadOf "cs_1" 1000 [byte 8]
        (sdHashOf (serializeJwt wCredUses1.issuer))) : JVal) =
        .obj (kbPayloadOf "cs_1" 1000 [byte 7]
          (sdHashOf (serializeJwt wCredUses1.issuer))) := h
    simp only [kbPayloadOf, JVal.obj.injEq, List.cons.injEq, Prod.mk.injEq,
      JVal.str.injEq] at h2
    exact absurd h2.2.2.1.2 (by decide)
  · rw [merchant_accept_walk wv_uses1_some wclUses1_auth
      (show allowListRejects ((jlookup "merchant_ids"
          [("max_uses", JVal.num 1)]).getD (.arr [])) "m_1" = Except.ok false from rfl)
      (show capExceeded (jlookup "max_amount" [("max_uses", JVal.num 1)]) 100 =
        Except.ok false from rfl)
      (pySplit_serializeSdJwtKb wCredUses1) wclUses1_cnf
      (show jvalTruthy (cnfSubset wJwkH) = true from rfl)
      wv_uses1_kb
      (show jlookup "amount" (kbPayloadOf "cs_1" 1000 [byte 7]
        (sdHashOf (serializeJwt wCredUses1.issuer))) = none from rfl)]
    unfold intentLedgerStepM
    rw [show jlookup "max_total" [("max_uses", JVal.num 1)] = (none : Option JVal) from rfl,
      show jlookup "max_uses" [("max_uses", JVal.num 1)] = some (JVal.num 1) from rfl]
    rw [checkAndReserve_fresh_accept [] (mandateIdOf (serializeJwt wCredUses1.issuer))
      100 1 rfl (by norm_num), except_bind_ok]
  · refine ⟨"mandate_expired: use count " ++ toString ((0 : Int) + 1) ++
      " >= max_uses " ++ toString (1 : Int), ?_⟩
    rw [merchant_accept_walk wv_uses1r_some wclUses1_auth
      (show allowListRejects ((jlookup "merchant_ids"
          [("max_uses", JVal.num 1)]).getD (.arr [])) "m_1" = Except.ok false from rfl)
      (show capExceeded (jlookup "max_amount" [("max_uses", JVal.num 1)]) 100 =
        Except.ok false from rfl)
      (pySplit_serializeSdJwtKb wCredUses1Rebound) wclUses1_cnf
      (show jvalTruthy (cnfSubset wJwkH) = true from rfl)
      wv_uses1r_kb
      (show jlookup "amount" (kbPayloadOf "cs_1" 1000 [byte 8]
        (sdHashOf (serializeJwt wCredUses1.issuer))) = none from rfl)]
    unfold intentLedgerStepM
    rw [show jlookup "max_total" [("max_uses", JVal.num 1)] = (none : Option JVal) from rfl,
      show jlookup "max_uses" [("max_uses", JVal.num 1)] = some (JVal.num 1) from rfl,
      show wCredUses1Rebound.issuer = wCredUses1.issuer from rfl]
    rw [checkAndReserve_uses_reject
      (ledgerSet [] (mandateIdOf (serializeJwt wCredUses1.issuer)) ⟨0 + 100, 0 + 1⟩)
      (mandateIdOf (serializeJwt wCredUses1.issuer)) 100 1 ⟨0 + 100, 0 + 1⟩ none
      (ledgerGet_ledgerSet_self [] (mandateIdOf (serializeJwt wCredUses1.issuer))
        ⟨0 + 100, 0 + 1⟩)
      (by norm_num), except_bind_ok]

/-- Closed witness for C10, instantiating the general part at the two
concrete presentations that share one issuer token. -/
theorem C10_ledger_key_from_issuer_witness :
    pySplit '~' (serializeSdJwtKb wCredUses1) =
      [serializeJwt wCredUses1.issuer, serializeJwt wCredUses1.kb] ∧
    pySplit '~' (serializeSdJwtKb wCredUses1Rebound) =
      [serializeJwt wCredUses1.issuer, serializeJwt wCredUses1Rebound.kb] :=
  ⟨(C10_ledger_key_from_issuer wCredUses1 wCredUses1Rebound rfl).1.1,
    (C10_ledger_key_from_issuer wCredUses1 wCredUses1Rebound rfl).1.2.1⟩

/-- Closed witness for C3: the concrete mandate whose allow-list names only
`m_other` is rejected as a scope mismatch at store `m_1` and the (empty)
ledger is returned untouched. -/
theorem C3_scope_rejections_leave_ledger_witness :
    verify_intent_mandate [wJwkI] wTokOther "cs_1" 100 "m_1" 1100 [] =
      .ok ((false, "mandate_scope_mismatch: store " ++ "m_1" ++
        " not in authorized merchants"), []) :=
  (C3_scope_rejections_leave_ledger wJwkI [] wTokOther "cs_1" "m_1" 100 1100 []
    wClOther
    [("max_amount", .num 5000), ("max_uses", .num 2),
      ("merchant_ids", .arr [.str "m_other"])]).1
    [.str "m_other"] wv_other_some wclOther_auth rfl (by simp)
    (by intro v hv; rw [List.mem_singleton] at hv; subst hv; rfl)

/-! ## Claim C7: order theory for the canonical key sort -/

theorem strLeChars_total : ∀ (a b : List Char),
    strLeChars a b = true ∨ strLeChars b a = true := by
  intro a
  induction a with
  | nil => intro b; left; rfl
  | cons c as ih =>
    intro b
    cases b with
    | nil => right; rfl
    | cons d bs =>
      by_cases h1 : c.toNat < d.toNat
      · left; simp [strLeChars, h1]
      · by_cases h2 : d.toNat < c.toNat
        · right; simp [strLeChars, h2]
        · have he : c = d := char_toNat_inj (by omega)
          subst he
          rcases ih bs with h | h
          · left; simp [strLeChars, h]
          · right; simp [strLeChars, h]

theorem strLeChars_antisymm : ∀ {a b : List Char},
    strLeChars a b = true → strLeChars b a = true → a = b := by
  intro a
  induction a with
  | nil =>
    intro b h1 h2
    cases b with
    | nil => rfl
    | cons d bs => simp [strLeChars] at h2
  | cons c as ih =>
    intro b h1 h2
    cases b with
    | nil => simp [strLeChars] at h1
    | cons d bs =>
      by_cases hlt : c.toNat < d.toNat
      · simp [strLeChars, hlt, Nat.lt_asymm hlt] at h2
      · by_cases hgt : d.toNat < c.toNat
        · simp [strLeChars, hlt, hgt] at h1
        · have he : c = d := char_toNat_inj (by omega)
          subst he
          simp [strLeChars] at h1 h2
          rw [ih h1 h2]

theorem strLeChars_trans : ∀ {a b c : List Char},
    strLeChars a b = true → strLeChars b c = true → strLeChars a c = true := by
  intro a
  induction a with
  | nil => intro b c h1 h2; rfl
  | cons x as ih =>
    intro b c h1 h2
    cases b with
    | nil => simp [strLeChars] at h1
    | cons y bs =>
      cases c with
      | nil => simp [strLeChars] at h2
      | cons z cs =>
        by_cases hxy : x.toNat < y.toNat
        · by_cases hyz : y.toNat < z.toNat
          · simp [strLeChars, show x.toNat < z.toNat from by omega]
          · by_cases hzy : z.toNat < y.toNat
            · simp [strLeChars, hyz, hzy] at h2
            · have he : y = z := char_toNat_inj (by omega)
              subst he
              simp [strLeChars, hxy]
        · by_cases hyx : y.toNat < x.toNat
          · simp [strLeChars, hxy, hyx] at h1
          · have he : x = y := char_toNat_inj (by omega)
            subst he
            simp only [strLeChars, Nat.lt_irrefl, if_false] at h1
            by_cases hxz : x.toNat < z.toNat
            · simp [strLeChars, hxz]
            · by_cases hzx : z.toNat < x.toNat
              · simp [strLeChars, hxz, hzx] at h2
              · have he2 : x = z := char_toNat_inj (by omega)
                subst he2
                simp only [strLeChars, Nat.lt_irrefl, if_false] at h2 ⊢
                exact ih h1 h2

theorem strLe_total (a b : String) : strLe a b = true ∨ strLe b a = true :=
  strLeChars_total a.data b.data

theorem strLe_antisymm {a b : String} (h1 : strLe a b = true) (h2 : strLe b a = true) :
    a = b :=
  string_data_inj (strLeChars_antisymm h1 h2)

theorem strLe_trans {a b c : String} (h1 : strLe a b = true) (h2 : strLe b c = true) :
    strLe a c = true :=
  strLeChars_trans h1 h2

/-- Inserting into a list is a permutation of consing. -/
theorem keyInsert_perm (p : String × JVal) : ∀ (l : List (String × JVal)),
    (keyInsert p l).Perm (p :: l) := by
  intro l
  induction l with
  | nil => exact List.Perm.refl _
  | cons q rest ih =>
    by_cases h : strLe p.1 q.1 = true
    · rw [keyInsert, if_pos h]
    · rw [keyInsert, if_neg h]
      exact (ih.cons q).trans (List.Perm.swap p q rest)

/-- The canonical key sort is a permutation of its input. -/
theorem keySort_perm : ∀ (l : List (String × JVal)), (keySort l).Perm l := by
  intro l
  induction l with
  | nil => exact List.Perm.refl _
  | cons p rest ih =>
    exact (keyInsert_perm p (keySort rest)).trans (ih.cons p)

/-- Insertion preserves sortedness by key. -/
theorem keyInsert_pairwise {p : String × JVal} : ∀ {l : List (String × JVal)},
    l.Pairwise (fun a b => strLe a.1 b.1 = true) →
    (keyInsert p l).Pairwise (fun a b => strLe a.1 b.1 = true) := by
  intro l
  induction l with
  | nil => intro _; simp [keyInsert]
  | cons q rest ih =>
    intro h
    rcases List.pairwise_cons.mp h with ⟨hq, ht⟩
    by_cases hle : strLe p.1 q.1 = true
    · rw [keyInsert, if_pos hle]
      refine List.pairwise_cons.mpr ⟨?_, h⟩
      intro x hx
      rcases List.mem_cons.mp hx with hx | hx
      · rw [hx]; exact hle
      · exact strLe_trans hle (hq x hx)
    · rw [keyInsert, if_neg hle]
      refine List.pairwise_cons.mpr ⟨?_, ih ht⟩
      intro x hx
      rcases List.mem_cons.mp ((keyInsert_perm p rest).mem_iff.mp hx) with hx | hx
      · rw [hx]
        rcases strLe_total p.1 q.1 with h1 | h1
        · exact absurd h1 hle
        · exact h1
      · exact hq x hx

/-- The canonical key sort is sorted by key. -/
theorem keySort_pairwise : ∀ (l : List (String × JVal)),
    (keySort l).Pairwise (fun a b => strLe a.1 b.1 = true) := by
  intro l
  induction l with
  | nil => simp [keySort]
  | cons p rest ih => exact keyInsert_pairwise ih

/-- Two key-sorted entry lists that are permutations of each other and have
duplicate-free keys are equal. -/
theorem sorted_perm_keys_nodup_eq : ∀ {l₁ l₂ : List (String × JVal)},
    l₁.Perm l₂ →
    l₁.Pairwise (fun a b => strLe a.1 b.1 = true) →
    l₂.Pairwise (fun a b => strLe a.1 b.1 = true) →
    (l₁.map Prod.fst).Nodup → l₁ = l₂ := by
  intro l₁
  induction l₁ with
  | nil =>
    intro l₂ hp _ _ _
    exact (hp.symm.eq_nil).symm
  | cons p t ih =>
    intro l₂ hp hs₁ hs₂ hnd
    cases l₂ with
    | nil =>
      have := hp.length_eq
      simp at this
    | cons q t₂ =>
      have hpq : p = q := by
        have hq_mem : q ∈ p :: t := hp.mem_iff.mpr (List.mem_cons_self q t₂)
        have hp_mem : p ∈ q :: t₂ := hp.mem_iff.mp (List.mem_cons_self p t)
        rcases List.mem_cons.mp hq_mem with h1 | h1
        · exact h1.symm
        · rcases List.mem_cons.mp hp_mem with h2 | h2
          · exact h2
          · have hle1 : strLe p.1 q.1 = true := (List.pairwise_cons.mp hs₁).1 q h1
            have hle2 : strLe q.1 p.1 = true := (List.pairwise_cons.mp hs₂).1 p h2
            have hkeys : p.1 = q.1 := strLe_antisymm hle1 hle2
            exfalso
            have hqm : q.1 ∈ t.map Prod.fst := List.mem_map_of_mem Prod.fst h1
            rw [List.map_cons] at hnd
            exact (List.nodup_cons.mp hnd).1 (hkeys ▸ hqm)
      subst hpq
      have ht : t = t₂ := by
        refine ih hp.cons_inv (List.pairwise_cons.mp hs₁).2
          (List.pairwise_cons.mp hs₂).2 ?_
        rw [List.map_cons] at hnd
        exact (List.nodup_cons.mp hnd).2
      rw [ht]

/-- The recursive entry sort only rewrites values, never keys or order. -/
theorem sortEntries_eq_map : ∀ (l : List (String × JVal)),
    sortEntries l = l.map (fun p => (p.1, sortJVal p.2)) := by
  intro l
  induction l with
  | nil => rfl
  | cons p rest ih =>
    cases p with
    | mk k v =>
      simp only [sortEntries, List.map_cons]
      rw [ih]

/-- Sorting entry values preserves the key list. -/
theorem map_fst_sortEntries (l : List (String × JVal)) :
    (sortEntries l).map Prod.fst = l.map Prod.fst := by
  rw [sortEntries_eq_map, List.map_map]
  rfl

/-- Boolean key-distinctness agrees with `Nodup` of the key list. -/
theorem keysNodupB_iff : ∀ (l : List (String × JVal)),
    keysNodupB l = true ↔ (l.map Prod.fst).Nodup := by
  intro l
  induction l with
  | nil => simp [keysNodupB]
  | cons p rest ih =>
    cases p with
    | mk k v =>
      simp only [keysNodupB, List.map_cons, List.nodup_cons, Bool.and_eq_true,
        List.all_eq_true, bne_iff_ne, ne_eq, List.mem_map, ih]
      constructor
      · rintro ⟨h1, h2⟩
        refine ⟨?_, h2⟩
        rintro ⟨q, hq, hqe⟩
        exact h1 q hq hqe
      · rintro ⟨h1, h2⟩
        refine ⟨?_, h2⟩
        intro q hq hqe
        exact h1 ⟨q, hq, hqe⟩

/-- Equal key lists give equal key-distinctness checks. -/
theorem keysNodupB_congr {l₁ l₂ : List (String × JVal)}
    (h : l₁.map Prod.fst = l₂.map Prod.fst) : keysNodupB l₁ = keysNodupB l₂ :=
  Bool.eq_iff_iff.mpr (by rw [keysNodupB_iff, keysNodupB_iff, h])

/-- Recursive entry well-formedness is a membership property. -/
theorem wfBEntries_iff : ∀ (l : List (String × JVal)),
    wfBEntries l = true ↔ ∀ p ∈ l, wfB p.2 = true := by
  intro l
  induction l with
  | nil => simp [wfBEntries]
  | cons p rest ih =>
    cases p with
    | mk k v =>
      simp only [wfBEntries, Bool.and_eq_true, ih, List.mem_cons]
      constructor
      · rintro ⟨h1, h2⟩ q hq
        rcases hq with hq | hq
        · rw [hq]; exact h1
        · exact h2 q hq
      · intro h
        exact ⟨h (k, v) (Or.inl rfl), fun q hq => h q (Or.inr hq)⟩

/-- Logically equal values are well-formed together: equivalence preserves
the duplicate-key check. -/
theorem wfB_equiv : ∀ {a b : JVal}, JEquiv a b → wfB a = wfB b := by
  intro a b h
  refine @JEquiv.rec
    (fun a b _ => wfB a = wfB b)
    (fun xs ys _ => wfBList xs = wfBList ys)
    (fun l₁ l₂ _ => l₁.map Prod.fst = l₂.map Prod.fst ∧ wfBEntries l₁ = wfBEntries l₂)
    ?_ ?_ ?_ ?_ ?_ ?_ ?_ ?_ ?_ a b h
  · intro v; rfl
  · intro xs ys hl ih
    simp only [wfB]
    exact ih
  · intro l₁ l₂ he ih
    rcases ih with ⟨hk, hw⟩
    simp only [wfB]
    rw [hw, keysNodupB_congr hk]
  · intro l₁ l₂ hp
    simp only [wfB]
    have h1 : keysNodupB l₁ = keysNodupB l₂ :=
      Bool.eq_iff_iff.mpr (by rw [keysNodupB_iff, keysNodupB_iff]
                              exact (hp.map Prod.fst).nodup_iff)
    have h2 : wfBEntries l₁ = wfBEntries l₂ :=
      Bool.eq_iff_iff.mpr (by
        rw [wfBEntries_iff, wfBEntries_iff]
        exact ⟨fun hh p hm => hh p (hp.mem_iff.mpr hm),
               fun hh p hm => hh p (hp.mem_iff.mp hm)⟩)
    rw [h1, h2]
  · intro a b c h1 h2 ih1 ih2
    exact ih1.trans ih2
  · rfl
  · intro v w xs ys hvw hl ih1 ih2
    simp only [wfBList]
    rw [ih1, ih2]
  · exact ⟨rfl, rfl⟩
  · intro k v w l₁ l₂ hvw hl ih1 ih2
    rcases ih2 with ⟨hk, hw⟩
    refine ⟨?_, ?_⟩
    · simp only [List.map_cons]
      rw [hk]
    · simp only [wfBEntries]
      rw [ih1, hw]

/-- Logically equal well-formed values have the same recursive key sort. -/
theorem sortJVal_equiv : ∀ {a b : JVal}, JEquiv a b → wfB a = true →
    sortJVal a = sortJVal b := by
  intro a b h
  refine @JEquiv.rec
    (fun a b _ => wfB a = true → sortJVal a = sortJVal b)
    (fun xs ys _ => wfBList xs = true → sortList xs = sortList ys)
    (fun l₁ l₂ _ => wfBEntries l₁ = true → sortEntries l₁ = sortEntries l₂)
    ?_ ?_ ?_ ?_ ?_ ?_ ?_ ?_ ?_ a b h
  · intro v _; rfl
  · intro xs ys hl ih hwf
    simp only [sortJVal]
    rw [ih (by simpa [wfB] using hwf)]
  · intro l₁ l₂ he ih hwf
    have hw : wfBEntries l₁ = true := by
      have hq := hwf; simp [wfB] at hq; exact hq.2
    simp only [sortJVal]
    rw [ih hw]
  · intro l₁ l₂ hp hwf
    have hnd : keysNodupB l₁ = true := by
      have hq := hwf; simp [wfB] at hq; exact hq.1
    simp only [sortJVal]
    congr 1
    refine sorted_perm_keys_nodup_eq ?_ (keySort_pairwise _) (keySort_pairwise _) ?_
    · refine (keySort_perm _).trans (List.Perm.trans ?_ (keySort_perm _).symm)
      rw [sortEntries_eq_map, sortEntries_eq_map]
      exact hp.map _
    · have hperm : ((keySort (sortEntries l₁)).map Prod.fst).Perm (l₁.map Prod.fst) := by
        have hx := (keySort_perm (sortEntries l₁)).map Prod.fst
        rw [map_fst_sortEntries] at hx
        exact hx
      exact hperm.nodup_iff.mpr ((keysNodupB_iff l₁).mp hnd)
  · intro a b c h1 h2 ih1 ih2 hwf
    exact (ih1 hwf).trans (ih2 (by rw [← wfB_equiv h1]; exact hwf))
  · intro _; rfl
  · intro v w xs ys hvw hl ih1 ih2 hwf
    have h1 : wfB v = true ∧ wfBList xs = true := by
      have hq := hwf; simp [wfBList] at hq; exact hq
    simp only [sortList]
    rw [ih1 h1.1, ih2 h1.2]
  · intro _; rfl
  · intro k v w l₁ l₂ hvw hl ih1 ih2 hwf
    have h1 : wfB v = true ∧ wfBEntries l₁ = true := by
      have hq := hwf; simp [wfBEntries] at hq; exact hq
    simp only [sortEntries]
    rw [ih1 h1.1, ih2 h1.2]

/-- C7: for any two logically equal structured values — in particular the
same object constructed with two different key insertion orders — the
canonicalizer `jcs_canonicalize` returns byte-identical output (object keys
sorted lexicographically, compact separators, UTF-8 of the result). -/
theorem C7_canonical_determinism (u v : JVal) (h : JEquiv u v)
    (hwf : wfB u = true) : jcs_canonicalize u = jcs_canonicalize v := by
  rw [jcs_canonicalize, jcs_canonicalize, sortJVal_equiv h hwf]

/-- Witness for C7: the object {"b":1,"a":2} written in the two key
insertion orders canonicalizes to the same bytes. -/
theorem C7_canonical_determinism_witness :
    JEquiv (JVal.obj [("b", JVal.num 1), ("a", JVal.num 2)]) (JVal.obj [("a", JVal.num 2), ("b", JVal.num 1)]) ∧
    wfB (JVal.obj [("b", JVal.num 1), ("a", JVal.num 2)]) = true ∧
    jcs_canonicalize (JVal.obj [("b", JVal.num 1), ("a", JVal.num 2)]) =
      jcs_canonicalize (JVal.obj [("a", JVal.num 2), ("b", JVal.num 1)]) :=
  have hequiv : JEquiv (JVal.obj [("b", JVal.num 1), ("a", JVal.num 2)])
      (JVal.obj [("a", JVal.num 2), ("b", JVal.num 1)]) :=
    JEquiv.objPerm (List.Perm.swap ("a", JVal.num 2) ("b", JVal.num 1) [])
  ⟨hequiv, rfl, C7_canonical_determinism _ _ hequiv rfl⟩

/-- Counterexample for C9 as frozen: the single-key `create_sd_jwt_kb`
signs the key binding with the ISSUER key (here ⟨1, 2⟩) while naming the
holder key ⟨3, 4⟩ in `cnf.jwk`, so verifying its freshly created
credential fails with an invalid key-binding signature instead of
returning the original claims. -/
theorem C9_single_key_create_cx :
    verify_sd_jwt_kb
      (create_sd_jwt_kb [("scope", JVal.str "pay")] ⟨1, 2⟩ "platform_key"
        (export_public_jwk ⟨3, 4⟩ "holder_key") "cs_1" "intent-mandate+sd-jwt"
        300 1000 [byte 7])
      (export_public_jwk ⟨1, 2⟩ "platform_key") (some "cs_1") 1100 =
      .error (.valueError .invalidJwtSignature) := by
  rw [create_sd_eq]
  exact @verify_sd_kb_err _ _ _
    [("kty", JVal.str "EC"), ("crv", JVal.str "P-256"),
      ("x", JVal.str (b64urlEncode (natToBytesBE 32 (3 : Nat)))),
      ("y", JVal.str (b64urlEncode (natToBytesBE 32 (4 : Nat))))] _ _ _
    (verify_jwt_create _ _
      (jwk_to_public_key_export ⟨1, 2⟩ "platform_key" (by norm_num) (by norm_num)))
    (by
      unfold expCheck
      rw [issuerPayload_exp]
      dsimp only [pyNum?]
      rw [if_neg (by norm_num)])
    (by
      unfold cnfJwkOf
      rw [issuerPayload_cnf, cnfSubset_export]
      rfl)
    (by
      rw [← cnfSubset_export ⟨3, 4⟩ "holder_key"]
      exact verify_jwt_create_wrongkey _ _
        (jwk_to_public_key_cnf ⟨3, 4⟩ "holder_key" (by norm_num) (by norm_num))
        (by decide))

end AP2
